/-
Verification of the simhospital FHIR resource-bundle builder
(src/pkg/fhir/bundler.go, package fhir) and the allergy code convertor
(src/unnamed/part_002, package codedelement), as a shallow embedding in
Lean 4.

Go maps used as deduplication registries / code maps are embedded as
association lists with first-match lookup; a Go map assignment `m[k] = v`
is embedded as prepending `(k, v)`, so that a later assignment shadows an
earlier one exactly as in Go.  The stateful Bundler (identifier generator,
`locations` and `doctors` dedup maps) is embedded by explicit state
passing: the identifier generator is a function `gen : Nat -> String`
applied to a running counter, which models an arbitrary injected ID
generator (`b.idGenerator.NewID()`).
-/
import Mathlib

namespace SimHosp

/-- Association-list lookup with first-match semantics (embeds Go map reads;
maps themselves are built by prepending so that later writes win). -/
def alookup {α β : Type} [DecidableEq α] : List (α × β) → α → Option β
  | [], _ => none
  | (k, v) :: rest, a => if k = a then some v else alookup rest a

/-- Uppercasing used by the convertor construction; embeds Go
`strings.ToUpper` (ASCII configuration keys only are relevant here). -/
def upper (s : String) : String := String.mk (s.data.map Char.toUpper)

/-- Splitting a list of characters at every occurrence of `sep`; embeds Go
`strings.Split` with a one-character separator (empty parts are kept). -/
def splitCharAux (sep : Char) : List Char → List (List Char)
  | [] => [[]]
  | c :: cs =>
    match splitCharAux sep cs with
    | [] => [[]]
    | g :: gs => if c = sep then [] :: g :: gs else (c :: g) :: gs

/-- String split on a one-character separator, as Go `strings.Split(s, sep)`
for a one-character `sep`. -/
def splitChar (sep : Char) (s : String) : List String :=
  (splitCharAux sep s.data).map fun l => String.mk l

/- ------------------------------------------------------------------
ir data model (package ir).  The ir package itself is outside the staged
sources; the structures below carry exactly the fields the staged code
reads, with Go pointer fields embedded as `Option` where the staged code
checks them for nil, and as plain values where it dereferences
unconditionally.
------------------------------------------------------------------ -/

/-- ir.NullTime: a possibly-invalid time.  `Time` is the unix timestamp in
microseconds: the bundler reads it only through `unixMicro`, which is
therefore embedded as the identity on this field. -/
structure NullTime where
  Valid : Bool
  Time : Int
deriving DecidableEq, Repr

/-- ir.Address.  The Go field `Type` is embedded as `AddrType` (`Type` is a
Lean keyword). -/
structure Address where
  FirstLine : String
  SecondLine : String
  City : String
  PostalCode : String
  Country : String
  AddrType : String
deriving DecidableEq, Repr

/-- ir.Person, with the fields read by the bundler.  `Address` is embedded
as a plain value: `address(person.Address)` dereferences it
unconditionally. -/
structure Person where
  MRN : String
  Surname : String
  FirstName : String
  MiddleName : String
  Prefix : String
  Suffix : String
  PhoneNumber : String
  Gender : String
  DateOfDeath : NullTime
  DeathIndicator : String
  Address : Address
deriving DecidableEq, Repr

/-- ir.Doctor: a value type deduplicated by full structural equality. -/
structure Doctor where
  ID : String
  Surname : String
  FirstName : String
  Prefix : String
deriving DecidableEq, Repr

/-- ir.PatientLocation: a value type deduplicated by full structural
equality. -/
structure PatientLocation where
  Poc : String
  Room : String
  Bed : String
  Facility : String
  LocationType : String
  Building : String
  Floor : String
deriving DecidableEq, Repr

/-- ir.CodedElement: (code, display text, coding system). -/
structure CodedElement where
  ID : String
  Text : String
  CodingSystem : String
deriving DecidableEq, Repr

/-- ir.Allergy, with the fields read by `Bundler.allergies`.  The Go field
`Type` is embedded as `AllergyType`. -/
structure Allergy where
  AllergyType : String
  Description : CodedElement
  Severity : String
  Reaction : String
  IdentificationDateTime : NullTime
deriving DecidableEq, Repr

/-- ir.StatusHistory: one entry of an encounter's status history. -/
structure StatusHistory where
  Status : String
  Start : NullTime
  End : NullTime
deriving DecidableEq, Repr

/-- ir.LocationHistory: one entry of an encounter's location history;
`Location` is a Go pointer checked for nil by `Bundler.location`. -/
structure LocationHistory where
  Location : Option PatientLocation
  Start : NullTime
  End : NullTime
deriving DecidableEq, Repr

/-- ir.DiagnosisOrProcedure.  `Clinician` is a Go pointer checked for nil by
`Bundler.practitioner`; `Description` is a pointer checked for nil in
`procedure`/`condition`.  The Go field `Type` (free-text category) is
embedded as `Typ`. -/
structure DiagnosisOrProcedure where
  Clinician : Option Doctor
  DateTime : NullTime
  Description : Option CodedElement
  Typ : String
deriving DecidableEq, Repr

/-- ir.Result, with the fields read by `Bundler.observations`. -/
structure Result where
  TestName : Option CodedElement
  Value : String
  Unit : String
  Status : String
  Notes : List String
  ObservationDateTime : NullTime
deriving DecidableEq, Repr

/-- ir.Order, with the fields read by `Bundler.observations`. -/
structure Order where
  OrderDateTime : NullTime
  Results : List Result
deriving DecidableEq, Repr

/-- ir.Encounter, with the fields read by `createBundle`. -/
structure Encounter where
  Status : String
  StatusHistory : List StatusHistory
  Start : NullTime
  End : NullTime
  LocationHistory : List LocationHistory
  Procedures : List DiagnosisOrProcedure
  Diagnoses : List DiagnosisOrProcedure
  Orders : List Order
deriving DecidableEq, Repr

/-- ir.PatientInfo, with the fields read by `createBundle`.  `Person` is a
Go pointer: `patient(p.Person)` dereferences it without a nil check. -/
structure PatientInfo where
  Person : Option Person
  Class : String
  Allergies : List Allergy
  Encounters : List Encounter
deriving DecidableEq, Repr

/-- Modelled from the spec: ir.Person.Text(), the human-readable rendering
of a person used to seed narrative text (its exact content is opaque to the
bundler). -/
def personText (pe : Person) : String :=
  pe.Prefix ++ " " ++ pe.FirstName ++ " " ++ pe.Surname

/-- Modelled from the spec: ir.Person.AlternateText(), the display string
derived from the person's name that decorates references. -/
def personAlternateText (pe : Person) : String :=
  pe.FirstName ++ " " ++ pe.Surname

/-- Modelled from the spec: ir.PatientLocation.Name(), the display name of a
location. -/
def locationName (l : PatientLocation) : String :=
  l.Poc ++ " " ++ l.Room ++ " " ++ l.Bed

/-- Modelled from the spec: ir.Encounter.Text(). -/
def encounterText (ec : Encounter) : String := "Encounter " ++ ec.Status

/-- Modelled from the spec: ir.DiagnosisOrProcedure.Text(). -/
def diagProcText (d : DiagnosisOrProcedure) : String :=
  match d.Description with
  | some ce => ce.Text
  | none => d.Typ

/-- Modelled from the spec: ir.Result.Text(). -/
def resultText (r : Result) : String :=
  match r.TestName with
  | some ce => ce.Text ++ " " ++ r.Value ++ " " ++ r.Unit
  | none => r.Value ++ " " ++ r.Unit

/- ------------------------------------------------------------------
FHIR code enumerations (package cpb), restricted to the values the staged
code mentions, plus the proto zero value INVALID_UNINITIALIZED where the
staged code relies on it as the silent default.
------------------------------------------------------------------ -/

inductive BundleTypeCode where
  | INVALID_UNINITIALIZED | BATCH | COLLECTION
deriving DecidableEq, Repr

inductive AddressUseCode where
  | INVALID_UNINITIALIZED | HOME | WORK
deriving DecidableEq, Repr

inductive AddressTypeCode where
  | BOTH
deriving DecidableEq, Repr

inductive ContactPointSystemCode where
  | PHONE
deriving DecidableEq, Repr

inductive ContactPointUseCode where
  | HOME
deriving DecidableEq, Repr

inductive AdministrativeGenderCode where
  | INVALID_UNINITIALIZED | MALE | FEMALE | OTHER | UNKNOWN
deriving DecidableEq, Repr

inductive EncounterStatusCode where
  | INVALID_UNINITIALIZED | PLANNED | ARRIVED | IN_PROGRESS | FINISHED
  | CANCELLED | UNKNOWN
deriving DecidableEq, Repr

inductive NarrativeStatusCode where
  | GENERATED
deriving DecidableEq, Repr

inductive AllergyIntoleranceTypeCode where
  | ALLERGY
deriving DecidableEq, Repr

inductive AllergyIntoleranceSeverityCode where
  | INVALID_UNINITIALIZED | MILD | MODERATE | SEVERE
deriving DecidableEq, Repr

inductive AllergyIntoleranceCategoryCode where
  | INVALID_UNINITIALIZED | FOOD | MEDICATION | ENVIRONMENT | BIOLOGIC
deriving DecidableEq, Repr

inductive EventStatusCode where
  | COMPLETED
deriving DecidableEq, Repr

inductive ObservationStatusCode where
  | INVALID_UNINITIALIZED | REGISTERED | PRELIMINARY | FINAL | AMENDED
  | CANCELLED
deriving DecidableEq, Repr

inductive HTTPVerbCode where
  | POST
deriving DecidableEq, Repr

/- ------------------------------------------------------------------
Allergy code convertor (src/unnamed/part_002, package codedelement).
------------------------------------------------------------------ -/

/-- Modelled from the spec: hl7tofhirmap.DefaultAllergyIntoleranceSeverityCodeMap,
keyed by the upper-case names of the canonical severity enumeration
(cpb.AllergyIntoleranceSeverityCode_Value): the fixed canonical set the
configuration keys are validated against, case-insensitively. -/
def DefaultAllergyIntoleranceSeverityCodeMap :
    List (String × AllergyIntoleranceSeverityCode) :=
  [("INVALID_UNINITIALIZED", .INVALID_UNINITIALIZED),
   ("MILD", .MILD), ("MODERATE", .MODERATE), ("SEVERE", .SEVERE)]

/-- Modelled from the spec: hl7tofhirmap.DefaultAllergyIntoleranceCategoryCodeMap,
keyed by the upper-case names of the canonical category enumeration
(cpb.AllergyIntoleranceCategoryCode_Value). -/
def DefaultAllergyIntoleranceCategoryCodeMap :
    List (String × AllergyIntoleranceCategoryCode) :=
  [("INVALID_UNINITIALIZED", .INVALID_UNINITIALIZED),
   ("FOOD", .FOOD), ("MEDICATION", .MEDICATION),
   ("ENVIRONMENT", .ENVIRONMENT), ("BIOLOGIC", .BIOLOGIC)]

/-- Inner loop of `newSeverityMap`/`newTypeMap`: `for _, v := range vs
\x7b m[v] = c \x7d`.  Prepending makes the later write win on duplicate
aliases, as in Go. -/
def insertAliases {γ : Type} (m : List (String × γ)) (vs : List String)
    (c : γ) : List (String × γ) :=
  vs.foldl (fun acc v => (v, c) :: acc) m

/-- Loop of newSeverityMap (src/unnamed/part_002 lines 145-158) over the
configuration entries, accumulating the map `m`. -/
def newSeverityMapAux (m : List (String × AllergyIntoleranceSeverityCode)) :
    List (String × List String) →
    Except String (List (String × AllergyIntoleranceSeverityCode))
  | [] => .ok m
  | (k, vs) :: rest =>
    match alookup DefaultAllergyIntoleranceSeverityCodeMap (upper k) with
    | none => .error ("invalid allergy severity " ++ k)
    | some c => newSeverityMapAux (insertAliases m vs c) rest

/-- newSeverityMap (src/unnamed/part_002 lines 145-158): builds the
source-alias to canonical-severity map, failing on a configuration key that
does not case-insensitively name a canonical severity.  The Go map over
configuration entries is embedded as an association list traversed in list
order (a Go map's iteration order is unspecified; the error outcome and the
resulting lookup function do not depend on it). -/
def newSeverityMap (severities : List (String × List String)) :
    Except String (List (String × AllergyIntoleranceSeverityCode)) :=
  newSeverityMapAux [] severities

/-- Loop of newTypeMap (src/unnamed/part_002 lines 161-174). -/
def newTypeMapAux (m : List (String × AllergyIntoleranceCategoryCode)) :
    List (String × List String) →
    Except String (List (String × AllergyIntoleranceCategoryCode))
  | [] => .ok m
  | (k, vs) :: rest =>
    match alookup DefaultAllergyIntoleranceCategoryCodeMap (upper k) with
    | none => .error ("invalid allergy type " ++ k)
    | some c => newTypeMapAux (insertAliases m vs c) rest

/-- newTypeMap (src/unnamed/part_002 lines 161-174). -/
def newTypeMap (types : List (String × List String)) :
    Except String (List (String × AllergyIntoleranceCategoryCode)) :=
  newTypeMapAux [] types

/-- hl7tofhirmap.Convertor, restricted to the two maps the staged code
populates. -/
structure Convertor where
  AllergyIntoleranceSeverityCodeMap :
    List (String × AllergyIntoleranceSeverityCode)
  AllergyIntoleranceCategoryCodeMap :
    List (String × AllergyIntoleranceCategoryCode)
deriving DecidableEq, Repr

/-- Modelled from the spec: hl7tofhirmap.Convertor.AllergyIntoleranceSeverityCode,
the runtime translation: a map lookup that degrades silently to the
INVALID_UNINITIALIZED sentinel on an unregistered source code, never an
error. -/
def Convertor.severityCode (c : Convertor) (s : String) :
    AllergyIntoleranceSeverityCode :=
  (alookup c.AllergyIntoleranceSeverityCodeMap s).getD .INVALID_UNINITIALIZED

/-- Modelled from the spec: hl7tofhirmap.Convertor.AllergyIntoleranceCategoryCode,
with the same lookup-or-sentinel behaviour. -/
def Convertor.categoryCode (c : Convertor) (s : String) :
    AllergyIntoleranceCategoryCode :=
  (alookup c.AllergyIntoleranceCategoryCodeMap s).getD .INVALID_UNINITIALIZED

/-- AllergyConvertor (src/unnamed/part_002 lines 109-113). -/
structure AllergyConvertor where
  hl7ToFHIR : Convertor
deriving DecidableEq, Repr

/-- SeverityHL7ToFHIR (src/unnamed/part_002 lines 116-118). -/
def AllergyConvertor.SeverityHL7ToFHIR (c : AllergyConvertor)
    (severity : String) : AllergyIntoleranceSeverityCode :=
  c.hl7ToFHIR.severityCode severity

/-- TypeHL7ToFHIR (src/unnamed/part_002 lines 121-123). -/
def AllergyConvertor.TypeHL7ToFHIR (c : AllergyConvertor)
    (allergyType : String) : AllergyIntoleranceCategoryCode :=
  c.hl7ToFHIR.categoryCode allergyType

/-- The part of config.HL7Config read by NewAllergyConvertor
(hc.Mapping.FHIR.AllergySeverities / AllergyTypes). -/
structure FHIRMapping where
  AllergySeverities : List (String × List String)
  AllergyTypes : List (String × List String)
deriving DecidableEq, Repr

/-- NewAllergyConvertor (src/unnamed/part_002 lines 126-141). -/
def NewAllergyConvertor (hc : FHIRMapping) : Except String AllergyConvertor :=
  match newSeverityMap hc.AllergySeverities with
  | .error e => .error e
  | .ok severityMap =>
    match newTypeMap hc.AllergyTypes with
    | .error e => .error e
    | .ok typeMap => .ok ⟨⟨severityMap, typeMap⟩⟩

/-- True when an Except value is an error. -/
def isErr {ε α : Type} : Except ε α → Bool
  | .error _ => true
  | .ok _ => false

/-- All source aliases registered by a convertor configuration (the union of
the alias lists of its entries). -/
def allAliases (es : List (String × List String)) : List String :=
  (es.map Prod.snd).flatten

/- ------------------------------------------------------------------
FHIR datatypes (package dpb), restricted to the fields the staged code
sets.  A Go `*dpb.DateTime` is embedded as `Option Int` (the microsecond
timestamp produced by `dateTime`, nil when the NullTime is invalid).
------------------------------------------------------------------ -/

/-- dpb.Reference together with the type of its target, as produced by the
fhircore helpers; modelled from the spec: a cross-reference carries the
target's type and identifier plus an optional display string. -/
structure Reference where
  RefType : String
  RefId : String
  Display : Option String
deriving DecidableEq, Repr

/-- dpb.Period: start and end instants. -/
structure PeriodT where
  Start : Option Int
  End : Option Int
deriving DecidableEq, Repr

/-- dpb.Narrative: the rendered xhtml and the generation status. -/
structure Narrative where
  Div : String
  Status : NarrativeStatusCode
deriving DecidableEq, Repr

/-- dpb.HumanName, with the fields set by `humanName`. -/
structure HumanName where
  Family : String
  Given : List String
  Prefix : List String
  Suffix : List String
deriving DecidableEq, Repr

/-- dpb.Address, with the fields set by `address`.  The Go field `Type` is
embedded as `AType`. -/
structure Addr where
  Use : AddressUseCode
  AType : AddressTypeCode
  Line : List String
  City : String
  PostalCode : String
  Country : String
deriving DecidableEq, Repr

/-- dpb.ContactPoint, with the fields set by `telecom`. -/
structure ContactPoint where
  Value : String
  System : ContactPointSystemCode
  Use : ContactPointUseCode
deriving DecidableEq, Repr

/-- patientpb.Patient_DeceasedX: either a death time or a boolean flag. -/
inductive DeceasedX where
  | dateTime (t : Option Int)
  | boolean (b : Bool)
deriving DecidableEq, Repr

/-- dpb.Coding, with the fields set by the staged code. -/
structure Coding where
  System : String
  Code : String
  Display : String
deriving DecidableEq, Repr

/-- dpb.CodeableConcept: codings plus the free-text fallback. -/
structure CodeableConcept where
  Coding : List Coding
  Text : Option String
deriving DecidableEq, Repr

/-- dpb.Annotation, with the field set by `Bundler.notes` (`Text` is the
markdown value). -/
structure Annot where
  Text : String
deriving DecidableEq, Repr

/-- dpb.Quantity, with the fields set by `observations`. -/
structure QuantityT where
  Value : String
  Unit : String
deriving DecidableEq, Repr

/- ------------------------------------------------------------------
FHIR resources (the closed set the bundler emits), restricted to the
fields the staged code sets.
------------------------------------------------------------------ -/

/-- patientpb.Patient, fields set in `Bundler.patient`. -/
structure PatientR where
  Id : String
  Identifier : List String
  Name : List HumanName
  Address : List Addr
  Deceased : DeceasedX
  Telecom : List ContactPoint
  Gender : AdministrativeGenderCode
  Text : Narrative
deriving DecidableEq, Repr

/-- aipb.AllergyIntolerance_Reaction. -/
structure ReactionT where
  Manifestation : List CodeableConcept
  Severity : AllergyIntoleranceSeverityCode
deriving DecidableEq, Repr

/-- aipb.AllergyIntolerance, fields set in `Bundler.allergies`.  The Go
field `Type` is embedded as `AType`. -/
structure AllergyIntoleranceR where
  Id : String
  ClinicalStatus : CodeableConcept
  AType : AllergyIntoleranceTypeCode
  Category : List AllergyIntoleranceCategoryCode
  Reaction : List ReactionT
  Code : CodeableConcept
  RecordedDate : Option Int
  Patient : Reference
deriving DecidableEq, Repr

/-- encounterpb.Encounter_StatusHistory. -/
structure EncounterStatusHistoryT where
  Status : EncounterStatusCode
  Period : PeriodT
deriving DecidableEq, Repr

/-- encounterpb.Encounter_Location: the location reference may be nil (a
location-history entry with an absent location still appends a period
entry). -/
structure EncounterLocationT where
  Location : Option Reference
  Period : PeriodT
deriving DecidableEq, Repr

/-- encounterpb.Encounter_Diagnosis: a diagnosis-link to a condition or a
procedure. -/
structure EncounterDiagnosisT where
  Condition : Reference
deriving DecidableEq, Repr

/-- encounterpb.Encounter, fields set in `Bundler.encounter` and mutated by
`createBundle` (Location, Diagnosis). -/
structure EncounterR where
  Id : String
  Text : Narrative
  ClassValue : String
  Status : EncounterStatusCode
  Period : PeriodT
  StatusHistory : List EncounterStatusHistoryT
  Location : List EncounterLocationT
  Diagnosis : List EncounterDiagnosisT
deriving DecidableEq, Repr

/-- locationpb.Location, fields set in `Bundler.location`. -/
structure LocationR where
  Id : String
  Name : String
  Text : Narrative
deriving DecidableEq, Repr

/-- procedurepb.Procedure_Performer. -/
structure PerformerT where
  Actor : Option Reference
deriving DecidableEq, Repr

/-- procedurepb.Procedure, fields set in `Bundler.procedure`. -/
structure ProcedureR where
  Id : String
  Performed : Option Int
  Status : EventStatusCode
  Category : CodeableConcept
  Encounter : Reference
  Performer : List PerformerT
  Text : Narrative
  Subject : Reference
  Code : Option CodeableConcept
deriving DecidableEq, Repr

/-- conditionpb.Condition, fields set in `Bundler.condition`. -/
structure ConditionR where
  Id : String
  RecordedDate : Option Int
  Recorder : Option Reference
  Encounter : Reference
  Text : Narrative
  Subject : Reference
  Code : Option CodeableConcept
deriving DecidableEq, Repr

/-- observationpb.Observation, fields set in `Bundler.observations`. -/
structure ObservationR where
  Encounter : Reference
  Subject : Reference
  Id : String
  Note : List Annot
  Status : ObservationStatusCode
  Text : Narrative
  Effective : Option Int
  Value : QuantityT
  Code : Option CodeableConcept
deriving DecidableEq, Repr

/-- practitionerpb.Practitioner, fields set in `Bundler.practitioner`. -/
structure PractitionerR where
  Id : String
  Identifier : List String
  Name : List HumanName
  Text : Narrative
deriving DecidableEq, Repr

/-- r4pb.ContainedResource: the closed set of resource payloads the bundler
emits. -/
inductive ContainedResource where
  | patient (r : PatientR)
  | allergyIntolerance (r : AllergyIntoleranceR)
  | encounter (r : EncounterR)
  | location (r : LocationR)
  | procedure (r : ProcedureR)
  | condition (r : ConditionR)
  | observation (r : ObservationR)
  | practitioner (r : PractitionerR)
deriving DecidableEq, Repr

/-- The FHIR resource type name of a contained resource. -/
def ContainedResource.typeName : ContainedResource → String
  | .patient _ => "Patient"
  | .allergyIntolerance _ => "AllergyIntolerance"
  | .encounter _ => "Encounter"
  | .location _ => "Location"
  | .procedure _ => "Procedure"
  | .condition _ => "Condition"
  | .observation _ => "Observation"
  | .practitioner _ => "Practitioner"

/-- The Id field of a contained resource. -/
def ContainedResource.resId : ContainedResource → String
  | .patient r => r.Id
  | .allergyIntolerance r => r.Id
  | .encounter r => r.Id
  | .location r => r.Id
  | .procedure r => r.Id
  | .condition r => r.Id
  | .observation r => r.Id
  | .practitioner r => r.Id

/-- r4pb.Bundle_Entry_Request, fields set by `request`. -/
structure RequestT where
  Url : String
  Method : HTTPVerbCode
deriving DecidableEq, Repr

/-- r4pb.Bundle_Entry, with the fields the staged code sets. -/
structure Bundle_Entry where
  Resource : ContainedResource
  FullUrl : Option String
  Request : Option RequestT
deriving DecidableEq, Repr

/-- r4pb.Bundle.  The Go field `Type` is embedded as `BType`. -/
structure Bundle where
  BType : BundleTypeCode
  Entry : List Bundle_Entry
deriving DecidableEq, Repr

/- ------------------------------------------------------------------
The Bundler (src/pkg/fhir/bundler.go).  Its immutable configuration
(bundle type, injected identifier generator, code convertors) is `BConfig`;
its mutable state (identifier counter, dedup registries `locations` and
`doctors`) is `BState`, threaded explicitly.
------------------------------------------------------------------ -/

/-- Immutable Bundler configuration.  `gen n` is the string returned by the
n-th call of `b.idGenerator.NewID()`, which models an arbitrary injected
generator; `gcF`, `ccF` and `ocF` embed the gender, coding-system and
observation-status convertors (`b.gc.HL7ToFHIR`, `b.cc.HL7ToFHIR`,
`b.oc.HL7ToFHIR`), which are opaque collaborators of the staged code. -/
structure BConfig where
  bundleTypeCode : BundleTypeCode
  gen : Nat → String
  ac : AllergyConvertor
  gcF : String → AdministrativeGenderCode
  ccF : String → String
  ocF : String → ObservationStatusCode

/-- Mutable Bundler state: the position of the identifier generator and the
`locations` / `doctors` dedup maps (never reset by the staged code). -/
structure BState where
  nextID : Nat
  locations : List (PatientLocation × Reference)
  doctors : List (Doctor × Reference)
deriving DecidableEq, Repr

/-- One call of b.idGenerator.NewID(): the generated id and the advanced
state. -/
def newID (c : BConfig) (s : BState) : String × BState :=
  (c.gen s.nextID, { s with nextID := s.nextID + 1 })

/-- dateTime (bundler.go lines 469-474): nil for an invalid NullTime,
otherwise the microsecond timestamp (`unixMicro` is the identity in this
embedding, see `NullTime`). -/
def dateTime (t : NullTime) : Option Int :=
  if t.Valid then some t.Time else none

/-- identifier (bundler.go lines 238-240). -/
def identifier (id : String) : List String := [id]

/-- humanName (bundler.go lines 242-257). -/
def humanName (pe : Person) : List HumanName :=
  [{ Family := pe.Surname
     Given := if pe.MiddleName = "" then [pe.FirstName]
              else [pe.FirstName, pe.MiddleName]
     Prefix := if pe.Prefix = "" then [] else [pe.Prefix]
     Suffix := if pe.Suffix = "" then [] else [pe.Suffix] }]

/-- telecom (bundler.go lines 259-268). -/
def telecom (phone : String) : List ContactPoint :=
  if phone = "" then []
  else [{ Value := phone, System := .PHONE, Use := .HOME }]

/-- deceased (bundler.go lines 270-283). -/
def deceased (pe : Person) : DeceasedX :=
  if pe.DateOfDeath.Valid then .dateTime (dateTime pe.DateOfDeath)
  else .boolean (pe.DeathIndicator ≠ "")

/-- internalToFHIRAddressType (bundler.go lines 58-61), a Go map read whose
zero value is INVALID_UNINITIALIZED. -/
def internalToFHIRAddressType (s : String) : AddressUseCode :=
  if s = "HOME" then .HOME else if s = "WORK" then .WORK
  else .INVALID_UNINITIALIZED

/-- address (bundler.go lines 285-300). -/
def address (a : Address) : List Addr :=
  [{ Use := internalToFHIRAddressType a.AddrType
     AType := .BOTH
     Line := if a.SecondLine = "" then [a.FirstLine]
             else [a.FirstLine, a.SecondLine]
     City := a.City
     PostalCode := a.PostalCode
     Country := a.Country }]

/-- internalToFHIREncounterStatus (bundler.go lines 64-71) with the
pkg/constants status strings (modelled from the spec's enumeration:
planned, arrived, in-progress, finished, cancelled, unknown); a missing key
reads as the zero value INVALID_UNINITIALIZED. -/
def internalToFHIREncounterStatus (s : String) : EncounterStatusCode :=
  if s = "planned" then .PLANNED
  else if s = "in-progress" then .IN_PROGRESS
  else if s = "arrived" then .ARRIVED
  else if s = "finished" then .FINISHED
  else if s = "cancelled" then .CANCELLED
  else if s = "unknown" then .UNKNOWN
  else .INVALID_UNINITIALIZED

/-- narrative (bundler.go lines 411-427): skip empty paragraphs, split the
rest on line breaks, wrap each line in a p element, wrap the whole in a div
and mark it GENERATED.  The Go variadic parameter is a list; the
strings.Builder is a string accumulator. -/
def narrative (paragraphs : List String) : Narrative :=
  { Div := "<div>" ++
      (paragraphs.foldl
        (fun acc p =>
          if p = "" then acc
          else (splitChar '\n' p).foldl
            (fun acc2 s => acc2 ++ "<p>" ++ s ++ "</p>") acc)
        "") ++ "</div>"
    Status := .GENERATED }

/-- codeableConcept (bundler.go lines 227-236). -/
def codeableConcept (c : BConfig) (ce : CodedElement) : CodeableConcept :=
  { Coding := [{ System := c.ccF ce.CodingSystem
                 Code := ce.ID
                 Display := ce.Text }]
    Text := none }

/-- statusHistory (bundler.go lines 351-366). -/
def statusHistory (sh : List StatusHistory) : List EncounterStatusHistoryT :=
  sh.map fun s =>
    { Status := internalToFHIREncounterStatus s.Status
      Period := { Start := dateTime s.Start, End := dateTime s.End } }

/-- encounterLocation (bundler.go lines 332-340). -/
def encounterLocation (locationRef : Option Reference)
    (start terminus : NullTime) : EncounterLocationT :=
  { Location := locationRef
    Period := { Start := dateTime start, End := dateTime terminus } }

/-- encounterDiagnosis (bundler.go lines 345-349). -/
def encounterDiagnosis (ref : Reference) : EncounterDiagnosisT :=
  { Condition := ref }

/-- notes (bundler.go lines 460-467). -/
def notes (ns : List String) : List Annot :=
  ns.map fun n => { Text := n }

/-- request (bundler.go lines 577-585). -/
def request (url : String) : RequestT :=
  { Url := url, Method := .POST }

/-- addURL (bundler.go lines 591-597): sets FullUrl to url/id and, when the
bundle type is Batch, the Request descriptor. -/
def addURL (c : BConfig) (entry : Bundle_Entry) (id url : String) :
    Bundle_Entry :=
  { entry with
    Request := if c.bundleTypeCode = .BATCH then some (request url)
               else entry.Request
    FullUrl := some (url ++ "/" ++ id) }

/-- Bundler.patient (bundler.go lines 153-179). -/
def patient (c : BConfig) (s : BState) (person : Person) :
    Bundle_Entry × Reference × BState :=
  let (id, s1) := newID c s
  let entry : Bundle_Entry :=
    { Resource := .patient
        { Id := id
          Identifier := identifier person.MRN
          Name := humanName person
          Address := address person.Address
          Deceased := deceased person
          Telecom := telecom person.PhoneNumber
          Gender := c.gcF person.Gender
          Text := narrative [personText person] }
      FullUrl := none
      Request := none }
  let ref : Reference :=
    { RefType := "Patient", RefId := id
      Display := some (personAlternateText person) }
  (addURL c entry id "Patient", ref, s1)

/-- Bundler.allergies (bundler.go lines 181-225), one entry per allergy in
record order. -/
def allergies (c : BConfig) (s : BState) (patientRef : Reference) :
    List Allergy → List Bundle_Entry × BState
  | [] => ([], s)
  | a :: rest =>
    let (id, s1) := newID c s
    let entry : Bundle_Entry :=
      { Resource := .allergyIntolerance
          { Id := id
            ClinicalStatus :=
              { Coding := [{ Code := "active"
                             System := "http://terminology.hl7.org/CodeSystem/allergyintolerance-clinical"
                             Display := "Active" }]
                Text := none }
            AType := .ALLERGY
            Category := [c.ac.TypeHL7ToFHIR a.AllergyType]
            Reaction := [{ Manifestation := [{ Coding := []
                                               Text := some a.Reaction }]
                           Severity := c.ac.SeverityHL7ToFHIR a.Severity }]
            Code := codeableConcept c a.Description
            RecordedDate := dateTime a.IdentificationDateTime
            Patient := patientRef }
        FullUrl := none
        Request := none }
    let (es, s2) := allergies c s1 patientRef rest
    (addURL c entry id "AllergyIntolerance" :: es, s2)

/-- Bundler.encounter (bundler.go lines 302-330).  Location and Diagnosis
start as the proto zero value (empty) and are appended to by the
createBundle loop, embedded by `setEncounterFields`. -/
def encounter (c : BConfig) (s : BState) (ec : Encounter) (cl : String) :
    Bundle_Entry × Reference × BState :=
  let (id, s1) := newID c s
  let entry : Bundle_Entry :=
    { Resource := .encounter
        { Id := id
          Text := narrative [encounterText ec]
          ClassValue := cl
          Status := internalToFHIREncounterStatus ec.Status
          Period := { Start := dateTime ec.Start, End := dateTime ec.End }
          StatusHistory := statusHistory ec.StatusHistory
          Location := []
          Diagnosis := [] }
      FullUrl := none
      Request := none }
  let ref : Reference := { RefType := "Encounter", RefId := id
                           Display := none }
  (addURL c entry id "Encounter", ref, s1)

/-- The appends `e.Location = append(...)` / `e.Diagnosis = append(...)`
performed by createBundle on the encounter resource held by the
already-constructed entry (bundler.go lines 110-133), applied in one step
after the per-encounter loops. -/
def setEncounterFields (entry : Bundle_Entry)
    (locs : List EncounterLocationT) (diags : List EncounterDiagnosisT) :
    Bundle_Entry :=
  match entry.Resource with
  | .encounter e =>
    let e2 : EncounterR :=
      { e with Location := e.Location ++ locs
               Diagnosis := e.Diagnosis ++ diags }
    { entry with Resource := .encounter e2 }
  | _ => entry

/-- Bundler.location (bundler.go lines 429-458): nil location gives no
entry and no reference; a location already in the dedup registry gives no
entry and the registered reference; otherwise a new Location resource is
materialized and registered. -/
def location (c : BConfig) (s : BState) :
    Option PatientLocation → Option Bundle_Entry × Option Reference × BState
  | none => (none, none, s)
  | some l =>
    match alookup s.locations l with
    | some ref => (none, some ref, s)
    | none =>
      let (id, s1) := newID c s
      let name := locationName l
      let entry : Bundle_Entry :=
        { Resource := .location
            { Id := id, Name := name, Text := narrative [name] }
          FullUrl := none
          Request := none }
      let ref : Reference := { RefType := "Location", RefId := id
                               Display := some name }
      (some (addURL c entry id "Location"), some ref,
       { s1 with locations := (l, ref) :: s1.locations })

/-- Bundler.practitioner (bundler.go lines 541-575), symmetric to
`location` over the `doctors` registry. -/
def practitioner (c : BConfig) (s : BState) :
    Option Doctor → Option Bundle_Entry × Option Reference × BState
  | none => (none, none, s)
  | some doctor =>
    match alookup s.doctors doctor with
    | some ref => (none, some ref, s)
    | none =>
      let (id, s1) := newID c s
      let person : Person :=
        { MRN := "", Surname := doctor.Surname
          FirstName := doctor.FirstName, MiddleName := ""
          Prefix := doctor.Prefix, Suffix := ""
          PhoneNumber := "", Gender := ""
          DateOfDeath := { Valid := false, Time := 0 }
          DeathIndicator := ""
          Address := { FirstLine := "", SecondLine := "", City := ""
                       PostalCode := "", Country := "", AddrType := "" } }
      let entry : Bundle_Entry :=
        { Resource := .practitioner
            { Id := id
              Identifier := identifier doctor.ID
              Name := humanName person
              Text := narrative [personText person] }
          FullUrl := none
          Request := none }
      let ref : Reference := { RefType := "Practitioner", RefId := id
                               Display := some (personAlternateText person) }
      (some (addURL c entry id "Practitioner"), some ref,
       { s1 with doctors := (doctor, ref) :: s1.doctors })

/-- Bundler.procedure (bundler.go lines 476-511): always a new resource,
never deduplicated. -/
def procedure (c : BConfig) (s : BState) (pr : DiagnosisOrProcedure)
    (patientRef : Reference) (practitionerRef : Option Reference)
    (encounterRef : Reference) : Bundle_Entry × Reference × BState :=
  let (id, s1) := newID c s
  let entry : Bundle_Entry :=
    { Resource := .procedure
        { Id := id
          Performed := dateTime pr.DateTime
          Status := .COMPLETED
          Category := { Coding := [], Text := some pr.Typ }
          Encounter := encounterRef
          Performer := [{ Actor := practitionerRef }]
          Text := narrative [diagProcText pr]
          Subject := patientRef
          Code := pr.Description.map (codeableConcept c) }
      FullUrl := none
      Request := none }
  let ref : Reference := { RefType := "Procedure", RefId := id
                           Display := some (diagProcText pr) }
  (addURL c entry id "Procedure", ref, s1)

/-- Bundler.condition (bundler.go lines 513-539). -/
def condition (c : BConfig) (s : BState) (d : DiagnosisOrProcedure)
    (patientRef : Reference) (practitionerRef : Option Reference)
    (encounterRef : Reference) : Bundle_Entry × Reference × BState :=
  let (id, s1) := newID c s
  let entry : Bundle_Entry :=
    { Resource := .condition
        { Id := id
          RecordedDate := dateTime d.DateTime
          Recorder := practitionerRef
          Encounter := encounterRef
          Text := narrative [diagProcText d]
          Subject := patientRef
          Code := d.Description.map (codeableConcept c) }
      FullUrl := none
      Request := none }
  let ref : Reference := { RefType := "Condition", RefId := id
                           Display := some (diagProcText d) }
  (addURL c entry id "Condition", ref, s1)

/-- The Observation entry constructed for one result inside
Bundler.observations (bundler.go lines 372-404), before addURL. -/
def observationEntry (c : BConfig) (id : String) (r : Result)
    (order : Order) (encounterRef patientRef : Reference) : Bundle_Entry :=
  { Resource := .observation
      { Encounter := encounterRef
        Subject := patientRef
        Id := id
        Note := notes r.Notes
        Status := c.ocF r.Status
        Text := narrative [resultText r, String.intercalate "; " r.Notes]
        Effective := dateTime order.OrderDateTime
        Value := { Value := r.Value, Unit := r.Unit }
        Code := r.TestName.map (codeableConcept c) }
    FullUrl := none
    Request := none }

/-- Loop body of Bundler.observations (bundler.go lines 368-409) over the
results of one order. -/
def resultsLoop (c : BConfig) (s : BState) (encounterRef patientRef :
    Reference) (order : Order) : List Result → List Bundle_Entry × BState
  | [] => ([], s)
  | r :: rest =>
    let (id, s1) := newID c s
    let entry := observationEntry c id r order encounterRef patientRef
    let (es, s2) := resultsLoop c s1 encounterRef patientRef order rest
    (addURL c entry id "Observation" :: es, s2)

/-- Bundler.observations (bundler.go lines 368-409). -/
def observations (c : BConfig) (s : BState) (encounterRef patientRef :
    Reference) (order : Order) : List Bundle_Entry × BState :=
  resultsLoop c s encounterRef patientRef order order.Results

/-- Location-history loop of createBundle (bundler.go lines 111-115): the
bundle entries to append (nil entries are skipped by addEntry) and the
location-period entries appended to the encounter resource. -/
def locLoop (c : BConfig) (s : BState) :
    List LocationHistory →
    List Bundle_Entry × List EncounterLocationT × BState
  | [] => ([], [], s)
  | lh :: rest =>
    let (oe, orf, s1) := location c s lh.Location
    let (es, ls, s2) := locLoop c s1 rest
    (oe.toList ++ es, encounterLocation orf lh.Start lh.End :: ls, s2)

/-- Procedure loop of createBundle (bundler.go lines 117-124): practitioner
and procedure entries in interleaved record order, and the diagnosis-links
appended to the encounter resource. -/
def procLoop (c : BConfig) (s : BState) (patientRef encounterRef :
    Reference) : List DiagnosisOrProcedure →
    List Bundle_Entry × List EncounterDiagnosisT × BState
  | [] => ([], [], s)
  | pr :: rest =>
    let (oe, orf, s1) := practitioner c s pr.Clinician
    let (procE, procRef, s2) := procedure c s1 pr patientRef orf encounterRef
    let (es, ds, s3) := procLoop c s2 patientRef encounterRef rest
    (oe.toList ++ procE :: es, encounterDiagnosis procRef :: ds, s3)

/-- Diagnosis loop of createBundle (bundler.go lines 126-133), symmetric to
the procedure loop but materializing Condition resources. -/
def diagLoop (c : BConfig) (s : BState) (patientRef encounterRef :
    Reference) : List DiagnosisOrProcedure →
    List Bundle_Entry × List EncounterDiagnosisT × BState
  | [] => ([], [], s)
  | d :: rest =>
    let (oe, orf, s1) := practitioner c s d.Clinician
    let (condE, condRef, s2) := condition c s1 d patientRef orf encounterRef
    let (es, ds, s3) := diagLoop c s2 patientRef encounterRef rest
    (oe.toList ++ condE :: es, encounterDiagnosis condRef :: ds, s3)

/-- Order loop of createBundle (bundler.go lines 136-139). -/
def ordersLoop (c : BConfig) (s : BState) (encounterRef patientRef :
    Reference) : List Order → List Bundle_Entry × BState
  | [] => ([], s)
  | o :: rest =>
    let (es, s1) := observations c s encounterRef patientRef o
    let (es2, s2) := ordersLoop c s1 encounterRef patientRef rest
    (es ++ es2, s2)

/-- Encounter loop of createBundle (bundler.go lines 107-140): per
encounter, the encounter entry is materialized first (consuming its id),
the location/procedure/diagnosis loops run and mutate its resource, the
completed encounter entry is appended after the diagnosis loop, and the
order loop appends the observations. -/
def encLoop (c : BConfig) (s : BState) (patientRef : Reference)
    (cl : String) : List Encounter → List Bundle_Entry × BState
  | [] => ([], s)
  | ec :: rest =>
    let (encE, encRef, s1) := encounter c s ec cl
    let (locEs, eLocs, s2) := locLoop c s1 ec.LocationHistory
    let (procEs, procDs, s3) := procLoop c s2 patientRef encRef ec.Procedures
    let (condEs, condDs, s4) := diagLoop c s3 patientRef encRef ec.Diagnoses
    let encE2 := setEncounterFields encE eLocs (procDs ++ condDs)
    let (obsEs, s5) := ordersLoop c s4 encRef patientRef ec.Orders
    let (restEs, s6) := encLoop c s5 patientRef cl rest
    (locEs ++ procEs ++ condEs ++ encE2 :: (obsEs ++ restEs), s6)

/-- createBundle (bundler.go lines 92-142), for a PatientInfo whose Person
is present.  The bundle type is set twice in Go; the net effect is the
configured `bundleTypeCode`. -/
def createBundle (c : BConfig) (s : BState) (p : PatientInfo)
    (person : Person) : Bundle × BState :=
  let (patientE, patientRef, s1) := patient c s person
  let (allergyEs, s2) := allergies c s1 patientRef p.Allergies
  let (encEs, s3) := encLoop c s2 patientRef p.Class p.Encounters
  ({ BType := c.bundleTypeCode
     Entry := patientE :: (allergyEs ++ encEs) }, s3)

/-- Outcome of one Generate call: the error returned for nil input, the
run-time nil-pointer panic raised when `patient` dereferences an absent
Person, or the completed bundle with the Bundler's post-state. -/
inductive GenerateOutcome where
  | invalidInput (msg : String)
  | nilDereference
  | ok (b : Bundle) (s : BState)
deriving DecidableEq, Repr

/-- Bundler.Generate (bundler.go lines 83-88): rejects a nil PatientInfo
with an error; otherwise runs createBundle, which dereferences p.Person
without a nil check (a nil Person is a run-time panic, not a returned
error). -/
def Generate (c : BConfig) (s : BState) :
    Option PatientInfo → GenerateOutcome
  | none => .invalidInput "cannot generate resources from nil PatientInfo"
  | some p =>
    match p.Person with
    | none => .nilDereference
    | some person =>
      let (b, s1) := createBundle c s p person
      .ok b s1

/-- The bundle of an ok outcome (an empty batch bundle otherwise); used to
phrase closed witness statements. -/
def GenerateOutcome.bundleOf : GenerateOutcome → Bundle
  | .ok b _ => b
  | _ => { BType := .BATCH, Entry := [] }

/-- The post-state of an ok outcome (the given default otherwise). -/
def GenerateOutcome.stateOf (dflt : BState) : GenerateOutcome → BState
  | .ok _ s => s
  | _ => dflt

/-- True when a Generate outcome is the InvalidInputError return of
`Generate` (as opposed to a run-time panic or a bundle). -/
def GenerateOutcome.isInvalidInput : GenerateOutcome → Bool
  | .invalidInput _ => true
  | _ => false

/- ------------------------------------------------------------------
Observation predicates over bundles, used to state the claims.
------------------------------------------------------------------ -/

/-- True when the entry's resource is a Patient. -/
def isPatientEntry (e : Bundle_Entry) : Bool :=
  match e.Resource with
  | .patient _ => true
  | _ => false

/-- True when the entry's resource is a Location. -/
def isLocationEntry (e : Bundle_Entry) : Bool :=
  match e.Resource with
  | .location _ => true
  | _ => false

/-- True when the entry's resource is a Practitioner. -/
def isPractitionerEntry (e : Bundle_Entry) : Bool :=
  match e.Resource with
  | .practitioner _ => true
  | _ => false

/-- True when the entry's resource is an Encounter. -/
def isEncounterEntry (e : Bundle_Entry) : Bool :=
  match e.Resource with
  | .encounter _ => true
  | _ => false

/-- The semantic cross-references a bundle entry carries: Patient subjects,
Encounter backlinks, Practitioner performers/recorders, Location references
of encounter location-period entries and diagnosis-links.  (Display strings
are not references.) -/
def entryRefs (e : Bundle_Entry) : List Reference :=
  match e.Resource with
  | .patient _ => []
  | .allergyIntolerance r => [r.Patient]
  | .encounter r =>
    r.Location.filterMap (fun el => el.Location) ++
      r.Diagnosis.map (fun d => d.Condition)
  | .location _ => []
  | .procedure r =>
    [r.Subject, r.Encounter] ++ r.Performer.filterMap (fun pf => pf.Actor)
  | .condition r => [r.Subject, r.Encounter] ++ r.Recorder.toList
  | .observation r => [r.Subject, r.Encounter]
  | .practitioner _ => []

/-- A reference resolves in an entry list when some entry's resource has the
referenced type and identifier. -/
def resolves (es : List Bundle_Entry) (r : Reference) : Prop :=
  ∃ e ∈ es, e.Resource.typeName = r.RefType ∧ e.Resource.resId = r.RefId

/-- Every reference stored in the dedup registries resolves in the given
entry list. -/
def MapsResolve (s : BState) (es : List Bundle_Entry) : Prop :=
  (∀ lr ∈ s.locations, resolves es lr.2) ∧
  (∀ dr ∈ s.doctors, resolves es dr.2)

/-- The resource ids of the entries are the images under `gen` of a
strictly increasing list of indices drawn from [lo, hi): the shape in which
entries consume identifier-generator outputs. -/
def IdsSpec (gen : Nat → String) (lo hi : Nat) (es : List Bundle_Entry) :
    Prop :=
  ∃ ks : List Nat,
    es.map (fun e => e.Resource.resId) = ks.map gen ∧
    ks.Nodup ∧ ∀ k ∈ ks, lo ≤ k ∧ k < hi

/-- Well-formedness of one bundle entry as produced through `addURL`:
FullUrl is TypeName/id, and the request descriptor is present (a POST to
the type name) exactly when the bundle type is Batch. -/
def entryWF (c : BConfig) (e : Bundle_Entry) : Prop :=
  e.FullUrl = some (e.Resource.typeName ++ "/" ++ e.Resource.resId) ∧
  (c.bundleTypeCode = .BATCH →
    e.Request = some (request e.Resource.typeName)) ∧
  (c.bundleTypeCode ≠ .BATCH → e.Request = none)

/- ------------------------------------------------------------------
Concrete inputs used by the witness theorems.
------------------------------------------------------------------ -/

/-- An injective identifier generator: n is sent to a string of n+1 letters
i. -/
def wGen : Nat → String := fun n => String.mk (List.replicate (n + 1) 'i')

/-- A concrete convertor configuration: severity alias sv for MILD. -/
def wMapping : FHIRMapping :=
  { AllergySeverities := [("MILD", ["sv"])], AllergyTypes := [] }

/-- A concrete Bundler configuration with batch bundle type. -/
def wCfg : BConfig :=
  { bundleTypeCode := .BATCH
    gen := wGen
    ac := { hl7ToFHIR := { AllergyIntoleranceSeverityCodeMap := [("sv", .MILD)]
                           AllergyIntoleranceCategoryCodeMap := [] } }
    gcF := fun _ => .MALE
    ccF := fun s => s
    ocF := fun _ => .FINAL }

/-- The same configuration with the collection bundle type. -/
def wCfgCollection : BConfig := { wCfg with bundleTypeCode := .COLLECTION }

/-- A fresh Bundler state. -/
def wState : BState := { nextID := 0, locations := [], doctors := [] }

/-- A concrete person. -/
def wPerson : Person :=
  { MRN := "mrn-1", Surname := "Smith", FirstName := "Dave"
    MiddleName := "", Prefix := "", Suffix := ""
    PhoneNumber := "", Gender := "M"
    DateOfDeath := { Valid := false, Time := 0 }, DeathIndicator := ""
    Address := { FirstLine := "6 Pancras Square", SecondLine := ""
                 City := "London", PostalCode := "N1C 4AG"
                 Country := "GBR", AddrType := "HOME" } }

/-- A concrete location value. -/
def wLoc : PatientLocation :=
  { Poc := "2 West", Room := "Bay01", Bed := "10", Facility := "FACILITY"
    LocationType := "BED", Building := "BUILDING", Floor := "Floor 1" }

/-- A concrete doctor. -/
def wDoc : Doctor :=
  { ID := "111", Surname := "Jensen", FirstName := "Alan", Prefix := "Dr" }

/-- A second doctor, differing from `wDoc`. -/
def wDoc2 : Doctor :=
  { ID := "222", Surname := "Leach", FirstName := "Lorene", Prefix := "Dr" }

/-- A valid time with the given timestamp. -/
def wT (n : Int) : NullTime := { Valid := true, Time := n }

/-- An encounter with a duplicated location, two procedures by the same
doctor and one order with one result. -/
def wEnc : Encounter :=
  { Status := "finished", StatusHistory := []
    Start := wT 10, End := wT 20
    LocationHistory := [{ Location := some wLoc, Start := wT 1, End := wT 2 },
                        { Location := some wLoc, Start := wT 3, End := wT 4 }]
    Procedures := [{ Clinician := some wDoc, DateTime := wT 5
                     Description := none, Typ := "surgery" },
                   { Clinician := some wDoc, DateTime := wT 6
                     Description := none, Typ := "scan" }]
    Diagnoses := [{ Clinician := some wDoc2, DateTime := wT 7
                    Description := none, Typ := "diag" }]
    Orders := [{ OrderDateTime := wT 8
                 Results := [{ TestName := none, Value := "700"
                               Unit := "UML", Status := "F"
                               Notes := ["n1"]
                               ObservationDateTime := wT 9 }] }] }

/-- A concrete patient record exercising every resource kind. -/
def wInfo : PatientInfo :=
  { Person := some wPerson
    Class := "INPATIENT"
    Allergies := [{ AllergyType := "FA", Description := { ID := "al1", Text := "nuts", CodingSystem := "cs" }
                    Severity := "sv", Reaction := "rash"
                    IdentificationDateTime := wT 0 }]
    Encounters := [wEnc] }

/-- A record whose Person is absent. -/
def wInfoNoPerson : PatientInfo :=
  { Person := none, Class := "", Allergies := [], Encounters := [] }

/-- The convertor built from `wMapping` (an empty convertor on error, which
does not occur). -/
def wConv : AllergyConvertor :=
  match NewAllergyConvertor wMapping with
  | .ok cv => cv
  | .error _ => { hl7ToFHIR := { AllergyIntoleranceSeverityCodeMap := []
                                 AllergyIntoleranceCategoryCodeMap := [] } }

/-- The bundle produced by the concrete run. -/
def wBundle : Bundle := (Generate wCfg wState (some wInfo)).bundleOf

/-- The Bundler state after the concrete run. -/
def wStateAfter : BState := (Generate wCfg wState (some wInfo)).stateOf wState

/-- The first entry of the concrete bundle (with an inert fallback). -/
def wHeadEntry : Bundle_Entry :=
  wBundle.Entry.headD
    { Resource := .location { Id := "", Name := ""
                              Text := { Div := "", Status := .GENERATED } }
      FullUrl := none, Request := none }

/-- True when the entry's resource is a Procedure. -/
def isProcedureEntry (e : Bundle_Entry) : Bool :=
  match e.Resource with
  | .procedure _ => true
  | _ => false

/-- The location-period entries of an Encounter entry (empty for other
resource kinds). -/
def encounterLocationsOf (e : Bundle_Entry) : List EncounterLocationT :=
  match e.Resource with
  | .encounter er => er.Location
  | _ => []

/-- The performers of a Procedure entry (empty for other resource
kinds). -/
def performersOf (e : Bundle_Entry) : List PerformerT :=
  match e.Resource with
  | .procedure pr => pr.Performer
  | _ => []

/-- The first Procedure entry of the concrete bundle (entry index 4, after
patient, allergy, location and practitioner). -/
def wProcEntry : Bundle_Entry :=
  (wBundle.Entry.drop 4).headD
    { Resource := .location { Id := "", Name := ""
                              Text := { Div := "", Status := .GENERATED } }
      FullUrl := none, Request := none }

/-- The first reference carried by `wProcEntry` (the patient subject). -/
def wProcRef : Reference :=
  (entryRefs wProcEntry).headD { RefType := "", RefId := "", Display := none }

/-- An encounter with a duplicated location history, for the dedup
witness. -/
def wEncC1 : Encounter :=
  { Status := "finished", StatusHistory := [], Start := wT 10, End := wT 20
    LocationHistory := [{ Location := some wLoc, Start := wT 1, End := wT 2 },
                        { Location := some wLoc, Start := wT 3, End := wT 4 }]
    Procedures := [], Diagnoses := [], Orders := [] }

/-- The dedup-witness record. -/
def wInfoC1 : PatientInfo :=
  { Person := some wPerson, Class := "IP", Allergies := []
    Encounters := [wEncC1] }

/-- The bundle of the dedup-witness run. -/
def wBundleC1 : Bundle := (Generate wCfg wState (some wInfoC1)).bundleOf

/-- The post-state of the dedup-witness run. -/
def wStateC1 : BState :=
  (Generate wCfg wState (some wInfoC1)).stateOf wState

/-- The location reference registered after the first concrete run. -/
def wRefLoc : Reference :=
  (alookup wStateAfter.locations wLoc).getD
    { RefType := "", RefId := "", Display := none }

/-- The practitioner reference registered after the first concrete run. -/
def wRefDoc : Reference :=
  (alookup wStateAfter.doctors wDoc).getD
    { RefType := "", RefId := "", Display := none }

/-- The second record of the registry-persistence witness: it revisits the
location and the doctor materialized by the first run. -/
def wInfoC10 : PatientInfo :=
  { Person := some wPerson, Class := "IP"
    Allergies := []
    Encounters := [{ Status := "finished", StatusHistory := []
                     Start := wT 30, End := wT 40
                     LocationHistory :=
                       [{ Location := some wLoc, Start := wT 31
                          End := wT 32 }]
                     Procedures := [{ Clinician := some wDoc
                                      DateTime := wT 33
                                      Description := none, Typ := "op" }]
                     Diagnoses := [], Orders := [] }] }

/-- The bundle of the second concrete run. -/
def wBundleC10 : Bundle :=
  (Generate wCfg wStateAfter (some wInfoC10)).bundleOf

/-- The post-state of the second concrete run. -/
def wStateC10 : BState :=
  (Generate wCfg wStateAfter (some wInfoC10)).stateOf wStateAfter

/- THEOREMS -/

/-- Folding append-with-wrapper from the left equals the concatenation, in
order, of the wrapped elements. -/
theorem inner_fold (l : List String) : ∀ acc : String,
    l.foldl (fun a2 s => a2 ++ "<p>" ++ s ++ "</p>") acc
    = acc ++ (l.map fun s => "<p>" ++ s ++ "</p>").foldr (· ++ ·) "" := by
  induction l with
  | nil => intro acc; simp [String.append_empty]
  | cons x xs ih =>
    intro acc
    simp only [List.foldl_cons, List.map_cons, List.foldr_cons, ih]
    simp [String.append_assoc]

/-- Concatenation folded from the right over an initial string pulls the
initial string out to the right. -/
theorem foldr_append_init (A : List String) (b : String) :
    A.foldr (· ++ ·) b = A.foldr (· ++ ·) "" ++ b := by
  induction A with
  | nil => simp [String.empty_append]
  | cons x xs ih => simp only [List.foldr_cons, ih, String.append_assoc]

/-- The narrative accumulator loop produces, after the initial string, the
wrapped lines of the nonempty paragraphs in order. -/
theorem narrative_fold : ∀ (ps : List String) (acc : String),
    ps.foldl
      (fun acc p =>
        if p = "" then acc
        else (splitChar '\n' p).foldl
          (fun acc2 s => acc2 ++ "<p>" ++ s ++ "</p>") acc)
      acc
    = acc ++
      ((((ps.filter fun p => p ≠ "").map (splitChar '\n')).flatten).map
          fun s => "<p>" ++ s ++ "</p>").foldr (· ++ ·) "" := by
  intro ps
  induction ps with
  | nil => intro acc; simp [String.append_empty]
  | cons p ps ih =>
    intro acc
    rw [List.foldl_cons]
    by_cases hp : p = ""
    · simp [hp, ih]
    · rw [if_neg hp, inner_fold, ih,
        List.filter_cons_of_pos (by simp [hp]), List.map_cons,
        List.flatten_cons, List.map_append, List.foldr_append]
      conv_rhs => rw [foldr_append_init]
      rw [String.append_assoc]

/-- C8: the narrative function skips empty input strings, splits each
remaining string on line breaks, wraps each resulting line in its own
paragraph element in order inside a single div container marked GENERATED;
in particular on [A-newline-B, empty, C] it produces exactly the three
paragraph elements A, B, C in order. -/
theorem C8_narrative :
    (∀ ps : List String,
      narrative ps =
        { Div := "<div>" ++
            ((((ps.filter fun p => p ≠ "").map (splitChar '\n')).flatten).map
                fun s => "<p>" ++ s ++ "</p>").foldr (· ++ ·) "" ++ "</div>"
          Status := .GENERATED }) ∧
    narrative ["A\nB", "", "C"] =
      { Div := "<div><p>A</p><p>B</p><p>C</p></div>"
        Status := .GENERATED } := by
  constructor
  · intro ps
    simp only [narrative, narrative_fold, String.empty_append]
  · decide

/-- Inserting aliases does not disturb the binding of a key outside the
alias list. -/
theorem alookup_insert_notmem {γ : Type} (vs : List String) :
    ∀ (m : List (String × γ)) (c : γ) (v : String), v ∉ vs →
      alookup (insertAliases m vs c) v = alookup m v := by
  induction vs with
  | nil => intro m c v _; rfl
  | cons x xs ih =>
    intro m c v hv
    have hx : v ≠ x ∧ v ∉ xs := by
      constructor
      · intro h; exact hv (h ▸ List.mem_cons_self x xs)
      · intro h; exact hv (List.mem_cons_of_mem x h)
    have hstep : insertAliases m (x :: xs) c = insertAliases ((x, c) :: m) xs c :=
      rfl
    rw [hstep, ih _ c v hx.2]
    have hxv : ¬ x = v := fun h => hx.1 h.symm
    simp [alookup, hxv]

/-- Inserting aliases binds every alias in the list to the inserted code. -/
theorem alookup_insert_mem {γ : Type} (vs : List String) :
    ∀ (m : List (String × γ)) (c : γ) (v : String), v ∈ vs →
      alookup (insertAliases m vs c) v = some c := by
  induction vs with
  | nil => intro m c v hv; cases hv
  | cons x xs ih =>
    intro m c v hv
    have hstep : insertAliases m (x :: xs) c = insertAliases ((x, c) :: m) xs c :=
      rfl
    by_cases hmem : v ∈ xs
    · rw [hstep, ih _ c v hmem]
    · have hvx : v = x := by
        rcases List.mem_cons.mp hv with h | h
        · exact h
        · exact absurd h hmem
      rw [hstep, alookup_insert_notmem xs _ c v hmem]
      simp [alookup, hvx]

/-- The severity-map build leaves a key that is not an alias of any entry
bound as it was in the accumulator. -/
theorem sevAux_notmem : ∀ (es : List (String × List String))
    (m m' : List (String × AllergyIntoleranceSeverityCode)),
    newSeverityMapAux m es = .ok m' →
    ∀ v, v ∉ allAliases es → alookup m' v = alookup m v := by
  intro es
  induction es with
  | nil =>
    intro m m' h v _
    cases h
    rfl
  | cons hd rest ih =>
    obtain ⟨k0, vs0⟩ := hd
    intro m m' h v hv
    rw [newSeverityMapAux] at h
    cases h0 : alookup DefaultAllergyIntoleranceSeverityCodeMap (upper k0) with
    | none => rw [h0] at h; cases h
    | some c0 =>
      rw [h0] at h
      have hv0 : v ∉ vs0 := fun hm =>
        hv (by simpa [allAliases] using Or.inl hm)
      have hvr : v ∉ allAliases rest := fun hm =>
        hv (by simpa [allAliases] using Or.inr (by simpa [allAliases] using hm))
      rw [ih _ _ h v hvr, alookup_insert_notmem vs0 m c0 v hv0]

/-- The severity-map build fails exactly when some configured canonical key
fails the case-insensitive canonical-set lookup. -/
theorem sevAux_error : ∀ (es : List (String × List String))
    (m : List (String × AllergyIntoleranceSeverityCode)),
    isErr (newSeverityMapAux m es) = true ↔
    ∃ kv ∈ es,
      alookup DefaultAllergyIntoleranceSeverityCodeMap (upper kv.1) = none := by
  intro es
  induction es with
  | nil => intro m; simp [newSeverityMapAux, isErr]
  | cons hd rest ih =>
    obtain ⟨k0, vs0⟩ := hd
    intro m
    rw [newSeverityMapAux]
    cases h0 : alookup DefaultAllergyIntoleranceSeverityCodeMap (upper k0) with
    | none => simp [isErr, h0]
    | some c0 =>
      simp only [h0]
      rw [ih]
      constructor
      · intro hx
        obtain ⟨kv, hkv, hp⟩ := hx
        exact ⟨kv, List.mem_cons_of_mem _ hkv, hp⟩
      · intro hx
        obtain ⟨kv, hkv, hp⟩ := hx
        rcases List.mem_cons.mp hkv with he | he
        · subst he
          simp [h0] at hp
        · exact ⟨kv, he, hp⟩

/-- The severity-map build binds each alias of an entry with a valid
canonical key to that entry's canonical code, provided aliases are not
duplicated across the configuration. -/
theorem sevAux_mem : ∀ (es : List (String × List String))
    (m m' : List (String × AllergyIntoleranceSeverityCode)),
    newSeverityMapAux m es = .ok m' →
    (allAliases es).Nodup →
    ∀ k vs v cv, (k, vs) ∈ es → v ∈ vs →
      alookup DefaultAllergyIntoleranceSeverityCodeMap (upper k) = some cv →
      alookup m' v = some cv := by
  intro es
  induction es with
  | nil => intro m m' _ _ k vs v cv hmem; cases hmem
  | cons hd rest ih =>
    obtain ⟨k0, vs0⟩ := hd
    intro m m' h hnd k vs v cv hmem hv hcv
    rw [newSeverityMapAux] at h
    cases h0 : alookup DefaultAllergyIntoleranceSeverityCodeMap (upper k0) with
    | none => rw [h0] at h; cases h
    | some c0 =>
      rw [h0] at h
      have hnd' : vs0.Nodup ∧ (allAliases rest).Nodup ∧
          vs0.Disjoint (allAliases rest) := by
        have : allAliases ((k0, vs0) :: rest) = vs0 ++ allAliases rest := by
          simp [allAliases]
        rw [this] at hnd
        exact List.nodup_append.mp hnd
      rcases List.mem_cons.mp hmem with hhd | htl
      · have hk : k = k0 ∧ vs = vs0 := by
          constructor <;> injection hhd with h1 h2
        have hc0 : c0 = cv := by
          rw [hk.1, h0] at hcv
          injection hcv
        have hvr : v ∉ allAliases rest := hnd'.2.2 (hk.2 ▸ hv)
        rw [sevAux_notmem rest _ m' h v hvr,
          alookup_insert_mem vs0 m c0 v (hk.2 ▸ hv), hc0]
      · exact ih _ m' h hnd'.2.1 k vs v cv htl hv hcv

/-- The type-map build leaves a key that is not an alias of any entry bound
as it was in the accumulator. -/
theorem typeAux_notmem : ∀ (es : List (String × List String))
    (m m' : List (String × AllergyIntoleranceCategoryCode)),
    newTypeMapAux m es = .ok m' →
    ∀ v, v ∉ allAliases es → alookup m' v = alookup m v := by
  intro es
  induction es with
  | nil =>
    intro m m' h v _
    cases h
    rfl
  | cons hd rest ih =>
    obtain ⟨k0, vs0⟩ := hd
    intro m m' h v hv
    rw [newTypeMapAux] at h
    cases h0 : alookup DefaultAllergyIntoleranceCategoryCodeMap (upper k0) with
    | none => rw [h0] at h; cases h
    | some c0 =>
      rw [h0] at h
      have hv0 : v ∉ vs0 := fun hm =>
        hv (by simpa [allAliases] using Or.inl hm)
      have hvr : v ∉ allAliases rest := fun hm =>
        hv (by simpa [allAliases] using Or.inr (by simpa [allAliases] using hm))
      rw [ih _ _ h v hvr, alookup_insert_notmem vs0 m c0 v hv0]

/-- The type-map build fails exactly when some configured canonical key
fails the case-insensitive canonical-set lookup. -/
theorem typeAux_error : ∀ (es : List (String × List String))
    (m : List (String × AllergyIntoleranceCategoryCode)),
    isErr (newTypeMapAux m es) = true ↔
    ∃ kv ∈ es,
      alookup DefaultAllergyIntoleranceCategoryCodeMap (upper kv.1) = none := by
  intro es
  induction es with
  | nil => intro m; simp [newTypeMapAux, isErr]
  | cons hd rest ih =>
    obtain ⟨k0, vs0⟩ := hd
    intro m
    rw [newTypeMapAux]
    cases h0 : alookup DefaultAllergyIntoleranceCategoryCodeMap (upper k0) with
    | none => simp [isErr, h0]
    | some c0 =>
      simp only [h0]
      rw [ih]
      constructor
      · intro hx
        obtain ⟨kv, hkv, hp⟩ := hx
        exact ⟨kv, List.mem_cons_of_mem _ hkv, hp⟩
      · intro hx
        obtain ⟨kv, hkv, hp⟩ := hx
        rcases List.mem_cons.mp hkv with he | he
        · subst he
          simp [h0] at hp
        · exact ⟨kv, he, hp⟩

/-- C6: NewAllergyConvertor fails exactly when some configured canonical
key fails the case-insensitive canonical-enumeration lookup; a built
convertor translates any source code that was not registered during
construction to the INVALID_UNINITIALIZED sentinel (translation is total:
it never returns an error). -/
theorem C6_convertor_build_and_sentinel : ∀ hc : FHIRMapping,
    (isErr (NewAllergyConvertor hc) = true ↔
      (∃ kv ∈ hc.AllergySeverities,
        alookup DefaultAllergyIntoleranceSeverityCodeMap (upper kv.1) = none) ∨
      (∃ kv ∈ hc.AllergyTypes,
        alookup DefaultAllergyIntoleranceCategoryCodeMap (upper kv.1) = none)) ∧
    ∀ conv, NewAllergyConvertor hc = .ok conv →
      (∀ code, code ∉ allAliases hc.AllergySeverities →
        conv.SeverityHL7ToFHIR code = .INVALID_UNINITIALIZED) ∧
      (∀ code, code ∉ allAliases hc.AllergyTypes →
        conv.TypeHL7ToFHIR code = .INVALID_UNINITIALIZED) := by
  intro hc
  constructor
  · rw [NewAllergyConvertor]
    cases hsev : newSeverityMap hc.AllergySeverities with
    | error e =>
      have : isErr (newSeverityMapAux [] hc.AllergySeverities) = true := by
        rw [newSeverityMap] at hsev; rw [hsev]; rfl
      simp only [isErr, true_iff]
      exact Or.inl ((sevAux_error hc.AllergySeverities []).mp this)
    | ok sm =>
      have hsevf : ¬ ∃ kv ∈ hc.AllergySeverities,
          alookup DefaultAllergyIntoleranceSeverityCodeMap (upper kv.1) = none := by
        intro hex
        have := (sevAux_error hc.AllergySeverities []).mpr hex
        rw [newSeverityMap] at hsev
        rw [hsev] at this
        cases this
      cases htyp : newTypeMap hc.AllergyTypes with
      | error e =>
        have : isErr (newTypeMapAux [] hc.AllergyTypes) = true := by
          rw [newTypeMap] at htyp; rw [htyp]; rfl
        simp only [isErr, true_iff]
        exact Or.inr ((typeAux_error hc.AllergyTypes []).mp this)
      | ok tm =>
        have htypf : ¬ ∃ kv ∈ hc.AllergyTypes,
            alookup DefaultAllergyIntoleranceCategoryCodeMap (upper kv.1) = none := by
          intro hex
          have := (typeAux_error hc.AllergyTypes []).mpr hex
          rw [newTypeMap] at htyp
          rw [htyp] at this
          cases this
        simp only [isErr]
        constructor
        · intro h; cases h
        · intro h
          rcases h with h | h
          · exact absurd h hsevf
          · exact absurd h htypf
  · intro conv hok
    rw [NewAllergyConvertor] at hok
    cases hsev : newSeverityMap hc.AllergySeverities with
    | error e => rw [hsev] at hok; cases hok
    | ok sm =>
      rw [hsev] at hok
      cases htyp : newTypeMap hc.AllergyTypes with
      | error e => rw [htyp] at hok; cases hok
      | ok tm =>
        rw [htyp] at hok
        have hconv : conv = ⟨⟨sm, tm⟩⟩ := by
          injection hok with h
          exact h.symm
        subst hconv
        constructor
        · intro code hcode
          rw [newSeverityMap] at hsev
          have := sevAux_notmem hc.AllergySeverities [] sm hsev code hcode
          simp [AllergyConvertor.SeverityHL7ToFHIR, Convertor.severityCode,
            this, alookup]
        · intro code hcode
          rw [newTypeMap] at htyp
          have := typeAux_notmem hc.AllergyTypes [] tm htyp code hcode
          simp [AllergyConvertor.TypeHL7ToFHIR, Convertor.categoryCode,
            this, alookup]

/-- Witness for C6 at the concrete configuration: the build succeeds and an
unregistered code translates to the sentinel. -/
theorem C6_witness :
    wConv.SeverityHL7ToFHIR "zz" = .INVALID_UNINITIALIZED :=
  (((C6_convertor_build_and_sentinel wMapping).2 wConv rfl).1 "zz" (by decide))

/-- The severity-map build only reads canonical keys through `upper`:
configurations whose entries agree up to letter case of the canonical keys
build the same map. -/
theorem sevAux_caseInsensitive : ∀ (es es' : List (String × List String)),
    es.map (fun kv => (upper kv.1, kv.2)) =
      es'.map (fun kv => (upper kv.1, kv.2)) →
    ∀ m m', newSeverityMapAux m es = .ok m' →
      newSeverityMapAux m es' = .ok m' := by
  intro es
  induction es with
  | nil =>
    intro es' hmap m m' hok
    cases es' with
    | nil => exact hok
    | cons a l => simp at hmap
  | cons hd rest ih =>
    obtain ⟨k0, vs0⟩ := hd
    intro es' hmap m m' hok
    cases es' with
    | nil => simp at hmap
    | cons hd' rest' =>
      obtain ⟨k0', vs0'⟩ := hd'
      simp only [List.map_cons] at hmap
      injection hmap with h1 h2
      injection h1 with hup hvs
      rw [newSeverityMapAux] at hok ⊢
      rw [← hup, ← hvs]
      cases h0 : alookup DefaultAllergyIntoleranceSeverityCodeMap (upper k0) with
      | none => rw [h0] at hok; cases hok
      | some c0 =>
        rw [h0] at hok
        exact ih rest' h2 _ m' hok

/-- C7 counterexample: with severity configuration MILD -> [sv], the source
code SV is equal to the registered alias sv up to letter case, yet it
translates to the INVALID_UNINITIALIZED sentinel while the alias itself
translates to MILD: runtime translation is not case-insensitive. -/
theorem C7_counterexample :
    "sv" ∈ allAliases wMapping.AllergySeverities ∧
    upper "SV" = upper "sv" ∧
    wConv.SeverityHL7ToFHIR "sv" = .MILD ∧
    wConv.SeverityHL7ToFHIR "SV" = .INVALID_UNINITIALIZED ∧
    AllergyIntoleranceSeverityCode.INVALID_UNINITIALIZED ≠ .MILD := by
  decide

/-- C7 (amended): case-insensitivity applies to the canonical keys at
construction time only — configurations whose canonical keys differ only
in letter case build identically; runtime translation is case-sensitive
exact matching: a source code exactly equal to a registered alias (aliases
unambiguous) translates to its entry's canonical code, and a code not
exactly equal to any registered alias translates to the sentinel. -/
theorem C7_amended_case_sensitivity :
    (∀ (es es' : List (String × List String)),
      es.map (fun kv => (upper kv.1, kv.2)) =
        es'.map (fun kv => (upper kv.1, kv.2)) →
      ∀ m m', newSeverityMapAux m es = .ok m' →
        newSeverityMapAux m es' = .ok m') ∧
    (∀ hc conv, NewAllergyConvertor hc = .ok conv →
      ((allAliases hc.AllergySeverities).Nodup →
        ∀ k vs v cv, (k, vs) ∈ hc.AllergySeverities → v ∈ vs →
          alookup DefaultAllergyIntoleranceSeverityCodeMap (upper k) =
            some cv →
          conv.SeverityHL7ToFHIR v = cv) ∧
      (∀ code, code ∉ allAliases hc.AllergySeverities →
        conv.SeverityHL7ToFHIR code = .INVALID_UNINITIALIZED)) := by
  refine ⟨sevAux_caseInsensitive, ?_⟩
  intro hc conv hok
  rw [NewAllergyConvertor] at hok
  cases hsev : newSeverityMap hc.AllergySeverities with
  | error e => rw [hsev] at hok; cases hok
  | ok sm =>
    rw [hsev] at hok
    cases htyp : newTypeMap hc.AllergyTypes with
    | error e => rw [htyp] at hok; cases hok
    | ok tm =>
      rw [htyp] at hok
      have hconv : conv = ⟨⟨sm, tm⟩⟩ := by
        injection hok with h
        exact h.symm
      subst hconv
      rw [newSeverityMap] at hsev
      constructor
      · intro hnd k vs v cv hmem hv hcv
        have := sevAux_mem hc.AllergySeverities [] sm hsev hnd k vs v cv
          hmem hv hcv
        simp [AllergyConvertor.SeverityHL7ToFHIR, Convertor.severityCode,
          this]
      · intro code hcode
        have := sevAux_notmem hc.AllergySeverities [] sm hsev code hcode
        simp [AllergyConvertor.SeverityHL7ToFHIR, Convertor.severityCode,
          this, alookup]

/-- Witness for the amended C7 at the concrete configuration: the exact
registered alias translates to its canonical code. -/
theorem C7_witness : wConv.SeverityHL7ToFHIR "sv" = .MILD :=
  ((C7_amended_case_sensitivity.2 wMapping wConv rfl).1 (by decide)
    "MILD" ["sv"] "sv" .MILD (by decide) (by decide) (by decide))

/-- C5 counterexample: a record whose Person is absent does not make
Generate return the invalid-input error — the staged Generate only checks
the record itself for nil, and the Person dereference inside `patient` is
a run-time panic. -/
theorem C5_counterexample :
    wInfoNoPerson.Person = none ∧
    Generate wCfg wState (some wInfoNoPerson) = .nilDereference ∧
    GenerateOutcome.isInvalidInput
      (Generate wCfg wState (some wInfoNoPerson)) = false :=
  ⟨rfl, rfl, rfl⟩

/-- C5 (amended): Generate on a nil record fails with the invalid-input
error and produces no bundle; Generate on a record whose Person is absent
also produces no bundle, but by a nil-pointer dereference (run-time
panic), not by returning InvalidInputError. -/
theorem C5_amended_nil_and_person : ∀ (c : BConfig) (s : BState),
    Generate c s none =
      .invalidInput "cannot generate resources from nil PatientInfo" ∧
    ∀ p : PatientInfo, p.Person = none →
      Generate c s (some p) = .nilDereference := by
  intro c s
  refine ⟨rfl, ?_⟩
  intro p hp
  simp only [Generate, hp]

/-- Witness for the amended C5 at concrete inputs. -/
theorem C5_witness :
    Generate wCfg wState none =
      .invalidInput "cannot generate resources from nil PatientInfo" ∧
    Generate wCfg wState (some wInfoNoPerson) = .nilDereference :=
  ⟨(C5_amended_nil_and_person wCfg wState).1,
   (C5_amended_nil_and_person wCfg wState).2 wInfoNoPerson rfl⟩

/-- An entry is a Patient entry exactly when its type name is Patient. -/
theorem isPatientEntry_iff (e : Bundle_Entry) :
    isPatientEntry e = true ↔ e.Resource.typeName = "Patient" := by
  cases e with
  | mk r fu rq => cases r <;> simp [isPatientEntry, ContainedResource.typeName]

/-- An entry is a Location entry exactly when its type name is Location. -/
theorem isLocationEntry_iff (e : Bundle_Entry) :
    isLocationEntry e = true ↔ e.Resource.typeName = "Location" := by
  cases e with
  | mk r fu rq => cases r <;> simp [isLocationEntry, ContainedResource.typeName]

/-- An entry is a Practitioner entry exactly when its type name is
Practitioner. -/
theorem isPractitionerEntry_iff (e : Bundle_Entry) :
    isPractitionerEntry e = true ↔ e.Resource.typeName = "Practitioner" := by
  cases e with
  | mk r fu rq =>
    cases r <;> simp [isPractitionerEntry, ContainedResource.typeName]

/-- A list of entries none of whose type names is `n` has no entry
satisfying a predicate that forces type name `n`. -/
theorem filter_eq_nil_of_kinds (q : Bundle_Entry → Bool) (n : String)
    (hq : ∀ e, q e = true ↔ e.Resource.typeName = n) :
    ∀ es : List Bundle_Entry,
      (∀ e ∈ es, e.Resource.typeName ≠ n) → es.filter q = [] := by
  intro es
  induction es with
  | nil => intro _; rfl
  | cons e es ih =>
    intro h
    have he : q e = false := by
      cases hqe : q e with
      | false => rfl
      | true => exact absurd ((hq e).mp hqe) (h e (List.mem_cons_self e es))
    rw [List.filter_cons_of_neg (by simp [he])]
    exact ih fun e' he' => h e' (List.mem_cons_of_mem e he')

/-- The empty entry list satisfies any id specification. -/
theorem IdsSpec_nil (g : Nat → String) (lo hi : Nat) :
    IdsSpec g lo hi [] :=
  ⟨[], rfl, List.nodup_nil, by simp⟩

/-- Prepending an entry whose id is `g lo` to entries drawn from
[lo+1, hi). -/
theorem IdsSpec_cons (g : Nat → String) (lo hi : Nat) (e : Bundle_Entry)
    (es : List Bundle_Entry) (hid : e.Resource.resId = g lo) (hlt : lo < hi)
    (h : IdsSpec g (lo + 1) hi es) : IdsSpec g lo hi (e :: es) := by
  obtain ⟨ks, hmap, hpw, hbd⟩ := h
  refine ⟨lo :: ks, by simp [hid, hmap], ?_, ?_⟩
  · exact List.nodup_cons.mpr
      ⟨fun hk => absurd (hbd lo hk).1 (by omega), hpw⟩
  · intro k hk
    rcases List.mem_cons.mp hk with he | hk'
    · rw [he]
      exact ⟨Nat.le_refl lo, hlt⟩
    · exact ⟨Nat.le_trans (Nat.le_succ lo) (hbd k hk').1, (hbd k hk').2⟩

/-- Concatenating entry lists with adjacent id ranges. -/
theorem IdsSpec_append (g : Nat → String) (lo mid hi : Nat)
    (es1 es2 : List Bundle_Entry) (hlm : lo ≤ mid) (hmh : mid ≤ hi)
    (h1 : IdsSpec g lo mid es1) (h2 : IdsSpec g mid hi es2) :
    IdsSpec g lo hi (es1 ++ es2) := by
  obtain ⟨ks1, hmap1, hpw1, hbd1⟩ := h1
  obtain ⟨ks2, hmap2, hpw2, hbd2⟩ := h2
  refine ⟨ks1 ++ ks2, by simp [hmap1, hmap2], ?_, ?_⟩
  · rw [List.nodup_append]
    refine ⟨hpw1, hpw2, fun a ha hb =>
      absurd (hbd2 a hb).1 (by have := (hbd1 a ha).2; omega)⟩
  · intro k hk
    rcases List.mem_append.mp hk with hk' | hk'
    · exact ⟨(hbd1 k hk').1, Nat.lt_of_lt_of_le (hbd1 k hk').2 hmh⟩
    · exact ⟨Nat.le_trans hlm (hbd2 k hk').1, (hbd2 k hk').2⟩

/-- Id ranges widen. -/
theorem IdsSpec_mono (g : Nat → String) (lo hi lo' hi' : Nat)
    (es : List Bundle_Entry) (h : IdsSpec g lo hi es) (h1 : lo' ≤ lo)
    (h2 : hi ≤ hi') : IdsSpec g lo' hi' es := by
  obtain ⟨ks, hmap, hpw, hbd⟩ := h
  exact ⟨ks, hmap, hpw, fun k hk =>
    ⟨Nat.le_trans h1 (hbd k hk).1, Nat.lt_of_lt_of_le (hbd k hk).2 h2⟩⟩

/-- A single entry with id `g lo`, lo < hi. -/
theorem IdsSpec_single (g : Nat → String) (lo hi : Nat) (e : Bundle_Entry)
    (hid : e.Resource.resId = g lo) (hlt : lo < hi) :
    IdsSpec g lo hi [e] :=
  IdsSpec_cons g lo hi e [] hid hlt (IdsSpec_nil g (lo + 1) hi)

/-- addURL produces a well-formed entry when applied, as in the staged
code, to a freshly constructed entry with the resource's own id and type
name. -/
theorem entryWF_addURL (c : BConfig) (e0 : Bundle_Entry) (id url : String)
    (hreq : e0.Request = none) (hid : e0.Resource.resId = id)
    (hurl : e0.Resource.typeName = url) : entryWF c (addURL c e0 id url) := by
  unfold entryWF addURL
  by_cases hb : c.bundleTypeCode = .BATCH
  · simp [hb, hid, hurl]
  · simp [hb, hreq, hid, hurl]

/-- addURL does not change the resource. -/
theorem addURL_resource (c : BConfig) (e0 : Bundle_Entry) (id url : String) :
    (addURL c e0 id url).Resource = e0.Resource := rfl

/-- Shape of the patient producer: one fresh id consumed, registries
untouched, a well-formed Patient entry carrying no references, and a
reference to exactly that entry. -/
theorem patient_shape (c : BConfig) (s : BState) (person : Person) :
    (patient c s person).2.2 = { s with nextID := s.nextID + 1 } ∧
    entryWF c (patient c s person).1 ∧
    (patient c s person).1.Resource.typeName = "Patient" ∧
    (patient c s person).1.Resource.resId = c.gen s.nextID ∧
    entryRefs (patient c s person).1 = [] ∧
    (patient c s person).2.1.RefType = "Patient" ∧
    (patient c s person).2.1.RefId = c.gen s.nextID := by
  refine ⟨rfl, ?_, rfl, rfl, rfl, rfl, rfl⟩
  exact entryWF_addURL c _ _ _ rfl rfl rfl

/-- Shape of the encounter producer: one fresh id consumed, registries
untouched, a well-formed Encounter entry with empty location and diagnosis
lists, and a reference to exactly that entry. -/
theorem encounter_shape (c : BConfig) (s : BState) (ec : Encounter)
    (cl : String) :
    (encounter c s ec cl).2.2 = { s with nextID := s.nextID + 1 } ∧
    entryWF c (encounter c s ec cl).1 ∧
    (encounter c s ec cl).1.Resource.typeName = "Encounter" ∧
    (encounter c s ec cl).1.Resource.resId = c.gen s.nextID ∧
    entryRefs (encounter c s ec cl).1 = [] ∧
    (encounter c s ec cl).2.1.RefType = "Encounter" ∧
    (encounter c s ec cl).2.1.RefId = c.gen s.nextID := by
  refine ⟨rfl, ?_, rfl, rfl, rfl, rfl, rfl⟩
  exact entryWF_addURL c _ _ _ rfl rfl rfl

/-- Shape of the procedure producer: one fresh id, registries untouched, a
well-formed Procedure entry whose references are the subject, the
encounter and the optional performer, and a reference to that entry. -/
theorem procedure_shape (c : BConfig) (s : BState)
    (pr : DiagnosisOrProcedure) (patientRef : Reference)
    (practitionerRef : Option Reference) (encounterRef : Reference) :
    (procedure c s pr patientRef practitionerRef encounterRef).2.2 =
      { s with nextID := s.nextID + 1 } ∧
    entryWF c (procedure c s pr patientRef practitionerRef encounterRef).1 ∧
    (procedure c s pr patientRef practitionerRef
      encounterRef).1.Resource.typeName = "Procedure" ∧
    (procedure c s pr patientRef practitionerRef
      encounterRef).1.Resource.resId = c.gen s.nextID ∧
    entryRefs (procedure c s pr patientRef practitionerRef
      encounterRef).1 =
      [patientRef, encounterRef] ++ practitionerRef.toList ∧
    (procedure c s pr patientRef practitionerRef
      encounterRef).2.1.RefType = "Procedure" ∧
    (procedure c s pr patientRef practitionerRef
      encounterRef).2.1.RefId = c.gen s.nextID := by
  refine ⟨rfl, ?_, rfl, rfl, ?_, rfl, rfl⟩
  · exact entryWF_addURL c _ _ _ rfl rfl rfl
  · cases practitionerRef <;> rfl

/-- Shape of the condition producer, symmetric to the procedure
producer. -/
theorem condition_shape (c : BConfig) (s : BState)
    (d : DiagnosisOrProcedure) (patientRef : Reference)
    (practitionerRef : Option Reference) (encounterRef : Reference) :
    (condition c s d patientRef practitionerRef encounterRef).2.2 =
      { s with nextID := s.nextID + 1 } ∧
    entryWF c (condition c s d patientRef practitionerRef encounterRef).1 ∧
    (condition c s d patientRef practitionerRef
      encounterRef).1.Resource.typeName = "Condition" ∧
    (condition c s d patientRef practitionerRef
      encounterRef).1.Resource.resId = c.gen s.nextID ∧
    entryRefs (condition c s d patientRef practitionerRef
      encounterRef).1 =
      [patientRef, encounterRef] ++ practitionerRef.toList ∧
    (condition c s d patientRef practitionerRef
      encounterRef).2.1.RefType = "Condition" ∧
    (condition c s d patientRef practitionerRef
      encounterRef).2.1.RefId = c.gen s.nextID := by
  refine ⟨rfl, ?_, rfl, rfl, ?_, rfl, rfl⟩
  · exact entryWF_addURL c _ _ _ rfl rfl rfl
  · cases practitionerRef <;> rfl

/-- Shape of the allergies loop: one fresh id per allergy, registries
untouched, well-formed AllergyIntolerance entries whose only reference is
the patient. -/
theorem allergies_shape (c : BConfig) (patientRef : Reference) :
    ∀ (as : List Allergy) (s : BState),
    (allergies c s patientRef as).2.locations = s.locations ∧
    (allergies c s patientRef as).2.doctors = s.doctors ∧
    (allergies c s patientRef as).2.nextID = s.nextID + as.length ∧
    IdsSpec c.gen s.nextID (allergies c s patientRef as).2.nextID
      (allergies c s patientRef as).1 ∧
    ∀ e ∈ (allergies c s patientRef as).1,
      entryWF c e ∧ e.Resource.typeName = "AllergyIntolerance" ∧
      entryRefs e = [patientRef] := by
  intro as
  induction as with
  | nil =>
    intro s
    exact ⟨rfl, rfl, rfl, IdsSpec_nil c.gen s.nextID s.nextID,
      fun e he => absurd he (List.not_mem_nil e)⟩
  | cons a rest ih =>
    intro s
    obtain ⟨ih1, ih2, ih3, ih4, ih5⟩ := ih { s with nextID := s.nextID + 1 }
    rw [show ({ s with nextID := s.nextID + 1 } : BState).nextID
        = s.nextID + 1 from rfl] at ih3 ih4
    have hstep : allergies c s patientRef (a :: rest) =
        ((allergies c { s with nextID := s.nextID + 1 } patientRef rest).1.cons
          (addURL c
            { Resource := .allergyIntolerance
                { Id := c.gen s.nextID
                  ClinicalStatus :=
                    { Coding := [{ Code := "active"
                                   System := "http://terminology.hl7.org/CodeSystem/allergyintolerance-clinical"
                                   Display := "Active" }]
                      Text := none }
                  AType := .ALLERGY
                  Category := [c.ac.TypeHL7ToFHIR a.AllergyType]
                  Reaction := [{ Manifestation := [{ Coding := []
                                                     Text := some a.Reaction }]
                                 Severity := c.ac.SeverityHL7ToFHIR a.Severity }]
                  Code := codeableConcept c a.Description
                  RecordedDate := dateTime a.IdentificationDateTime
                  Patient := patientRef }
              FullUrl := none
              Request := none }
            (c.gen s.nextID) "AllergyIntolerance"),
         (allergies c { s with nextID := s.nextID + 1 } patientRef rest).2) :=
      rfl
    rw [hstep]
    refine ⟨ih1, ih2, by rw [ih3, List.length_cons]; omega, ?_, ?_⟩
    · refine IdsSpec_cons c.gen s.nextID _ _ _ rfl ?_ ?_
      · rw [ih3]; omega
      · exact ih4
    · intro e he
      rcases List.mem_cons.mp he with he' | he'
      · rw [he']
        exact ⟨entryWF_addURL c _ _ _ rfl rfl rfl, rfl, rfl⟩
      · exact ih5 e he'

/-- Shape of the result loop: one fresh id per result, registries
untouched, well-formed Observation entries referencing the patient and the
encounter. -/
theorem resultsLoop_shape (c : BConfig) (encounterRef patientRef :
    Reference) (order : Order) : ∀ (rs : List Result) (s : BState),
    (resultsLoop c s encounterRef patientRef order rs).2.locations =
      s.locations ∧
    (resultsLoop c s encounterRef patientRef order rs).2.doctors =
      s.doctors ∧
    (resultsLoop c s encounterRef patientRef order rs).2.nextID =
      s.nextID + rs.length ∧
    IdsSpec c.gen s.nextID
      (resultsLoop c s encounterRef patientRef order rs).2.nextID
      (resultsLoop c s encounterRef patientRef order rs).1 ∧
    ∀ e ∈ (resultsLoop c s encounterRef patientRef order rs).1,
      entryWF c e ∧ e.Resource.typeName = "Observation" ∧
      entryRefs e = [patientRef, encounterRef] := by
  intro rs
  induction rs with
  | nil =>
    intro s
    exact ⟨rfl, rfl, rfl, IdsSpec_nil c.gen s.nextID s.nextID,
      fun e he => absurd he (List.not_mem_nil e)⟩
  | cons r rest ih =>
    intro s
    obtain ⟨ih1, ih2, ih3, ih4, ih5⟩ := ih { s with nextID := s.nextID + 1 }
    rw [show ({ s with nextID := s.nextID + 1 } : BState).nextID
        = s.nextID + 1 from rfl] at ih3 ih4
    have hstep : resultsLoop c s encounterRef patientRef order (r :: rest) =
        ((resultsLoop c { s with nextID := s.nextID + 1 } encounterRef
            patientRef order rest).1.cons
          (addURL c
            (observationEntry c (c.gen s.nextID) r order encounterRef
              patientRef)
            (c.gen s.nextID) "Observation"),
         (resultsLoop c { s with nextID := s.nextID + 1 } encounterRef
           patientRef order rest).2) :=
      rfl
    rw [hstep]
    refine ⟨ih1, ih2, by rw [ih3, List.length_cons]; omega, ?_, ?_⟩
    · refine IdsSpec_cons c.gen s.nextID _ _ _ rfl ?_ ih4
      rw [ih3]
      omega
    · intro e he
      rcases List.mem_cons.mp he with he' | he'
      · rw [he']
        exact ⟨entryWF_addURL c _ _ _ rfl rfl rfl, rfl, rfl⟩
      · exact ih5 e he'

/-- Shape of the order loop: registries untouched, ids monotone, well-formed
Observation entries referencing the patient and the encounter. -/
theorem ordersLoop_shape (c : BConfig) (encounterRef patientRef :
    Reference) : ∀ (os : List Order) (s : BState),
    (ordersLoop c s encounterRef patientRef os).2.locations = s.locations ∧
    (ordersLoop c s encounterRef patientRef os).2.doctors = s.doctors ∧
    s.nextID ≤ (ordersLoop c s encounterRef patientRef os).2.nextID ∧
    IdsSpec c.gen s.nextID
      (ordersLoop c s encounterRef patientRef os).2.nextID
      (ordersLoop c s encounterRef patientRef os).1 ∧
    ∀ e ∈ (ordersLoop c s encounterRef patientRef os).1,
      entryWF c e ∧ e.Resource.typeName = "Observation" ∧
      entryRefs e = [patientRef, encounterRef] := by
  intro os
  induction os with
  | nil =>
    intro s
    exact ⟨rfl, rfl, Nat.le_refl _, IdsSpec_nil c.gen s.nextID s.nextID,
      fun e he => absurd he (List.not_mem_nil e)⟩
  | cons o rest ih =>
    intro s
    obtain ⟨ho1, ho2, ho3, ho4, ho5⟩ :=
      resultsLoop_shape c encounterRef patientRef o o.Results s
    obtain ⟨ih1, ih2, ih3, ih4, ih5⟩ :=
      ih (resultsLoop c s encounterRef patientRef o o.Results).2
    have hstep : ordersLoop c s encounterRef patientRef (o :: rest) =
        ((resultsLoop c s encounterRef patientRef o o.Results).1 ++
          (ordersLoop c
            (resultsLoop c s encounterRef patientRef o o.Results).2
            encounterRef patientRef rest).1,
         (ordersLoop c
           (resultsLoop c s encounterRef patientRef o o.Results).2
           encounterRef patientRef rest).2) :=
      rfl
    rw [hstep]
    refine ⟨by rw [ih1, ho1], by rw [ih2, ho2], ?_, ?_, ?_⟩
    · show s.nextID ≤ (ordersLoop c
        (resultsLoop c s encounterRef patientRef o o.Results).2
        encounterRef patientRef rest).2.nextID
      omega
    · show IdsSpec c.gen s.nextID
        (ordersLoop c (resultsLoop c s encounterRef patientRef o o.Results).2
          encounterRef patientRef rest).2.nextID
        ((resultsLoop c s encounterRef patientRef o o.Results).1 ++
          (ordersLoop c (resultsLoop c s encounterRef patientRef o o.Results).2
            encounterRef patientRef rest).1)
      exact IdsSpec_append c.gen s.nextID
        (resultsLoop c s encounterRef patientRef o o.Results).2.nextID _
        _ _ (by omega) (by omega) ho4 ih4
    · intro e he
      rcases List.mem_append.mp he with he' | he'
      · exact ho5 e he'
      · exact ih5 e he'

/-- Shape of the location producer: the doctors registry is untouched, ids
advance by at most the one entry produced, and any produced entry is a
well-formed Location entry with no references; a produced reference always
designates a Location by id. -/
theorem location_shape (c : BConfig) (s : BState)
    (ol : Option PatientLocation) :
    (location c s ol).2.2.doctors = s.doctors ∧
    s.nextID ≤ (location c s ol).2.2.nextID ∧
    IdsSpec c.gen s.nextID (location c s ol).2.2.nextID
      (location c s ol).1.toList ∧
    (∀ e ∈ (location c s ol).1.toList,
      entryWF c e ∧ e.Resource.typeName = "Location" ∧ entryRefs e = []) := by
  cases ol with
  | none =>
    exact ⟨rfl, Nat.le_refl _, IdsSpec_nil c.gen s.nextID s.nextID,
      fun e he => absurd he (List.not_mem_nil e)⟩
  | some l =>
    cases hl : alookup s.locations l with
    | some ref =>
      have hstep : location c s (some l) = (none, some ref, s) := by
        rw [location, hl]
      rw [hstep]
      exact ⟨rfl, Nat.le_refl _, IdsSpec_nil c.gen s.nextID s.nextID,
        fun e he => absurd he (List.not_mem_nil e)⟩
    | none =>
      have hstep : location c s (some l) =
          (some (addURL c
            { Resource := .location
                { Id := c.gen s.nextID, Name := locationName l
                  Text := narrative [locationName l] }
              FullUrl := none
              Request := none } (c.gen s.nextID) "Location"),
           some { RefType := "Location", RefId := c.gen s.nextID
                  Display := some (locationName l) },
           { nextID := s.nextID + 1
             locations :=
               (l, { RefType := "Location", RefId := c.gen s.nextID
                     Display := some (locationName l) }) :: s.locations
             doctors := s.doctors }) := by
        rw [location, hl]
        rfl
      rw [hstep]
      refine ⟨rfl, Nat.le_succ _, ?_, ?_⟩
      · exact IdsSpec_single c.gen s.nextID _ _ rfl (Nat.lt_succ_self _)
      · intro e he
        rcases List.mem_cons.mp he with he' | he'
        · rw [he']
          exact ⟨entryWF_addURL c _ _ _ rfl rfl rfl, rfl, rfl⟩
        · exact absurd he' (List.not_mem_nil e)

/-- Shape of the practitioner producer, symmetric to the location
producer over the doctors registry. -/
theorem practitioner_shape (c : BConfig) (s : BState)
    (od : Option Doctor) :
    (practitioner c s od).2.2.locations = s.locations ∧
    s.nextID ≤ (practitioner c s od).2.2.nextID ∧
    IdsSpec c.gen s.nextID (practitioner c s od).2.2.nextID
      (practitioner c s od).1.toList ∧
    (∀ e ∈ (practitioner c s od).1.toList,
      entryWF c e ∧ e.Resource.typeName = "Practitioner" ∧
      entryRefs e = []) := by
  cases od with
  | none =>
    exact ⟨rfl, Nat.le_refl _, IdsSpec_nil c.gen s.nextID s.nextID,
      fun e he => absurd he (List.not_mem_nil e)⟩
  | some doctor =>
    cases hl : alookup s.doctors doctor with
    | some ref =>
      have hstep : practitioner c s (some doctor) = (none, some ref, s) := by
        rw [practitioner, hl]
      rw [hstep]
      exact ⟨rfl, Nat.le_refl _, IdsSpec_nil c.gen s.nextID s.nextID,
        fun e he => absurd he (List.not_mem_nil e)⟩
    | none =>
      rw [practitioner, hl]
      refine ⟨rfl, Nat.le_succ _, ?_, ?_⟩
      · exact IdsSpec_single c.gen s.nextID _ _ rfl (Nat.lt_succ_self _)
      · intro e he
        rcases List.mem_cons.mp he with he' | he'
        · rw [he']
          exact ⟨entryWF_addURL c _ _ _ rfl rfl rfl, rfl, rfl⟩
        · exact absurd he' (List.not_mem_nil e)

/-- setEncounterFields preserves entry well-formedness: it only appends to
the resource's Location and Diagnosis lists. -/
theorem setEncounterFields_wf (c : BConfig) (e : Bundle_Entry)
    (locs : List EncounterLocationT) (ds : List EncounterDiagnosisT)
    (h : entryWF c e) : entryWF c (setEncounterFields e locs ds) := by
  cases e with
  | mk r fu rq =>
    cases r <;>
      simpa [setEncounterFields, entryWF, ContainedResource.typeName,
        ContainedResource.resId] using h

/-- setEncounterFields preserves the resource type name. -/
theorem setEncounterFields_typeName (e : Bundle_Entry)
    (locs : List EncounterLocationT) (ds : List EncounterDiagnosisT) :
    (setEncounterFields e locs ds).Resource.typeName =
      e.Resource.typeName := by
  cases e with
  | mk r fu rq =>
    cases r <;> simp [setEncounterFields, ContainedResource.typeName]

/-- setEncounterFields preserves the resource id. -/
theorem setEncounterFields_resId (e : Bundle_Entry)
    (locs : List EncounterLocationT) (ds : List EncounterDiagnosisT) :
    (setEncounterFields e locs ds).Resource.resId = e.Resource.resId := by
  cases e with
  | mk r fu rq =>
    cases r <;> simp [setEncounterFields, ContainedResource.resId]

/-- The references of the completed encounter entry are exactly the
location-period references and the diagnosis-links appended to the fresh
encounter resource. -/
theorem setEncounterFields_refs (c : BConfig) (s : BState) (ec : Encounter)
    (cl : String) (locs : List EncounterLocationT)
    (ds : List EncounterDiagnosisT) :
    entryRefs (setEncounterFields (encounter c s ec cl).1 locs ds) =
      locs.filterMap (fun el => el.Location) ++
        ds.map (fun d => d.Condition) :=
  rfl

/-- Shape of the location-history loop: the doctors registry is untouched,
ids advance monotonically, and produced entries are well-formed Location
entries without references. -/
theorem locLoop_shape (c : BConfig) : ∀ (lhs : List LocationHistory)
    (s : BState),
    (locLoop c s lhs).2.2.doctors = s.doctors ∧
    s.nextID ≤ (locLoop c s lhs).2.2.nextID ∧
    IdsSpec c.gen s.nextID (locLoop c s lhs).2.2.nextID
      (locLoop c s lhs).1 ∧
    ∀ e ∈ (locLoop c s lhs).1,
      entryWF c e ∧ e.Resource.typeName = "Location" ∧ entryRefs e = [] := by
  intro lhs
  induction lhs with
  | nil =>
    intro s
    exact ⟨rfl, Nat.le_refl _, IdsSpec_nil c.gen s.nextID s.nextID,
      fun e he => absurd he (List.not_mem_nil e)⟩
  | cons lh rest ih =>
    intro s
    obtain ⟨hl1, hl2, hl3, hl4⟩ := location_shape c s lh.Location
    obtain ⟨ih1, ih2, ih3, ih4⟩ := ih (location c s lh.Location).2.2
    have hstep : locLoop c s (lh :: rest) =
        ((location c s lh.Location).1.toList ++
          (locLoop c (location c s lh.Location).2.2 rest).1,
         encounterLocation (location c s lh.Location).2.1 lh.Start lh.End ::
           (locLoop c (location c s lh.Location).2.2 rest).2.1,
         (locLoop c (location c s lh.Location).2.2 rest).2.2) :=
      rfl
    rw [hstep]
    refine ⟨by rw [ih1, hl1], ?_, ?_, ?_⟩
    · show s.nextID ≤
        (locLoop c (location c s lh.Location).2.2 rest).2.2.nextID
      omega
    · show IdsSpec c.gen s.nextID
        (locLoop c (location c s lh.Location).2.2 rest).2.2.nextID
        ((location c s lh.Location).1.toList ++
          (locLoop c (location c s lh.Location).2.2 rest).1)
      exact IdsSpec_append c.gen s.nextID
        (location c s lh.Location).2.2.nextID _ _ _ hl2 ih2 hl3 ih3
    · intro e he
      rcases List.mem_append.mp he with he' | he'
      · exact hl4 e he'
      · exact ih4 e he'

/-- Shape of the procedure loop: the locations registry is untouched, ids
advance monotonically, and produced entries are well-formed Practitioner
or Procedure entries. -/
theorem procLoop_shape (c : BConfig) (patientRef encounterRef : Reference) :
    ∀ (prs : List DiagnosisOrProcedure) (s : BState),
    (procLoop c s patientRef encounterRef prs).2.2.locations =
      s.locations ∧
    s.nextID ≤ (procLoop c s patientRef encounterRef prs).2.2.nextID ∧
    IdsSpec c.gen s.nextID
      (procLoop c s patientRef encounterRef prs).2.2.nextID
      (procLoop c s patientRef encounterRef prs).1 ∧
    ∀ e ∈ (procLoop c s patientRef encounterRef prs).1,
      entryWF c e ∧ (e.Resource.typeName = "Practitioner" ∨
        e.Resource.typeName = "Procedure") := by
  intro prs
  induction prs with
  | nil =>
    intro s
    exact ⟨rfl, Nat.le_refl _, IdsSpec_nil c.gen s.nextID s.nextID,
      fun e he => absurd he (List.not_mem_nil e)⟩
  | cons pr rest ih =>
    intro s
    obtain ⟨hp1, hp2, hp3, hp4⟩ := practitioner_shape c s pr.Clinician
    obtain ⟨hq1, hq2, hq3, hq4, hq5, hq6, hq7⟩ :=
      procedure_shape c (practitioner c s pr.Clinician).2.2 pr patientRef
        (practitioner c s pr.Clinician).2.1 encounterRef
    obtain ⟨ih1, ih2, ih3, ih4⟩ :=
      ih (procedure c (practitioner c s pr.Clinician).2.2 pr patientRef
        (practitioner c s pr.Clinician).2.1 encounterRef).2.2
    rw [hq1] at ih1 ih2 ih3
    have hstep : procLoop c s patientRef encounterRef (pr :: rest) =
        ((practitioner c s pr.Clinician).1.toList ++
          (procedure c (practitioner c s pr.Clinician).2.2 pr patientRef
            (practitioner c s pr.Clinician).2.1 encounterRef).1 ::
          (procLoop c
            (procedure c (practitioner c s pr.Clinician).2.2 pr patientRef
              (practitioner c s pr.Clinician).2.1 encounterRef).2.2
            patientRef encounterRef rest).1,
         encounterDiagnosis
           (procedure c (practitioner c s pr.Clinician).2.2 pr patientRef
             (practitioner c s pr.Clinician).2.1 encounterRef).2.1 ::
           (procLoop c
             (procedure c (practitioner c s pr.Clinician).2.2 pr patientRef
               (practitioner c s pr.Clinician).2.1 encounterRef).2.2
             patientRef encounterRef rest).2.1,
         (procLoop c
           (procedure c (practitioner c s pr.Clinician).2.2 pr patientRef
             (practitioner c s pr.Clinician).2.1 encounterRef).2.2
           patientRef encounterRef rest).2.2) :=
      rfl
    rw [hstep, hq1]
    refine ⟨?_, ?_, ?_, ?_⟩
    · show (procLoop c
        { nextID := (practitioner c s pr.Clinician).2.2.nextID + 1
          locations := (practitioner c s pr.Clinician).2.2.locations
          doctors := (practitioner c s pr.Clinician).2.2.doctors }
        patientRef encounterRef rest).2.2.locations = s.locations
      rw [ih1]
      exact hp1
    · show s.nextID ≤ (procLoop c
        { nextID := (practitioner c s pr.Clinician).2.2.nextID + 1
          locations := (practitioner c s pr.Clinician).2.2.locations
          doctors := (practitioner c s pr.Clinician).2.2.doctors }
        patientRef encounterRef rest).2.2.nextID
      have h5 : ({ nextID := (practitioner c s pr.Clinician).2.2.nextID + 1, locations := (practitioner c s pr.Clinician).2.2.locations, doctors := (practitioner c s pr.Clinician).2.2.doctors } : BState).nextID = (practitioner c s pr.Clinician).2.2.nextID + 1 := rfl
      rw [h5] at ih2
      omega
    · show IdsSpec c.gen s.nextID
        (procLoop c
          { nextID := (practitioner c s pr.Clinician).2.2.nextID + 1
            locations := (practitioner c s pr.Clinician).2.2.locations
            doctors := (practitioner c s pr.Clinician).2.2.doctors }
          patientRef encounterRef rest).2.2.nextID
        ((practitioner c s pr.Clinician).1.toList ++
          (procedure c (practitioner c s pr.Clinician).2.2 pr patientRef
            (practitioner c s pr.Clinician).2.1 encounterRef).1 ::
          (procLoop c
            { nextID := (practitioner c s pr.Clinician).2.2.nextID + 1
              locations := (practitioner c s pr.Clinician).2.2.locations
              doctors := (practitioner c s pr.Clinician).2.2.doctors }
            patientRef encounterRef rest).1)
      have h5 : ({ nextID := (practitioner c s pr.Clinician).2.2.nextID + 1, locations := (practitioner c s pr.Clinician).2.2.locations, doctors := (practitioner c s pr.Clinician).2.2.doctors } : BState).nextID = (practitioner c s pr.Clinician).2.2.nextID + 1 := rfl
      rw [h5] at ih2 ih3
      refine IdsSpec_append c.gen s.nextID
        (practitioner c s pr.Clinician).2.2.nextID _ _ _ hp2 (by omega)
        hp3 ?_
      exact IdsSpec_cons c.gen _ _ _ _ hq4 (by omega) ih3
    · intro e he
      rcases List.mem_append.mp he with he' | he'
      · obtain ⟨hw, ht, _⟩ := hp4 e he'
        exact ⟨hw, Or.inl ht⟩
      · rcases List.mem_cons.mp he' with he'' | he''
        · rw [he'']
          exact ⟨hq2, Or.inr hq3⟩
        · exact ih4 e he''

/-- Shape of the diagnosis loop: the locations registry is untouched, ids
advance monotonically, and produced entries are well-formed Practitioner
or Condition entries. -/
theorem diagLoop_shape (c : BConfig) (patientRef encounterRef : Reference) :
    ∀ (dss : List DiagnosisOrProcedure) (s : BState),
    (diagLoop c s patientRef encounterRef dss).2.2.locations =
      s.locations ∧
    s.nextID ≤ (diagLoop c s patientRef encounterRef dss).2.2.nextID ∧
    IdsSpec c.gen s.nextID
      (diagLoop c s patientRef encounterRef dss).2.2.nextID
      (diagLoop c s patientRef encounterRef dss).1 ∧
    ∀ e ∈ (diagLoop c s patientRef encounterRef dss).1,
      entryWF c e ∧ (e.Resource.typeName = "Practitioner" ∨
        e.Resource.typeName = "Condition") := by
  intro dss
  induction dss with
  | nil =>
    intro s
    exact ⟨rfl, Nat.le_refl _, IdsSpec_nil c.gen s.nextID s.nextID,
      fun e he => absurd he (List.not_mem_nil e)⟩
  | cons d rest ih =>
    intro s
    obtain ⟨hp1, hp2, hp3, hp4⟩ := practitioner_shape c s d.Clinician
    obtain ⟨hq1, hq2, hq3, hq4, hq5, hq6, hq7⟩ :=
      condition_shape c (practitioner c s d.Clinician).2.2 d patientRef
        (practitioner c s d.Clinician).2.1 encounterRef
    obtain ⟨ih1, ih2, ih3, ih4⟩ :=
      ih (condition c (practitioner c s d.Clinician).2.2 d patientRef
        (practitioner c s d.Clinician).2.1 encounterRef).2.2
    rw [hq1] at ih1 ih2 ih3
    have hstep : diagLoop c s patientRef encounterRef (d :: rest) =
        ((practitioner c s d.Clinician).1.toList ++
          (condition c (practitioner c s d.Clinician).2.2 d patientRef
            (practitioner c s d.Clinician).2.1 encounterRef).1 ::
          (diagLoop c
            (condition c (practitioner c s d.Clinician).2.2 d patientRef
              (practitioner c s d.Clinician).2.1 encounterRef).2.2
            patientRef encounterRef rest).1,
         encounterDiagnosis
           (condition c (practitioner c s d.Clinician).2.2 d patientRef
             (practitioner c s d.Clinician).2.1 encounterRef).2.1 ::
           (diagLoop c
             (condition c (practitioner c s d.Clinician).2.2 d patientRef
               (practitioner c s d.Clinician).2.1 encounterRef).2.2
             patientRef encounterRef rest).2.1,
         (diagLoop c
           (condition c (practitioner c s d.Clinician).2.2 d patientRef
             (practitioner c s d.Clinician).2.1 encounterRef).2.2
           patientRef encounterRef rest).2.2) :=
      rfl
    rw [hstep, hq1]
    refine ⟨?_, ?_, ?_, ?_⟩
    · show (diagLoop c
        { nextID := (practitioner c s d.Clinician).2.2.nextID + 1
          locations := (practitioner c s d.Clinician).2.2.locations
          doctors := (practitioner c s d.Clinician).2.2.doctors }
        patientRef encounterRef rest).2.2.locations = s.locations
      rw [ih1]
      exact hp1
    · show s.nextID ≤ (diagLoop c
        { nextID := (practitioner c s d.Clinician).2.2.nextID + 1
          locations := (practitioner c s d.Clinician).2.2.locations
          doctors := (practitioner c s d.Clinician).2.2.doctors }
        patientRef encounterRef rest).2.2.nextID
      have h5 : ({ nextID := (practitioner c s d.Clinician).2.2.nextID + 1, locations := (practitioner c s d.Clinician).2.2.locations, doctors := (practitioner c s d.Clinician).2.2.doctors } : BState).nextID = (practitioner c s d.Clinician).2.2.nextID + 1 := rfl
      rw [h5] at ih2
      omega
    · show IdsSpec c.gen s.nextID
        (diagLoop c
          { nextID := (practitioner c s d.Clinician).2.2.nextID + 1
            locations := (practitioner c s d.Clinician).2.2.locations
            doctors := (practitioner c s d.Clinician).2.2.doctors }
          patientRef encounterRef rest).2.2.nextID
        ((practitioner c s d.Clinician).1.toList ++
          (condition c (practitioner c s d.Clinician).2.2 d patientRef
            (practitioner c s d.Clinician).2.1 encounterRef).1 ::
          (diagLoop c
            { nextID := (practitioner c s d.Clinician).2.2.nextID + 1
              locations := (practitioner c s d.Clinician).2.2.locations
              doctors := (practitioner c s d.Clinician).2.2.doctors }
            patientRef encounterRef rest).1)
      have h5 : ({ nextID := (practitioner c s d.Clinician).2.2.nextID + 1, locations := (practitioner c s d.Clinician).2.2.locations, doctors := (practitioner c s d.Clinician).2.2.doctors } : BState).nextID = (practitioner c s d.Clinician).2.2.nextID + 1 := rfl
      rw [h5] at ih2 ih3
      refine IdsSpec_append c.gen s.nextID
        (practitioner c s d.Clinician).2.2.nextID _ _ _ hp2 (by omega)
        hp3 ?_
      exact IdsSpec_cons c.gen _ _ _ _ hq4 (by omega) ih3
    · intro e he
      rcases List.mem_append.mp he with he' | he'
      · obtain ⟨hw, ht, _⟩ := hp4 e he'
        exact ⟨hw, Or.inl ht⟩
      · rcases List.mem_cons.mp he' with he'' | he''
        · rw [he'']
          exact ⟨hq2, Or.inr hq3⟩
        · exact ih4 e he''

/-- Entries drawn from [lo+1, mid), then a single entry with id `g lo`,
then entries drawn from [mid, hi): the id pattern of one encounter, whose
entry consumes the first id but is appended after its children. -/
theorem IdsSpec_middle (g : Nat → String) (lo mid hi : Nat)
    (A B : List Bundle_Entry) (e : Bundle_Entry)
    (hA : IdsSpec g (lo + 1) mid A) (he : e.Resource.resId = g lo)
    (hB : IdsSpec g mid hi B) (h1 : lo + 1 ≤ mid) (h2 : mid ≤ hi) :
    IdsSpec g lo hi (A ++ e :: B) := by
  obtain ⟨ks1, hmap1, hnd1, hbd1⟩ := hA
  obtain ⟨ks2, hmap2, hnd2, hbd2⟩ := hB
  refine ⟨ks1 ++ lo :: ks2, by simp [hmap1, hmap2, he], ?_, ?_⟩
  · rw [List.nodup_append]
    refine ⟨hnd1, ?_, ?_⟩
    · rw [List.nodup_cons]
      refine ⟨fun hk => absurd (hbd2 lo hk).1 (by omega), hnd2⟩
    · intro a ha hb
      rcases List.mem_cons.mp hb with hb' | hb'
      · have := (hbd1 a ha).1
        omega
      · have h3 := (hbd1 a ha).2
        have h4 := (hbd2 a hb').1
        omega
  · intro k hk
    rcases List.mem_append.mp hk with hk' | hk'
    · have := hbd1 k hk'
      constructor <;> omega
    · rcases List.mem_cons.mp hk' with hk'' | hk''
      · rw [hk'']
        constructor <;> omega
      · have := hbd2 k hk''
        constructor <;> omega

/-- Shape of the encounter loop: ids advance monotonically, every produced
entry is well formed, and none is a Patient entry. -/
theorem encLoop_shape (c : BConfig) (patientRef : Reference) (cl : String) :
    ∀ (ecs : List Encounter) (s : BState),
    s.nextID ≤ (encLoop c s patientRef cl ecs).2.nextID ∧
    IdsSpec c.gen s.nextID (encLoop c s patientRef cl ecs).2.nextID
      (encLoop c s patientRef cl ecs).1 ∧
    ∀ e ∈ (encLoop c s patientRef cl ecs).1,
      entryWF c e ∧ e.Resource.typeName ≠ "Patient" := by
  intro ecs
  induction ecs with
  | nil =>
    intro s
    exact ⟨Nat.le_refl _, IdsSpec_nil c.gen s.nextID s.nextID,
      fun e he => absurd he (List.not_mem_nil e)⟩
  | cons ec rest ih =>
    intro s
    set E := encounter c s ec cl with hE
    set L := locLoop c E.2.2 ec.LocationHistory with hL
    set P := procLoop c L.2.2 patientRef E.2.1 ec.Procedures with hP
    set D := diagLoop c P.2.2 patientRef E.2.1 ec.Diagnoses with hD
    set OB := ordersLoop c D.2.2 E.2.1 patientRef ec.Orders with hOB
    set R := encLoop c OB.2 patientRef cl rest with hR
    have hstep : encLoop c s patientRef cl (ec :: rest) =
        (L.1 ++ P.1 ++ D.1 ++
          setEncounterFields E.1 L.2.1 (P.2.1 ++ D.2.1) ::
            (OB.1 ++ R.1), R.2) := by
      rw [hR, hOB, hD, hP, hL, hE]
      rfl
    obtain ⟨he1, he2, he3, he4, he5, he6, he7⟩ := encounter_shape c s ec cl
    rw [← hE] at he1 he2 he3 he4 he5 he6 he7
    have hs1 : E.2.2.nextID = s.nextID + 1 := by rw [he1]
    obtain ⟨hl1, hl2, hl3, hl4⟩ := locLoop_shape c ec.LocationHistory E.2.2
    rw [← hL] at hl1 hl2 hl3 hl4
    obtain ⟨hp1, hp2, hp3, hp4⟩ :=
      procLoop_shape c patientRef E.2.1 ec.Procedures L.2.2
    rw [← hP] at hp1 hp2 hp3 hp4
    obtain ⟨hd1, hd2, hd3, hd4⟩ :=
      diagLoop_shape c patientRef E.2.1 ec.Diagnoses P.2.2
    rw [← hD] at hd1 hd2 hd3 hd4
    obtain ⟨ho1, ho2, ho3, ho4, ho5⟩ :=
      ordersLoop_shape c E.2.1 patientRef ec.Orders D.2.2
    rw [← hOB] at ho1 ho2 ho3 ho4 ho5
    obtain ⟨hi1, hi2, hi3⟩ := ih OB.2
    rw [← hR] at hi1 hi2 hi3
    rw [hstep]
    refine ⟨?_, ?_, ?_⟩
    · show s.nextID ≤ R.2.nextID
      omega
    · show IdsSpec c.gen s.nextID R.2.nextID
        (L.1 ++ P.1 ++ D.1 ++
          setEncounterFields E.1 L.2.1 (P.2.1 ++ D.2.1) ::
            (OB.1 ++ R.1))
      refine IdsSpec_middle c.gen s.nextID D.2.2.nextID R.2.nextID _ _ _
        ?_ ?_ ?_ (by omega) (by omega)
      · rw [← hs1]
        refine IdsSpec_append c.gen E.2.2.nextID P.2.2.nextID D.2.2.nextID
          _ _ (by omega) (by omega) ?_ hd3
        exact IdsSpec_append c.gen E.2.2.nextID L.2.2.nextID P.2.2.nextID
          _ _ hl2 hp2 hl3 hp3
      · rw [setEncounterFields_resId]
        exact he4
      · exact IdsSpec_append c.gen D.2.2.nextID OB.2.nextID R.2.nextID
          _ _ ho3 hi1 ho4 hi2
    · intro e he
      rcases List.mem_append.mp he with heL | heR
      · rcases List.mem_append.mp heL with heL2 | heD
        · rcases List.mem_append.mp heL2 with heLoc | hePr
          · obtain ⟨hw, ht, _⟩ := hl4 e heLoc
            exact ⟨hw, by rw [ht]; decide⟩
          · obtain ⟨hw, ht⟩ := hp4 e hePr
            refine ⟨hw, ?_⟩
            rcases ht with ht | ht <;> rw [ht] <;> decide
        · obtain ⟨hw, ht⟩ := hd4 e heD
          refine ⟨hw, ?_⟩
          rcases ht with ht | ht <;> rw [ht] <;> decide
      · rcases List.mem_cons.mp heR with he4x | he4x
        · rw [he4x]
          refine ⟨setEncounterFields_wf c E.1 _ _ he2, ?_⟩
          rw [setEncounterFields_typeName, he3]
          decide
        · rcases List.mem_append.mp he4x with he5x | he5x
          · obtain ⟨hw, ht, _⟩ := ho5 e he5x
            exact ⟨hw, by rw [ht]; decide⟩
          · exact hi3 e he5x

/-- An entry with another type name is not a Patient entry. -/
theorem isPatientEntry_false (e : Bundle_Entry)
    (h : e.Resource.typeName ≠ "Patient") : isPatientEntry e = false := by
  cases hq : isPatientEntry e
  · rfl
  · exact absurd ((isPatientEntry_iff e).mp hq) h

/-- No resource type name contains a slash. -/
theorem typeName_no_slash (r : ContainedResource) :
    '/' ∉ r.typeName.data := by
  cases r <;> simp only [ContainedResource.typeName] <;> decide

/-- Splitting a list at a separator absent from both prefixes is
unambiguous. -/
theorem list_sep_inj (sep : Char) : ∀ (a b c d : List Char), sep ∉ a →
    sep ∉ b → a ++ sep :: c = b ++ sep :: d → a = b ∧ c = d := by
  intro a
  induction a with
  | nil =>
    intro b c d _ hb h
    cases b with
    | nil =>
      simp only [List.nil_append] at h
      exact ⟨rfl, by injection h⟩
    | cons y ys =>
      simp only [List.nil_append, List.cons_append] at h
      injection h with h1 h2
      exact absurd (h1 ▸ List.mem_cons_self y ys) hb
  | cons x xs ih =>
    intro b c d ha hb h
    cases b with
    | nil =>
      simp only [List.nil_append, List.cons_append] at h
      injection h with h1 h2
      exact absurd (h1 ▸ List.mem_cons_self x xs) ha
    | cons y ys =>
      simp only [List.cons_append] at h
      injection h with h1 h2
      have hxs : sep ∉ xs := fun hm => ha (List.mem_cons_of_mem x hm)
      have hys : sep ∉ ys := fun hm => hb (List.mem_cons_of_mem y hm)
      obtain ⟨hab, hcd⟩ := ih ys c d hxs hys h2
      exact ⟨by rw [h1, hab], hcd⟩

/-- A string of the form T/I with slash-free T determines T and I. -/
theorem append_slash_inj (T1 T2 I1 I2 : String) (h1 : '/' ∉ T1.data)
    (h2 : '/' ∉ T2.data) (h : T1 ++ "/" ++ I1 = T2 ++ "/" ++ I2) :
    T1 = T2 ∧ I1 = I2 := by
  have hd : T1.data ++ '/' :: I1.data = T2.data ++ '/' :: I2.data := by
    have := congrArg String.data h
    simpa [String.data_append] using this
  obtain ⟨ha, hb⟩ := list_sep_inj '/' T1.data T2.data I1.data I2.data h1 h2 hd
  exact ⟨String.ext ha, String.ext hb⟩

/-- The concrete identifier generator is injective. -/
theorem wGen_inj : Function.Injective wGen := by
  intro a b h
  have := congrArg (fun s => s.data.length) h
  simpa [wGen] using this

/-- Shape of createBundle: the bundle is the configured type, ids are drawn
injectively from the generator range, all entries are well formed, and the
entry list is the Patient entry followed by non-Patient entries. -/
theorem createBundle_shape (c : BConfig) (s : BState) (p : PatientInfo)
    (person : Person) :
    IdsSpec c.gen s.nextID (createBundle c s p person).2.nextID
      (createBundle c s p person).1.Entry ∧
    (∀ e ∈ (createBundle c s p person).1.Entry, entryWF c e) ∧
    (createBundle c s p person).1.BType = c.bundleTypeCode ∧
    ∃ rest, (createBundle c s p person).1.Entry =
        (patient c s person).1 :: rest ∧
      isPatientEntry (patient c s person).1 = true ∧
      ∀ e ∈ rest, isPatientEntry e = false := by
  set PT := patient c s person with hPT
  set A := allergies c PT.2.2 PT.2.1 p.Allergies with hA
  set EN := encLoop c A.2 PT.2.1 p.Class p.Encounters with hEN
  have hstep : createBundle c s p person =
      ({ BType := c.bundleTypeCode, Entry := PT.1 :: (A.1 ++ EN.1) },
       EN.2) := by
    rw [hEN, hA, hPT]
    rfl
  obtain ⟨hp1, hp2, hp3, hp4, hp5, hp6, hp7⟩ := patient_shape c s person
  rw [← hPT] at hp1 hp2 hp3 hp4 hp5 hp6 hp7
  have hs1 : PT.2.2.nextID = s.nextID + 1 := by rw [hp1]
  obtain ⟨ha1, ha2, ha3, ha4, ha5⟩ :=
    allergies_shape c PT.2.1 p.Allergies PT.2.2
  rw [← hA] at ha1 ha2 ha3 ha4 ha5
  obtain ⟨hn1, hn2, hn3⟩ := encLoop_shape c PT.2.1 p.Class p.Encounters A.2
  rw [← hEN] at hn1 hn2 hn3
  rw [hstep]
  refine ⟨?_, ?_, rfl, ?_⟩
  · show IdsSpec c.gen s.nextID EN.2.nextID (PT.1 :: (A.1 ++ EN.1))
    refine IdsSpec_cons c.gen s.nextID EN.2.nextID _ _ hp4 (by omega) ?_
    rw [← hs1]
    exact IdsSpec_append c.gen PT.2.2.nextID A.2.nextID EN.2.nextID _ _
      (by omega) hn1 ha4 hn2
  · intro e he
    rcases List.mem_cons.mp he with he' | he'
    · rw [he']
      exact hp2
    rcases List.mem_append.mp he' with he'' | he''
    · exact (ha5 e he'').1
    · exact (hn3 e he'').1
  · refine ⟨A.1 ++ EN.1, rfl, (isPatientEntry_iff _).mpr hp3, ?_⟩
    intro e he
    rcases List.mem_append.mp he with he' | he'
    · exact isPatientEntry_false e (by rw [(ha5 e he').2.1]; decide)
    · exact isPatientEntry_false e (hn3 e he').2

/-- C4: every entry's fullUrl is TypeName/id; with the Batch bundle type
every entry carries a POST request descriptor whose url is the resource
type name; with the Collection bundle type no entry carries a request
descriptor. -/
theorem C4_fullUrl_and_request : ∀ (c : BConfig) (s : BState)
    (p : PatientInfo) (b : Bundle) (s' : BState),
    Generate c s (some p) = .ok b s' →
    ∀ e ∈ b.Entry,
      e.FullUrl = some (e.Resource.typeName ++ "/" ++ e.Resource.resId) ∧
      (c.bundleTypeCode = .BATCH →
        e.Request = some { Url := e.Resource.typeName, Method := .POST }) ∧
      (c.bundleTypeCode = .COLLECTION → e.Request = none) := by
  intro c s p b s' hok e he
  simp only [Generate] at hok
  cases hp : p.Person with
  | none => rw [hp] at hok; cases hok
  | some person =>
    rw [hp] at hok
    injection hok with h1 h2
    obtain ⟨_, hwf, _, _⟩ := createBundle_shape c s p person
    have := hwf e (by rw [h1]; exact he)
    obtain ⟨hw1, hw2, hw3⟩ := this
    exact ⟨hw1, fun hb => by rw [hw2 hb]; rfl,
      fun hb => hw3 (by rw [hb]; intro hx; cases hx)⟩

/-- Witness for C4 at the concrete run, specialized to the first entry of
the produced bundle. -/
theorem C4_witness :
    wHeadEntry.FullUrl =
      some (wHeadEntry.Resource.typeName ++ "/" ++
        wHeadEntry.Resource.resId) ∧
    (wCfg.bundleTypeCode = .BATCH →
      wHeadEntry.Request =
        some { Url := wHeadEntry.Resource.typeName, Method := .POST }) :=
  ⟨(C4_fullUrl_and_request wCfg wState wInfo wBundle wStateAfter rfl
      wHeadEntry (by decide)).1,
   (C4_fullUrl_and_request wCfg wState wInfo wBundle wStateAfter rfl
      wHeadEntry (by decide)).2.1⟩

/-- C9: a Generate call on a valid record produces exactly one Patient
entry, whatever the record's contents. -/
theorem C9_one_patient : ∀ (c : BConfig) (s : BState) (p : PatientInfo)
    (b : Bundle) (s' : BState),
    Generate c s (some p) = .ok b s' →
    (b.Entry.filter isPatientEntry).length = 1 := by
  intro c s p b s' hok
  simp only [Generate] at hok
  cases hp : p.Person with
  | none => rw [hp] at hok; cases hok
  | some person =>
    rw [hp] at hok
    injection hok with h1 h2
    obtain ⟨_, _, _, rest, hrest, hhead, hnone⟩ :=
      createBundle_shape c s p person
    rw [← h1, hrest, List.filter_cons_of_pos hhead]
    have : rest.filter isPatientEntry = [] := by
      rw [List.filter_eq_nil_iff]
      intro a ha
      rw [hnone a ha]
      intro hx
      cases hx
    rw [this]
    rfl

/-- Witness for C9 at the concrete run. -/
theorem C9_witness : (wBundle.Entry.filter isPatientEntry).length = 1 :=
  C9_one_patient wCfg wState wInfo wBundle wStateAfter rfl

/-- C2: under an identifier generator that never repeats, the fullUrls of
the entries of one generated bundle are pairwise distinct. -/
theorem C2_fullUrl_unique : ∀ (c : BConfig) (s : BState) (p : PatientInfo)
    (b : Bundle) (s' : BState),
    Function.Injective c.gen → Generate c s (some p) = .ok b s' →
    (b.Entry.map (fun e => e.FullUrl)).Pairwise (· ≠ ·) := by
  intro c s p b s' hinj hok
  simp only [Generate] at hok
  cases hp : p.Person with
  | none => rw [hp] at hok; cases hok
  | some person =>
    rw [hp] at hok
    injection hok with h1 h2
    obtain ⟨hids, hwf, _, _⟩ := createBundle_shape c s p person
    rw [← h1]
    obtain ⟨ks, hmap, hnd, _⟩ := hids
    have hidnd : ((createBundle c s p person).1.Entry.map
        (fun e => e.Resource.resId)).Nodup := by
      rw [hmap]
      exact hnd.map hinj
    rw [List.pairwise_map]
    have hpw : ((createBundle c s p person).1.Entry.map
        (fun e => e.Resource.resId)).Pairwise (· ≠ ·) := hidnd
    rw [List.pairwise_map] at hpw
    refine hpw.imp_of_mem ?_
    intro e1 e2 he1 he2 hne
    obtain ⟨hw1, _, _⟩ := hwf e1 he1
    obtain ⟨hw2, _, _⟩ := hwf e2 he2
    rw [hw1, hw2]
    intro hcontra
    injection hcontra with hcontra
    obtain ⟨_, hI⟩ := append_slash_inj _ _ _ _
      (typeName_no_slash e1.Resource) (typeName_no_slash e2.Resource)
      hcontra
    exact hne hI

/-- Witness for C2 at the concrete run with the injective generator. -/
theorem C2_witness :
    (wBundle.Entry.map (fun e => e.FullUrl)).Pairwise (· ≠ ·) :=
  C2_fullUrl_unique wCfg wState wInfo wBundle wStateAfter wGen_inj rfl

/-- A successful association-list lookup returns a stored pair. -/
theorem alookup_mem {α β : Type} [DecidableEq α] : ∀ (m : List (α × β))
    (k : α) (v : β), alookup m k = some v → (k, v) ∈ m := by
  intro m
  induction m with
  | nil => intro k v h; cases h
  | cons kv rest ih =>
    obtain ⟨k0, v0⟩ := kv
    intro k v h
    rw [alookup] at h
    by_cases hk : k0 = k
    · rw [if_pos hk] at h
      injection h with h
      rw [← hk, h]
      exact List.mem_cons_self _ _
    · rw [if_neg hk] at h
      exact List.mem_cons_of_mem _ (ih k v h)

/-- Resolution is monotone in the entry list. -/
theorem resolves_mono (es ES : List Bundle_Entry) (r : Reference)
    (hsub : ∀ e ∈ es, e ∈ ES) (h : resolves es r) : resolves ES r := by
  obtain ⟨e, he, hp⟩ := h
  exact ⟨e, hsub e he, hp⟩

/-- When the location registry misses, the location producer emits an entry
and a reference to exactly that entry, and registers the reference. -/
theorem location_refTo (c : BConfig) (s : BState) (l : PatientLocation)
    (h : alookup s.locations l = none) :
    ∃ e r, (location c s (some l)).1 = some e ∧
      (location c s (some l)).2.1 = some r ∧
      e.Resource.typeName = r.RefType ∧ e.Resource.resId = r.RefId ∧
      (location c s (some l)).2.2.locations = (l, r) :: s.locations ∧
      (location c s (some l)).2.2.nextID = s.nextID + 1 ∧
      (location c s (some l)).2.2.doctors = s.doctors ∧
      r.RefId = c.gen s.nextID ∧ r.RefType = "Location" := by
  rw [location, h]
  exact ⟨_, _, rfl, rfl, rfl, rfl, rfl, rfl, rfl, rfl, rfl⟩

/-- When the doctors registry misses, the practitioner producer emits an
entry and a reference to exactly that entry, and registers the
reference. -/
theorem practitioner_refTo (c : BConfig) (s : BState) (d : Doctor)
    (h : alookup s.doctors d = none) :
    ∃ e r, (practitioner c s (some d)).1 = some e ∧
      (practitioner c s (some d)).2.1 = some r ∧
      e.Resource.typeName = r.RefType ∧ e.Resource.resId = r.RefId ∧
      (practitioner c s (some d)).2.2.doctors = (d, r) :: s.doctors ∧
      (practitioner c s (some d)).2.2.nextID = s.nextID + 1 ∧
      (practitioner c s (some d)).2.2.locations = s.locations ∧
      r.RefId = c.gen s.nextID ∧ r.RefType = "Practitioner" := by
  rw [practitioner, h]
  exact ⟨_, _, rfl, rfl, rfl, rfl, rfl, rfl, rfl, rfl, rfl⟩

/-- If the stored location references resolve and the produced entry is in
ES, then the updated registry's references resolve and any returned
reference resolves. -/
theorem location_resolve (c : BConfig) (s : BState)
    (ol : Option PatientLocation) (ES : List Bundle_Entry)
    (hmap : ∀ lr ∈ s.locations, resolves ES lr.2)
    (hsub : ∀ e ∈ (location c s ol).1.toList, e ∈ ES) :
    (∀ lr ∈ (location c s ol).2.2.locations, resolves ES lr.2) ∧
    (∀ r, (location c s ol).2.1 = some r → resolves ES r) := by
  cases ol with
  | none => exact ⟨hmap, fun r hr => by cases hr⟩
  | some l =>
    cases hl : alookup s.locations l with
    | some ref =>
      have hstep : location c s (some l) = (none, some ref, s) := by
        rw [location, hl]
      rw [hstep]
      refine ⟨hmap, ?_⟩
      intro r hr
      injection hr with hr
      rw [← hr]
      exact hmap (l, ref) (alookup_mem s.locations l ref hl)
    | none =>
      obtain ⟨e, r, h1, h2, h3, h4, h5, _, _, _, _⟩ := location_refTo c s l hl
      have heES : e ∈ ES := by
        refine hsub e ?_
        rw [h1]
        exact List.mem_cons_self e []
      have hres : resolves ES r := ⟨e, heES, h3, h4⟩
      constructor
      · intro lr hlr
        rw [h5] at hlr
        rcases List.mem_cons.mp hlr with he | he
        · rw [he]
          exact hres
        · exact hmap lr he
      · intro r' hr'
        rw [h2] at hr'
        injection hr' with hh
        rw [← hh]
        exact hres

/-- Symmetric resolution step for the practitioner producer. -/
theorem practitioner_resolve (c : BConfig) (s : BState)
    (od : Option Doctor) (ES : List Bundle_Entry)
    (hmap : ∀ dr ∈ s.doctors, resolves ES dr.2)
    (hsub : ∀ e ∈ (practitioner c s od).1.toList, e ∈ ES) :
    (∀ dr ∈ (practitioner c s od).2.2.doctors, resolves ES dr.2) ∧
    (∀ r, (practitioner c s od).2.1 = some r → resolves ES r) := by
  cases od with
  | none => exact ⟨hmap, fun r hr => by cases hr⟩
  | some d =>
    cases hl : alookup s.doctors d with
    | some ref =>
      have hstep : practitioner c s (some d) = (none, some ref, s) := by
        rw [practitioner, hl]
      rw [hstep]
      refine ⟨hmap, ?_⟩
      intro r hr
      injection hr with hr
      rw [← hr]
      exact hmap (d, ref) (alookup_mem s.doctors d ref hl)
    | none =>
      obtain ⟨e, r, h1, h2, h3, h4, h5, _, _, _, _⟩ := practitioner_refTo c s d hl
      have heES : e ∈ ES := by
        refine hsub e ?_
        rw [h1]
        exact List.mem_cons_self e []
      have hres : resolves ES r := ⟨e, heES, h3, h4⟩
      constructor
      · intro dr hdr
        rw [h5] at hdr
        rcases List.mem_cons.mp hdr with he | he
        · rw [he]
          exact hres
        · exact hmap dr he
      · intro r' hr'
        rw [h2] at hr'
        injection hr' with hh
        rw [← hh]
        exact hres

/-- Resolution through the location-history loop: registry references stay
resolved and every location-period reference resolves. -/
theorem locLoop_resolve (c : BConfig) : ∀ (lhs : List LocationHistory)
    (s : BState) (ES : List Bundle_Entry),
    (∀ lr ∈ s.locations, resolves ES lr.2) →
    (∀ e ∈ (locLoop c s lhs).1, e ∈ ES) →
    (∀ lr ∈ (locLoop c s lhs).2.2.locations, resolves ES lr.2) ∧
    (∀ el ∈ (locLoop c s lhs).2.1, ∀ r, el.Location = some r →
      resolves ES r) := by
  intro lhs
  induction lhs with
  | nil =>
    intro s ES hmap _
    exact ⟨hmap, fun el hel => absurd hel (List.not_mem_nil el)⟩
  | cons lh rest ih =>
    intro s ES hmap hsub
    have hstep : locLoop c s (lh :: rest) =
        ((location c s lh.Location).1.toList ++
          (locLoop c (location c s lh.Location).2.2 rest).1,
         encounterLocation (location c s lh.Location).2.1 lh.Start lh.End ::
           (locLoop c (location c s lh.Location).2.2 rest).2.1,
         (locLoop c (location c s lh.Location).2.2 rest).2.2) :=
      rfl
    rw [hstep] at hsub
    have hsubL : ∀ e ∈ (location c s lh.Location).1.toList, e ∈ ES :=
      fun e he => hsub e (List.mem_append_left _ he)
    have hsubR : ∀ e ∈ (locLoop c (location c s lh.Location).2.2 rest).1,
        e ∈ ES :=
      fun e he => hsub e (List.mem_append_right _ he)
    obtain ⟨hm1, hr1⟩ := location_resolve c s lh.Location ES hmap hsubL
    obtain ⟨hm2, hr2⟩ := ih (location c s lh.Location).2.2 ES hm1 hsubR
    rw [hstep]
    refine ⟨hm2, ?_⟩
    intro el hel r hr
    rcases List.mem_cons.mp hel with he | he
    · refine hr1 r ?_
      rw [he] at hr
      exact hr
    · exact hr2 el he r hr

/-- Resolution through the procedure loop: the doctors registry stays
resolved, every reference carried by a produced entry resolves, and every
diagnosis-link resolves. -/
theorem procLoop_resolve (c : BConfig) (patientRef encounterRef :
    Reference) : ∀ (prs : List DiagnosisOrProcedure) (s : BState)
    (ES : List Bundle_Entry),
    (∀ dr ∈ s.doctors, resolves ES dr.2) →
    (∀ e ∈ (procLoop c s patientRef encounterRef prs).1, e ∈ ES) →
    resolves ES patientRef → resolves ES encounterRef →
    (∀ dr ∈ (procLoop c s patientRef encounterRef prs).2.2.doctors,
      resolves ES dr.2) ∧
    (∀ e ∈ (procLoop c s patientRef encounterRef prs).1,
      ∀ r ∈ entryRefs e, resolves ES r) ∧
    (∀ d ∈ (procLoop c s patientRef encounterRef prs).2.1,
      resolves ES d.Condition) := by
  intro prs
  induction prs with
  | nil =>
    intro s ES hdoc _ _ _
    exact ⟨hdoc, fun e he => absurd he (List.not_mem_nil e),
      fun d hd => absurd hd (List.not_mem_nil d)⟩
  | cons pr rest ih =>
    intro s ES hdoc hsub hpat henc
    set W := practitioner c s pr.Clinician with hW
    set Q := procedure c W.2.2 pr patientRef W.2.1 encounterRef with hQ
    set R2 := procLoop c Q.2.2 patientRef encounterRef rest with hR2
    have hstep : procLoop c s patientRef encounterRef (pr :: rest) =
        (W.1.toList ++ Q.1 :: R2.1,
         encounterDiagnosis Q.2.1 :: R2.2.1, R2.2.2) := by
      rw [hR2, hQ, hW]
      rfl
    rw [hstep] at hsub
    have hsubW : ∀ e ∈ W.1.toList, e ∈ ES :=
      fun e he => hsub e (List.mem_append_left _ he)
    have hQmem : Q.1 ∈ ES :=
      hsub Q.1 (List.mem_append_right _ (List.mem_cons_self _ _))
    have hsubR : ∀ e ∈ R2.1, e ∈ ES :=
      fun e he => hsub e
        (List.mem_append_right _ (List.mem_cons_of_mem _ he))
    obtain ⟨hm1, hr1⟩ := practitioner_resolve c s pr.Clinician ES hdoc hsubW
    obtain ⟨hq1, hq2, hq3, hq4, hq5, hq6, hq7⟩ :=
      procedure_shape c W.2.2 pr patientRef W.2.1 encounterRef
    rw [← hQ] at hq1 hq2 hq3 hq4 hq5 hq6 hq7
    have hdocQ : ∀ dr ∈ Q.2.2.doctors, resolves ES dr.2 := by
      intro dr hdr
      refine hm1 dr ?_
      rw [hq1] at hdr
      exact hdr
    have hQref : resolves ES Q.2.1 := by
      refine ⟨Q.1, hQmem, ?_, ?_⟩
      · rw [hq3, hq6]
      · rw [hq4, hq7]
    obtain ⟨im1, im2, im3⟩ := ih Q.2.2 ES hdocQ hsubR hpat henc
    rw [hstep]
    refine ⟨im1, ?_, ?_⟩
    · intro e he r hr
      rcases List.mem_append.mp he with he' | he'
      · obtain ⟨_, _, hrefs⟩ := practitioner_shape c s pr.Clinician
        rw [← hW] at hrefs
        rw [(hrefs.2 e he').2.2] at hr
        exact absurd hr (List.not_mem_nil r)
      rcases List.mem_cons.mp he' with he'' | he''
      · rw [he'', hq5] at hr
        rcases List.mem_append.mp hr with hr' | hr'
        · rcases List.mem_cons.mp hr' with hr'' | hr''
          · rw [hr'']
            exact hpat
          rcases List.mem_cons.mp hr'' with hr3 | hr3
          · rw [hr3]
            exact henc
          · exact absurd hr3 (List.not_mem_nil r)
        · cases hwo : W.2.1 with
          | none => rw [hwo] at hr'; exact absurd hr' (List.not_mem_nil r)
          | some wr =>
            rw [hwo] at hr'
            rcases List.mem_cons.mp hr' with hr'' | hr''
            · rw [hr'']
              exact hr1 wr hwo
            · exact absurd hr'' (List.not_mem_nil r)
      · exact im2 e he'' r hr
    · intro d hd
      rcases List.mem_cons.mp hd with hd' | hd'
      · rw [hd']
        exact hQref
      · exact im3 d hd'

/-- Resolution through the diagnosis loop, symmetric to the procedure
loop. -/
theorem diagLoop_resolve (c : BConfig) (patientRef encounterRef :
    Reference) : ∀ (dss : List DiagnosisOrProcedure) (s : BState)
    (ES : List Bundle_Entry),
    (∀ dr ∈ s.doctors, resolves ES dr.2) →
    (∀ e ∈ (diagLoop c s patientRef encounterRef dss).1, e ∈ ES) →
    resolves ES patientRef → resolves ES encounterRef →
    (∀ dr ∈ (diagLoop c s patientRef encounterRef dss).2.2.doctors,
      resolves ES dr.2) ∧
    (∀ e ∈ (diagLoop c s patientRef encounterRef dss).1,
      ∀ r ∈ entryRefs e, resolves ES r) ∧
    (∀ d ∈ (diagLoop c s patientRef encounterRef dss).2.1,
      resolves ES d.Condition) := by
  intro dss
  induction dss with
  | nil =>
    intro s ES hdoc _ _ _
    exact ⟨hdoc, fun e he => absurd he (List.not_mem_nil e),
      fun d hd => absurd hd (List.not_mem_nil d)⟩
  | cons dg rest ih =>
    intro s ES hdoc hsub hpat henc
    set W := practitioner c s dg.Clinician with hW
    set Q := condition c W.2.2 dg patientRef W.2.1 encounterRef with hQ
    set R2 := diagLoop c Q.2.2 patientRef encounterRef rest with hR2
    have hstep : diagLoop c s patientRef encounterRef (dg :: rest) =
        (W.1.toList ++ Q.1 :: R2.1,
         encounterDiagnosis Q.2.1 :: R2.2.1, R2.2.2) := by
      rw [hR2, hQ, hW]
      rfl
    rw [hstep] at hsub
    have hsubW : ∀ e ∈ W.1.toList, e ∈ ES :=
      fun e he => hsub e (List.mem_append_left _ he)
    have hQmem : Q.1 ∈ ES :=
      hsub Q.1 (List.mem_append_right _ (List.mem_cons_self _ _))
    have hsubR : ∀ e ∈ R2.1, e ∈ ES :=
      fun e he => hsub e
        (List.mem_append_right _ (List.mem_cons_of_mem _ he))
    obtain ⟨hm1, hr1⟩ := practitioner_resolve c s dg.Clinician ES hdoc hsubW
    obtain ⟨hq1, hq2, hq3, hq4, hq5, hq6, hq7⟩ :=
      condition_shape c W.2.2 dg patientRef W.2.1 encounterRef
    rw [← hQ] at hq1 hq2 hq3 hq4 hq5 hq6 hq7
    have hdocQ : ∀ dr ∈ Q.2.2.doctors, resolves ES dr.2 := by
      intro dr hdr
      refine hm1 dr ?_
      rw [hq1] at hdr
      exact hdr
    have hQref : resolves ES Q.2.1 := by
      refine ⟨Q.1, hQmem, ?_, ?_⟩
      · rw [hq3, hq6]
      · rw [hq4, hq7]
    obtain ⟨im1, im2, im3⟩ := ih Q.2.2 ES hdocQ hsubR hpat henc
    rw [hstep]
    refine ⟨im1, ?_, ?_⟩
    · intro e he r hr
      rcases List.mem_append.mp he with he' | he'
      · obtain ⟨_, _, hrefs⟩ := practitioner_shape c s dg.Clinician
        rw [← hW] at hrefs
        rw [(hrefs.2 e he').2.2] at hr
        exact absurd hr (List.not_mem_nil r)
      rcases List.mem_cons.mp he' with he'' | he''
      · rw [he'', hq5] at hr
        rcases List.mem_append.mp hr with hr' | hr'
        · rcases List.mem_cons.mp hr' with hr'' | hr''
          · rw [hr'']
            exact hpat
          rcases List.mem_cons.mp hr'' with hr3 | hr3
          · rw [hr3]
            exact henc
          · exact absurd hr3 (List.not_mem_nil r)
        · cases hwo : W.2.1 with
          | none => rw [hwo] at hr'; exact absurd hr' (List.not_mem_nil r)
          | some wr =>
            rw [hwo] at hr'
            rcases List.mem_cons.mp hr' with hr'' | hr''
            · rw [hr'']
              exact hr1 wr hwo
            · exact absurd hr'' (List.not_mem_nil r)
      · exact im2 e he'' r hr
    · intro d hd
      rcases List.mem_cons.mp hd with hd' | hd'
      · rw [hd']
        exact hQref
      · exact im3 d hd'

/-- Resolution through the encounter loop: both registries stay resolved
and every reference carried by a produced entry resolves. -/
theorem encLoop_resolve (c : BConfig) (patientRef : Reference)
    (cl : String) : ∀ (ecs : List Encounter) (s : BState)
    (ES : List Bundle_Entry),
    (∀ lr ∈ s.locations, resolves ES lr.2) →
    (∀ dr ∈ s.doctors, resolves ES dr.2) →
    (∀ e ∈ (encLoop c s patientRef cl ecs).1, e ∈ ES) →
    resolves ES patientRef →
    (∀ lr ∈ (encLoop c s patientRef cl ecs).2.locations,
      resolves ES lr.2) ∧
    (∀ dr ∈ (encLoop c s patientRef cl ecs).2.doctors,
      resolves ES dr.2) ∧
    (∀ e ∈ (encLoop c s patientRef cl ecs).1,
      ∀ r ∈ entryRefs e, resolves ES r) := by
  intro ecs
  induction ecs with
  | nil =>
    intro s ES hloc hdoc _ _
    exact ⟨hloc, hdoc, fun e he => absurd he (List.not_mem_nil e)⟩
  | cons ec rest ih =>
    intro s ES hloc hdoc hsub hpat
    set E := encounter c s ec cl with hE
    set L := locLoop c E.2.2 ec.LocationHistory with hL
    set P := procLoop c L.2.2 patientRef E.2.1 ec.Procedures with hP
    set D := diagLoop c P.2.2 patientRef E.2.1 ec.Diagnoses with hD
    set OB := ordersLoop c D.2.2 E.2.1 patientRef ec.Orders with hOB
    set R := encLoop c OB.2 patientRef cl rest with hR
    have hstep : encLoop c s patientRef cl (ec :: rest) =
        (L.1 ++ P.1 ++ D.1 ++
          setEncounterFields E.1 L.2.1 (P.2.1 ++ D.2.1) ::
            (OB.1 ++ R.1), R.2) := by
      rw [hR, hOB, hD, hP, hL, hE]
      rfl
    obtain ⟨he1, he2, he3, he4, he5, he6, he7⟩ := encounter_shape c s ec cl
    rw [← hE] at he1 he2 he3 he4 he5 he6 he7
    rw [hstep] at hsub
    -- membership of each block in ES
    have hsubL : ∀ e ∈ L.1, e ∈ ES := fun e he =>
      hsub e (List.mem_append_left _ (List.mem_append_left _
        (List.mem_append_left _ he)))
    have hsubP : ∀ e ∈ P.1, e ∈ ES := fun e he =>
      hsub e (List.mem_append_left _ (List.mem_append_left _
        (List.mem_append_right _ he)))
    have hsubD : ∀ e ∈ D.1, e ∈ ES := fun e he =>
      hsub e (List.mem_append_left _ (List.mem_append_right _ he))
    have hE2mem : setEncounterFields E.1 L.2.1 (P.2.1 ++ D.2.1) ∈ ES :=
      hsub _ (List.mem_append_right _ (List.mem_cons_self _ _))
    have hsubO : ∀ e ∈ OB.1, e ∈ ES := fun e he =>
      hsub e (List.mem_append_right _ (List.mem_cons_of_mem _
        (List.mem_append_left _ he)))
    have hsubR : ∀ e ∈ R.1, e ∈ ES := fun e he =>
      hsub e (List.mem_append_right _ (List.mem_cons_of_mem _
        (List.mem_append_right _ he)))
    -- the encounter reference resolves to the completed encounter entry
    have henc : resolves ES E.2.1 := by
      refine ⟨setEncounterFields E.1 L.2.1 (P.2.1 ++ D.2.1), hE2mem, ?_, ?_⟩
      · rw [setEncounterFields_typeName, he3, he6]
      · rw [setEncounterFields_resId, he4, he7]
    -- registries through the encounter producer (they are untouched)
    have hlocE : ∀ lr ∈ E.2.2.locations, resolves ES lr.2 := by
      intro lr hlr
      refine hloc lr ?_
      rw [he1] at hlr
      exact hlr
    have hdocE : ∀ dr ∈ E.2.2.doctors, resolves ES dr.2 := by
      intro dr hdr
      refine hdoc dr ?_
      rw [he1] at hdr
      exact hdr
    -- through the location loop
    obtain ⟨hlm, hlrefs⟩ := locLoop_resolve c ec.LocationHistory E.2.2 ES
      hlocE hsubL
    rw [← hL] at hlm hlrefs
    obtain ⟨hl1, hl2, hl3, hl4⟩ := locLoop_shape c ec.LocationHistory E.2.2
    rw [← hL] at hl1 hl2 hl3 hl4
    have hdocL : ∀ dr ∈ L.2.2.doctors, resolves ES dr.2 := by
      intro dr hdr
      refine hdocE dr ?_
      rw [hl1] at hdr
      exact hdr
    -- through the procedure loop
    obtain ⟨hpm, hprefs, hpdiag⟩ := procLoop_resolve c patientRef E.2.1
      ec.Procedures L.2.2 ES hdocL hsubP hpat henc
    rw [← hP] at hpm hprefs hpdiag
    obtain ⟨hp1, hp2, hp3, hp4⟩ :=
      procLoop_shape c patientRef E.2.1 ec.Procedures L.2.2
    rw [← hP] at hp1 hp2 hp3 hp4
    have hlocP : ∀ lr ∈ P.2.2.locations, resolves ES lr.2 := by
      intro lr hlr
      rw [hp1] at hlr
      exact hlm lr hlr
    -- through the diagnosis loop
    obtain ⟨hdm, hdrefs, hddiag⟩ := diagLoop_resolve c patientRef E.2.1
      ec.Diagnoses P.2.2 ES hpm hsubD hpat henc
    rw [← hD] at hdm hdrefs hddiag
    obtain ⟨hd1, hd2, hd3, hd4⟩ :=
      diagLoop_shape c patientRef E.2.1 ec.Diagnoses P.2.2
    rw [← hD] at hd1 hd2 hd3 hd4
    have hlocD : ∀ lr ∈ D.2.2.locations, resolves ES lr.2 := by
      intro lr hlr
      rw [hd1] at hlr
      exact hlocP lr hlr
    -- through the orders loop (registries untouched)
    obtain ⟨ho1, ho2, ho3, ho4, ho5⟩ :=
      ordersLoop_shape c E.2.1 patientRef ec.Orders D.2.2
    rw [← hOB] at ho1 ho2 ho3 ho4 ho5
    have hlocO : ∀ lr ∈ OB.2.locations, resolves ES lr.2 := by
      intro lr hlr
      rw [ho1] at hlr
      exact hlocD lr hlr
    have hdocO : ∀ dr ∈ OB.2.doctors, resolves ES dr.2 := by
      intro dr hdr
      rw [ho2] at hdr
      exact hdm dr hdr
    -- recurse
    obtain ⟨hrm1, hrm2, hrrefs⟩ := ih OB.2 ES hlocO hdocO hsubR hpat
    rw [← hR] at hrm1 hrm2 hrrefs
    rw [hstep]
    refine ⟨hrm1, hrm2, ?_⟩
    intro e he r hr
    rcases List.mem_append.mp he with heL | heR
    · rcases List.mem_append.mp heL with heL2 | heD
      · rcases List.mem_append.mp heL2 with heLoc | hePr
        · rw [(hl4 e heLoc).2.2] at hr
          exact absurd hr (List.not_mem_nil r)
        · exact hprefs e hePr r hr
      · exact hdrefs e heD r hr
    · rcases List.mem_cons.mp heR with he4x | he4x
      · rw [he4x] at hr
        rw [setEncounterFields_refs] at hr
        rcases List.mem_append.mp hr with hr' | hr'
        · obtain ⟨el, hel, helr⟩ := List.mem_filterMap.mp hr'
          exact hlrefs el hel r helr
        · obtain ⟨dgl, hdgl, hdglr⟩ := List.mem_map.mp hr'
          rcases List.mem_append.mp hdgl with hdg2 | hdg2
          · rw [← hdglr]
            exact hpdiag dgl hdg2
          · rw [← hdglr]
            exact hddiag dgl hdg2
      · rcases List.mem_append.mp he4x with he5x | he5x
        · rw [(ho5 e he5x).2.2] at hr
          rcases List.mem_cons.mp hr with hr' | hr'
          · rw [hr']
            exact hpat
          rcases List.mem_cons.mp hr' with hr'' | hr''
          · rw [hr'']
            exact henc
          · exact absurd hr'' (List.not_mem_nil r)
        · exact hrrefs e he5x r hr

/-- Top-level resolution: a Generate call from a fresh registry produces a
bundle in which every carried reference resolves, and leaves registries all
of whose references resolve in that bundle. -/
theorem generate_resolve (c : BConfig) (s : BState) (p : PatientInfo)
    (b : Bundle) (s' : BState) (hfl : s.locations = [])
    (hfd : s.doctors = []) (hok : Generate c s (some p) = .ok b s') :
    (∀ e ∈ b.Entry, ∀ r ∈ entryRefs e, resolves b.Entry r) ∧
    (∀ lr ∈ s'.locations, resolves b.Entry lr.2) ∧
    (∀ dr ∈ s'.doctors, resolves b.Entry dr.2) := by
  simp only [Generate] at hok
  cases hp : p.Person with
  | none => rw [hp] at hok; cases hok
  | some person =>
    rw [hp] at hok
    injection hok with h1 h2
    set PT := patient c s person with hPT
    set A := allergies c PT.2.2 PT.2.1 p.Allergies with hA
    set EN := encLoop c A.2 PT.2.1 p.Class p.Encounters with hEN
    have hstep : createBundle c s p person =
        ({ BType := c.bundleTypeCode, Entry := PT.1 :: (A.1 ++ EN.1) },
         EN.2) := by
      rw [hEN, hA, hPT]
      rfl
    have hbe : b.Entry = PT.1 :: (A.1 ++ EN.1) := by
      rw [← h1, hstep]
    have hse : s' = EN.2 := by
      rw [← h2, hstep]
    obtain ⟨hp1, hp2, hp3, hp4, hp5, hp6, hp7⟩ := patient_shape c s person
    rw [← hPT] at hp1 hp2 hp3 hp4 hp5 hp6 hp7
    obtain ⟨ha1, ha2, ha3, ha4, ha5⟩ :=
      allergies_shape c PT.2.1 p.Allergies PT.2.2
    rw [← hA] at ha1 ha2 ha3 ha4 ha5
    have hpat : resolves b.Entry PT.2.1 := by
      refine ⟨PT.1, ?_, ?_, ?_⟩
      · rw [hbe]
        exact List.mem_cons_self _ _
      · rw [hp3, hp6]
      · rw [hp4, hp7]
    have hlocA : ∀ lr ∈ A.2.locations, resolves b.Entry lr.2 := by
      intro lr hlr
      rw [ha1] at hlr
      have : PT.2.2.locations = s.locations := by rw [hp1]
      rw [this, hfl] at hlr
      exact absurd hlr (List.not_mem_nil lr)
    have hdocA : ∀ dr ∈ A.2.doctors, resolves b.Entry dr.2 := by
      intro dr hdr
      rw [ha2] at hdr
      have : PT.2.2.doctors = s.doctors := by rw [hp1]
      rw [this, hfd] at hdr
      exact absurd hdr (List.not_mem_nil dr)
    have hsubEN : ∀ e ∈ EN.1, e ∈ b.Entry := by
      intro e he
      rw [hbe]
      exact List.mem_cons_of_mem _ (List.mem_append_right _ he)
    obtain ⟨hm1, hm2, hrefs⟩ := encLoop_resolve c PT.2.1 p.Class
      p.Encounters A.2 b.Entry hlocA hdocA hsubEN hpat
    rw [← hEN] at hm1 hm2 hrefs
    refine ⟨?_, ?_, ?_⟩
    · intro e he r hr
      rw [hbe] at he
      rcases List.mem_cons.mp he with he' | he'
      · rw [he', hp5] at hr
        exact absurd hr (List.not_mem_nil r)
      rcases List.mem_append.mp he' with he'' | he''
      · rw [(ha5 e he'').2.2] at hr
        rcases List.mem_cons.mp hr with hr' | hr'
        · rw [hr']
          exact hpat
        · exact absurd hr' (List.not_mem_nil r)
      · exact hrefs e he'' r hr
    · intro lr hlr
      rw [hse] at hlr
      exact hm1 lr hlr
    · intro dr hdr
      rw [hse] at hdr
      exact hm2 dr hdr

/-- C3: from a fresh Bundler, every non-nil cross-reference carried by an
entry of a generated bundle (patient subjects, encounter backlinks,
practitioner performers and recorders, location references of
encounter-location entries, diagnosis-links) identifies an entry present
in the same bundle. -/
theorem C3_references_resolve : ∀ (c : BConfig) (s : BState)
    (p : PatientInfo) (b : Bundle) (s' : BState),
    s.locations = [] → s.doctors = [] →
    Generate c s (some p) = .ok b s' →
    ∀ e ∈ b.Entry, ∀ r ∈ entryRefs e, resolves b.Entry r :=
  fun c s p b s' hfl hfd hok =>
    (generate_resolve c s p b s' hfl hfd hok).1

/-- Witness for C3 at the concrete run: the patient-subject reference of
the first Procedure entry resolves in the same bundle. -/
theorem C3_witness :
    wProcEntry ∈ wBundle.Entry ∧ wProcRef ∈ entryRefs wProcEntry ∧
    resolves wBundle.Entry wProcRef :=
  ⟨by decide, by decide,
   C3_references_resolve wCfg wState wInfo wBundle wStateAfter rfl rfl rfl
     wProcEntry (by decide) wProcRef (by decide)⟩

/-- An entry is an Encounter entry exactly when its type name is
Encounter. -/
theorem isEncounterEntry_iff (e : Bundle_Entry) :
    isEncounterEntry e = true ↔ e.Resource.typeName = "Encounter" := by
  cases e with
  | mk r fu rq => cases r <;> simp [isEncounterEntry, ContainedResource.typeName]

/-- An entry is a Procedure entry exactly when its type name is
Procedure. -/
theorem isProcedureEntry_iff (e : Bundle_Entry) :
    isProcedureEntry e = true ↔ e.Resource.typeName = "Procedure" := by
  cases e with
  | mk r fu rq => cases r <;> simp [isProcedureEntry, ContainedResource.typeName]

/-- Dedup of locations: a fresh Bundler given one encounter whose location
history holds two entries with the same location value produces exactly
one Location entry, and the encounter's two location-period entries both
reference it. -/
theorem dedupLocations_two (c : BConfig) (s : BState) (person : Person)
    (cl st : String) (sh : List StatusHistory) (est eed : NullTime)
    (L : PatientLocation) (t1 t2 t3 t4 : NullTime) (as : List Allergy)
    (prs dss : List DiagnosisOrProcedure) (os : List Order) (b : Bundle)
    (s' : BState) (hfl : s.locations = [])
    (hok : Generate c s (some
      { Person := some person, Class := cl, Allergies := as
        Encounters := [{ Status := st, StatusHistory := sh, Start := est
                         End := eed
                         LocationHistory :=
                           [{ Location := some L, Start := t1, End := t2 },
                            { Location := some L, Start := t3, End := t4 }]
                         Procedures := prs, Diagnoses := dss
                         Orders := os }] }) = .ok b s') :
    ∃ le ee r, b.Entry.filter isLocationEntry = [le] ∧
      ee ∈ b.Entry ∧ isEncounterEntry ee = true ∧
      encounterLocationsOf ee =
        [encounterLocation (some r) t1 t2,
         encounterLocation (some r) t3 t4] ∧
      r.RefType = "Location" ∧ le.Resource.resId = r.RefId := by
  simp only [Generate] at hok
  injection hok with h1 h2
  set PT := patient c s person with hPT
  set A := allergies c PT.2.2 PT.2.1 as with hA
  set ec : Encounter :=
    { Status := st, StatusHistory := sh, Start := est, End := eed
      LocationHistory := [{ Location := some L, Start := t1, End := t2 },
                          { Location := some L, Start := t3, End := t4 }]
      Procedures := prs, Diagnoses := dss, Orders := os } with hec
  set E := encounter c A.2 ec cl with hE
  set L2 := locLoop c E.2.2 ec.LocationHistory with hL2
  set P := procLoop c L2.2.2 PT.2.1 E.2.1 ec.Procedures with hP
  set D := diagLoop c P.2.2 PT.2.1 E.2.1 ec.Diagnoses with hD
  set OB := ordersLoop c D.2.2 E.2.1 PT.2.1 ec.Orders with hOB
  have hbe : b.Entry = PT.1 :: (A.1 ++
      (L2.1 ++ P.1 ++ D.1 ++
        setEncounterFields E.1 L2.2.1 (P.2.1 ++ D.2.1) ::
          (OB.1 ++ []))) := by
    rw [← h1, hOB, hD, hP, hL2, hE, hec, hA, hPT]
    rfl
  -- supporting shapes
  obtain ⟨hp1, hp2, hp3, hp4, hp5, hp6, hp7⟩ := patient_shape c s person
  rw [← hPT] at hp1 hp2 hp3 hp4 hp5 hp6 hp7
  obtain ⟨ha1, ha2, ha3, ha4, ha5⟩ := allergies_shape c PT.2.1 as PT.2.2
  rw [← hA] at ha1 ha2 ha3 ha4 ha5
  obtain ⟨he1, he2, he3, he4, he5, he6, he7⟩ := encounter_shape c A.2 ec cl
  rw [← hE] at he1 he2 he3 he4 he5 he6 he7
  -- the two location-history steps
  have hlocsE : E.2.2.locations = [] := by
    rw [show E.2.2.locations = A.2.locations from by rw [he1], ha1,
      show PT.2.2.locations = s.locations from by rw [hp1], hfl]
  have hmiss : alookup E.2.2.locations L = none := by
    rw [hlocsE]
    rfl
  obtain ⟨e1, r, hL1e, hL1r, hL1t, hL1i, hL1m, hL1n, hL1d, hL1ri, hL1rt⟩ :=
    location_refTo c E.2.2 L hmiss
  have hhit : alookup (location c E.2.2 (some L)).2.2.locations L =
      some r := by
    rw [hL1m]
    simp [alookup]
  have hstep2 : location c (location c E.2.2 (some L)).2.2 (some L) =
      (none, some r, (location c E.2.2 (some L)).2.2) := by
    rw [location, hhit]
  have hstepL : L2 = ([e1],
      [encounterLocation (some r) t1 t2, encounterLocation (some r) t3 t4],
      (location c E.2.2 (some L)).2.2) := by
    have hraw : L2 = ((location c E.2.2 (some L)).1.toList ++
        ((location c (location c E.2.2 (some L)).2.2 (some L)).1.toList ++
          []),
        encounterLocation (location c E.2.2 (some L)).2.1 t1 t2 ::
          encounterLocation
            (location c (location c E.2.2 (some L)).2.2 (some L)).2.1
            t3 t4 :: [],
        (location c (location c E.2.2 (some L)).2.2 (some L)).2.2) := by
      rw [hL2, hec]
      rfl
    rw [hraw, hstep2, hL1e, hL1r]
    rfl
  -- collapse L2 components
  have hL2one : L2.1 = [e1] := by rw [hstepL]
  have hL2locs : L2.2.1 =
      [encounterLocation (some r) t1 t2,
       encounterLocation (some r) t3 t4] := by rw [hstepL]
  -- kind facts for the filters
  obtain ⟨hq1, hq2, hq3, hq4⟩ :=
    procLoop_shape c PT.2.1 E.2.1 ec.Procedures L2.2.2
  rw [← hP] at hq1 hq2 hq3 hq4
  obtain ⟨hd1, hd2, hd3, hd4⟩ :=
    diagLoop_shape c PT.2.1 E.2.1 ec.Diagnoses P.2.2
  rw [← hD] at hd1 hd2 hd3 hd4
  obtain ⟨ho1, ho2, ho3, ho4, ho5⟩ :=
    ordersLoop_shape c E.2.1 PT.2.1 ec.Orders D.2.2
  rw [← hOB] at ho1 ho2 ho3 ho4 ho5
  have n1 : isLocationEntry PT.1 = false := by
    cases hqq : isLocationEntry PT.1
    · rfl
    · exact absurd (hp3 ▸ (isLocationEntry_iff PT.1).mp hqq) (by decide)
  have p1 : isLocationEntry e1 = true := by
    rw [isLocationEntry_iff, hL1t, hL1rt]
  have nA : A.1.filter isLocationEntry = [] := by
    refine filter_eq_nil_of_kinds isLocationEntry "Location"
      isLocationEntry_iff A.1 ?_
    intro e he
    rw [(ha5 e he).2.1]
    decide
  have nP : P.1.filter isLocationEntry = [] := by
    refine filter_eq_nil_of_kinds isLocationEntry "Location"
      isLocationEntry_iff P.1 ?_
    intro e he
    rcases (hq4 e he).2 with ht | ht <;> rw [ht] <;> decide
  have nD : D.1.filter isLocationEntry = [] := by
    refine filter_eq_nil_of_kinds isLocationEntry "Location"
      isLocationEntry_iff D.1 ?_
    intro e he
    rcases (hd4 e he).2 with ht | ht <;> rw [ht] <;> decide
  have nO : OB.1.filter isLocationEntry = [] := by
    refine filter_eq_nil_of_kinds isLocationEntry "Location"
      isLocationEntry_iff OB.1 ?_
    intro e he
    rw [(ho5 e he).2.1]
    decide
  have nE2 : isLocationEntry
      (setEncounterFields E.1 L2.2.1 (P.2.1 ++ D.2.1)) = false := by
    cases hqq : isLocationEntry (setEncounterFields E.1 L2.2.1 (P.2.1 ++ D.2.1))
    · rfl
    · have := (isLocationEntry_iff _).mp hqq
      rw [setEncounterFields_typeName, he3] at this
      exact absurd this (by decide)
  refine ⟨e1, setEncounterFields E.1 L2.2.1 (P.2.1 ++ D.2.1), r, ?_, ?_,
    ?_, ?_, hL1rt, hL1i⟩
  · rw [hbe, hL2one]
    simp [List.filter_append, List.filter_cons, n1, p1, nA, nP, nD, nO, nE2]
  · rw [hbe]
    refine List.mem_cons_of_mem _ (List.mem_append_right _ ?_)
    exact List.mem_append_right _ (List.mem_cons_self _ _)
  · rw [isEncounterEntry_iff, setEncounterFields_typeName, he3]
  · rw [show encounterLocationsOf
        (setEncounterFields E.1 L2.2.1 (P.2.1 ++ D.2.1)) = L2.2.1 from by
      rw [hE]; rfl, hL2locs]

/-- Dedup of practitioners: a fresh Bundler given one encounter with two
procedures by the same clinician produces exactly one Practitioner entry,
referenced by both Procedure entries. -/
theorem dedupPractitioner_same (c : BConfig) (s : BState) (person : Person)
    (cl st : String) (sh : List StatusHistory) (est eed : NullTime)
    (lhs : List LocationHistory) (d : Doctor) (dt1 dt2 : NullTime)
    (de1 de2 : Option CodedElement) (ty1 ty2 : String) (as : List Allergy)
    (os : List Order) (b : Bundle) (s' : BState) (hfd : s.doctors = [])
    (hok : Generate c s (some
      { Person := some person, Class := cl, Allergies := as
        Encounters := [{ Status := st, StatusHistory := sh, Start := est
                         End := eed, LocationHistory := lhs
                         Procedures :=
                           [{ Clinician := some d, DateTime := dt1
                              Description := de1, Typ := ty1 },
                            { Clinician := some d, DateTime := dt2
                              Description := de2, Typ := ty2 }]
                         Diagnoses := [], Orders := os }] }) = .ok b s') :
    ∃ pe q1e q2e r, b.Entry.filter isPractitionerEntry = [pe] ∧
      b.Entry.filter isProcedureEntry = [q1e, q2e] ∧
      performersOf q1e = [{ Actor := some r }] ∧
      performersOf q2e = [{ Actor := some r }] ∧
      r.RefType = "Practitioner" ∧ pe.Resource.resId = r.RefId := by
  simp only [Generate] at hok
  injection hok with h1 h2
  set PT := patient c s person with hPT
  set A := allergies c PT.2.2 PT.2.1 as with hA
  set pr1 : DiagnosisOrProcedure :=
    { Clinician := some d, DateTime := dt1, Description := de1
      Typ := ty1 } with hpr1
  set pr2 : DiagnosisOrProcedure :=
    { Clinician := some d, DateTime := dt2, Description := de2
      Typ := ty2 } with hpr2
  set ec : Encounter :=
    { Status := st, StatusHistory := sh, Start := est, End := eed
      LocationHistory := lhs, Procedures := [pr1, pr2], Diagnoses := []
      Orders := os } with hec
  set E := encounter c A.2 ec cl with hE
  set L2 := locLoop c E.2.2 ec.LocationHistory with hL2
  set P := procLoop c L2.2.2 PT.2.1 E.2.1 ec.Procedures with hP
  set D := diagLoop c P.2.2 PT.2.1 E.2.1 ec.Diagnoses with hD
  set OB := ordersLoop c D.2.2 E.2.1 PT.2.1 ec.Orders with hOB
  have hbe : b.Entry = PT.1 :: (A.1 ++
      (L2.1 ++ P.1 ++ D.1 ++
        setEncounterFields E.1 L2.2.1 (P.2.1 ++ D.2.1) ::
          (OB.1 ++ []))) := by
    rw [← h1, hOB, hD, hP, hL2, hE, hec, hA, hPT]
    rfl
  obtain ⟨hp1, hp2, hp3, hp4, hp5, hp6, hp7⟩ := patient_shape c s person
  rw [← hPT] at hp1 hp2 hp3 hp4 hp5 hp6 hp7
  obtain ⟨ha1, ha2, ha3, ha4, ha5⟩ := allergies_shape c PT.2.1 as PT.2.2
  rw [← hA] at ha1 ha2 ha3 ha4 ha5
  obtain ⟨he1, he2, he3, he4, he5, he6, he7⟩ := encounter_shape c A.2 ec cl
  rw [← hE] at he1 he2 he3 he4 he5 he6 he7
  obtain ⟨hl1, hl2, hl3, hl4⟩ :=
    locLoop_shape c ec.LocationHistory E.2.2
  rw [← hL2] at hl1 hl2 hl3 hl4
  -- the two procedure steps share one practitioner
  set W1 := practitioner c L2.2.2 (some d) with hW1
  set Q1 := procedure c W1.2.2 pr1 PT.2.1 W1.2.1 E.2.1 with hQ1
  set W2 := practitioner c Q1.2.2 (some d) with hW2
  set Q2 := procedure c W2.2.2 pr2 PT.2.1 W2.2.1 E.2.1 with hQ2
  have hdocs2 : L2.2.2.doctors = [] := by
    rw [hl1, show E.2.2.doctors = A.2.doctors from by rw [he1], ha2,
      show PT.2.2.doctors = s.doctors from by rw [hp1], hfd]
  have hmiss : alookup L2.2.2.doctors d = none := by
    rw [hdocs2]
    rfl
  obtain ⟨ew, rw1, hW1e, hW1r, hW1t, hW1i, hW1m, hW1n, hW1l, hW1ri,
    hW1rt⟩ := practitioner_refTo c L2.2.2 d hmiss
  rw [← hW1] at hW1e hW1r hW1m hW1n hW1l
  obtain ⟨hq1, hq2, hq3, hq4, hq5, hq6, hq7⟩ :=
    procedure_shape c W1.2.2 pr1 PT.2.1 W1.2.1 E.2.1
  rw [← hQ1] at hq1 hq2 hq3 hq4 hq5 hq6 hq7
  have hhit : alookup Q1.2.2.doctors d = some rw1 := by
    rw [show Q1.2.2.doctors = W1.2.2.doctors from by rw [hq1], hW1m,
      hdocs2]
    simp [alookup]
  have hW2eq : W2 = (none, some rw1, Q1.2.2) := by
    rw [hW2, practitioner, hhit]
  have hQ2eq : Q2 = procedure c Q1.2.2 pr2 PT.2.1 (some rw1) E.2.1 := by
    rw [hQ2, hW2eq]
  obtain ⟨hr1, hr2, hr3, hr4, hr5, hr6, hr7⟩ :=
    procedure_shape c Q1.2.2 pr2 PT.2.1 (some rw1) E.2.1
  rw [← hQ2eq] at hr1 hr2 hr3 hr4 hr5 hr6 hr7
  have hrawP : P = (W1.1.toList ++ Q1.1 :: (W2.1.toList ++ Q2.1 :: []),
      encounterDiagnosis Q1.2.1 :: encounterDiagnosis Q2.2.1 :: [],
      Q2.2.2) := by
    rw [hP]
    rfl
  have hPone : P.1 = ew :: Q1.1 :: Q2.1 :: [] := by
    rw [hrawP, hW1e, hW2eq]
    rfl
  have hDnil : D.1 = [] := by
    rw [hD]
    rfl
  obtain ⟨ho1, ho2, ho3, ho4, ho5⟩ :=
    ordersLoop_shape c E.2.1 PT.2.1 ec.Orders D.2.2
  rw [← hOB] at ho1 ho2 ho3 ho4 ho5
  -- kind bookkeeping
  have hewt : ew.Resource.typeName = "Practitioner" := by
    rw [hW1t, hW1rt]
  have ppe : isPractitionerEntry ew = true := by
    rw [isPractitionerEntry_iff, hewt]
  have pq1 : isPractitionerEntry Q1.1 = false := by
    cases hqq : isPractitionerEntry Q1.1
    · rfl
    · exact absurd (hq3 ▸ (isPractitionerEntry_iff Q1.1).mp hqq) (by decide)
  have pq2 : isPractitionerEntry Q2.1 = false := by
    cases hqq : isPractitionerEntry Q2.1
    · rfl
    · exact absurd (hr3 ▸ (isPractitionerEntry_iff Q2.1).mp hqq) (by decide)
  have qpe : isProcedureEntry ew = false := by
    cases hqq : isProcedureEntry ew
    · rfl
    · exact absurd (hewt ▸ (isProcedureEntry_iff ew).mp hqq) (by decide)
  have qq1 : isProcedureEntry Q1.1 = true := by
    rw [isProcedureEntry_iff, hq3]
  have qq2 : isProcedureEntry Q2.1 = true := by
    rw [isProcedureEntry_iff, hr3]
  have n1p : isPractitionerEntry PT.1 = false := by
    cases hqq : isPractitionerEntry PT.1
    · rfl
    · exact absurd (hp3 ▸ (isPractitionerEntry_iff PT.1).mp hqq) (by decide)
  have n1q : isProcedureEntry PT.1 = false := by
    cases hqq : isProcedureEntry PT.1
    · rfl
    · exact absurd (hp3 ▸ (isProcedureEntry_iff PT.1).mp hqq) (by decide)
  have nAp : A.1.filter isPractitionerEntry = [] :=
    filter_eq_nil_of_kinds isPractitionerEntry "Practitioner"
      isPractitionerEntry_iff A.1
      (fun e he => by rw [(ha5 e he).2.1]; decide)
  have nAq : A.1.filter isProcedureEntry = [] :=
    filter_eq_nil_of_kinds isProcedureEntry "Procedure"
      isProcedureEntry_iff A.1
      (fun e he => by rw [(ha5 e he).2.1]; decide)
  have nLp : L2.1.filter isPractitionerEntry = [] :=
    filter_eq_nil_of_kinds isPractitionerEntry "Practitioner"
      isPractitionerEntry_iff L2.1
      (fun e he => by rw [(hl4 e he).2.1]; decide)
  have nLq : L2.1.filter isProcedureEntry = [] :=
    filter_eq_nil_of_kinds isProcedureEntry "Procedure"
      isProcedureEntry_iff L2.1
      (fun e he => by rw [(hl4 e he).2.1]; decide)
  have nOp : OB.1.filter isPractitionerEntry = [] :=
    filter_eq_nil_of_kinds isPractitionerEntry "Practitioner"
      isPractitionerEntry_iff OB.1
      (fun e he => by rw [(ho5 e he).2.1]; decide)
  have nOq : OB.1.filter isProcedureEntry = [] :=
    filter_eq_nil_of_kinds isProcedureEntry "Procedure"
      isProcedureEntry_iff OB.1
      (fun e he => by rw [(ho5 e he).2.1]; decide)
  have nE2p : isPractitionerEntry
      (setEncounterFields E.1 L2.2.1 (P.2.1 ++ D.2.1)) = false := by
    cases hqq : isPractitionerEntry
      (setEncounterFields E.1 L2.2.1 (P.2.1 ++ D.2.1))
    · rfl
    · have := (isPractitionerEntry_iff _).mp hqq
      rw [setEncounterFields_typeName, he3] at this
      exact absurd this (by decide)
  have nE2q : isProcedureEntry
      (setEncounterFields E.1 L2.2.1 (P.2.1 ++ D.2.1)) = false := by
    cases hqq : isProcedureEntry
      (setEncounterFields E.1 L2.2.1 (P.2.1 ++ D.2.1))
    · rfl
    · have := (isProcedureEntry_iff _).mp hqq
      rw [setEncounterFields_typeName, he3] at this
      exact absurd this (by decide)
  refine ⟨ew, Q1.1, Q2.1, rw1, ?_, ?_, ?_, ?_, hW1rt, hW1i⟩
  · rw [hbe, hPone, hDnil]
    simp [List.filter_append, List.filter_cons, n1p, nAp, nLp, ppe, pq1,
      pq2, nE2p, nOp]
  · rw [hbe, hPone, hDnil]
    simp [List.filter_append, List.filter_cons, n1q, nAq, nLq, qpe, qq1,
      qq2, nE2q, nOq]
  · rw [show performersOf Q1.1 = [{ Actor := W1.2.1 }] from by
      rw [hQ1]; rfl, hW1r]
  · rw [show performersOf Q2.1 =
        [{ Actor := (some rw1 : Option Reference) }] from by
      rw [hQ2eq]; rfl]

/-- No dedup across distinct practitioners: a fresh Bundler given one
encounter with two procedures by clinicians with different field values
produces two distinct Practitioner entries. -/
theorem dedupPractitioner_diff (c : BConfig) (s : BState) (person : Person)
    (cl st : String) (sh : List StatusHistory) (est eed : NullTime)
    (lhs : List LocationHistory) (d1 d2 : Doctor) (dt1 dt2 : NullTime)
    (de1 de2 : Option CodedElement) (ty1 ty2 : String) (as : List Allergy)
    (os : List Order) (b : Bundle) (s' : BState) (hfd : s.doctors = [])
    (hne : d1 ≠ d2) (hinj : Function.Injective c.gen)
    (hok : Generate c s (some
      { Person := some person, Class := cl, Allergies := as
        Encounters := [{ Status := st, StatusHistory := sh, Start := est
                         End := eed, LocationHistory := lhs
                         Procedures :=
                           [{ Clinician := some d1, DateTime := dt1
                              Description := de1, Typ := ty1 },
                            { Clinician := some d2, DateTime := dt2
                              Description := de2, Typ := ty2 }]
                         Diagnoses := [], Orders := os }] }) = .ok b s') :
    ∃ pe1 pe2, b.Entry.filter isPractitionerEntry = [pe1, pe2] ∧
      pe1 ≠ pe2 := by
  simp only [Generate] at hok
  injection hok with h1 h2
  set PT := patient c s person with hPT
  set A := allergies c PT.2.2 PT.2.1 as with hA
  set pr1 : DiagnosisOrProcedure :=
    { Clinician := some d1, DateTime := dt1, Description := de1
      Typ := ty1 } with hpr1
  set pr2 : DiagnosisOrProcedure :=
    { Clinician := some d2, DateTime := dt2, Description := de2
      Typ := ty2 } with hpr2
  set ec : Encounter :=
    { Status := st, StatusHistory := sh, Start := est, End := eed
      LocationHistory := lhs, Procedures := [pr1, pr2], Diagnoses := []
      Orders := os } with hec
  set E := encounter c A.2 ec cl with hE
  set L2 := locLoop c E.2.2 ec.LocationHistory with hL2
  set P := procLoop c L2.2.2 PT.2.1 E.2.1 ec.Procedures with hP
  set D := diagLoop c P.2.2 PT.2.1 E.2.1 ec.Diagnoses with hD
  set OB := ordersLoop c D.2.2 E.2.1 PT.2.1 ec.Orders with hOB
  have hbe : b.Entry = PT.1 :: (A.1 ++
      (L2.1 ++ P.1 ++ D.1 ++
        setEncounterFields E.1 L2.2.1 (P.2.1 ++ D.2.1) ::
          (OB.1 ++ []))) := by
    rw [← h1, hOB, hD, hP, hL2, hE, hec, hA, hPT]
    rfl
  obtain ⟨hp1, hp2, hp3, hp4, hp5, hp6, hp7⟩ := patient_shape c s person
  rw [← hPT] at hp1 hp2 hp3 hp4 hp5 hp6 hp7
  obtain ⟨ha1, ha2, ha3, ha4, ha5⟩ := allergies_shape c PT.2.1 as PT.2.2
  rw [← hA] at ha1 ha2 ha3 ha4 ha5
  obtain ⟨he1, he2, he3, he4, he5, he6, he7⟩ := encounter_shape c A.2 ec cl
  rw [← hE] at he1 he2 he3 he4 he5 he6 he7
  obtain ⟨hl1, hl2, hl3, hl4⟩ :=
    locLoop_shape c ec.LocationHistory E.2.2
  rw [← hL2] at hl1 hl2 hl3 hl4
  set W1 := practitioner c L2.2.2 (some d1) with hW1
  set Q1 := procedure c W1.2.2 pr1 PT.2.1 W1.2.1 E.2.1 with hQ1
  set W2 := practitioner c Q1.2.2 (some d2) with hW2
  set Q2 := procedure c W2.2.2 pr2 PT.2.1 W2.2.1 E.2.1 with hQ2
  have hdocs2 : L2.2.2.doctors = [] := by
    rw [hl1, show E.2.2.doctors = A.2.doctors from by rw [he1], ha2,
      show PT.2.2.doctors = s.doctors from by rw [hp1], hfd]
  have hmiss : alookup L2.2.2.doctors d1 = none := by
    rw [hdocs2]
    rfl
  obtain ⟨ew1, rw1, hW1e, hW1r, hW1t, hW1i, hW1m, hW1n, hW1l, hW1ri,
    hW1rt⟩ := practitioner_refTo c L2.2.2 d1 hmiss
  rw [← hW1] at hW1e hW1r hW1m hW1n hW1l
  obtain ⟨hq1, hq2, hq3, hq4, hq5, hq6, hq7⟩ :=
    procedure_shape c W1.2.2 pr1 PT.2.1 W1.2.1 E.2.1
  rw [← hQ1] at hq1 hq2 hq3 hq4 hq5 hq6 hq7
  have hmiss2 : alookup Q1.2.2.doctors d2 = none := by
    rw [show Q1.2.2.doctors = W1.2.2.doctors from by rw [hq1], hW1m,
      hdocs2]
    simp [alookup]
    intro hx
    exact absurd hx hne
  obtain ⟨ew2, rw2, hV1e, hV1r, hV1t, hV1i, hV1m, hV1n, hV1l, hV1ri,
    hV1rt⟩ := practitioner_refTo c Q1.2.2 d2 hmiss2
  rw [← hW2] at hV1e hV1r hV1m hV1n hV1l
  obtain ⟨hr1, hr2, hr3, hr4, hr5, hr6, hr7⟩ :=
    procedure_shape c W2.2.2 pr2 PT.2.1 W2.2.1 E.2.1
  rw [← hQ2] at hr1 hr2 hr3 hr4 hr5 hr6 hr7
  have hrawP : P = (W1.1.toList ++ Q1.1 :: (W2.1.toList ++ Q2.1 :: []),
      encounterDiagnosis Q1.2.1 :: encounterDiagnosis Q2.2.1 :: [],
      Q2.2.2) := by
    rw [hP]
    rfl
  have hPone : P.1 = ew1 :: Q1.1 :: ew2 :: Q2.1 :: [] := by
    rw [hrawP, hW1e, hV1e]
    rfl
  have hDnil : D.1 = [] := by
    rw [hD]
    rfl
  obtain ⟨ho1, ho2, ho3, ho4, ho5⟩ :=
    ordersLoop_shape c E.2.1 PT.2.1 ec.Orders D.2.2
  rw [← hOB] at ho1 ho2 ho3 ho4 ho5
  have hewt1 : ew1.Resource.typeName = "Practitioner" := by
    rw [hW1t, hW1rt]
  have hewt2 : ew2.Resource.typeName = "Practitioner" := by
    rw [hV1t, hV1rt]
  have ppe1 : isPractitionerEntry ew1 = true := by
    rw [isPractitionerEntry_iff, hewt1]
  have ppe2 : isPractitionerEntry ew2 = true := by
    rw [isPractitionerEntry_iff, hewt2]
  have pq1 : isPractitionerEntry Q1.1 = false := by
    cases hqq : isPractitionerEntry Q1.1
    · rfl
    · exact absurd (hq3 ▸ (isPractitionerEntry_iff Q1.1).mp hqq) (by decide)
  have pq2 : isPractitionerEntry Q2.1 = false := by
    cases hqq : isPractitionerEntry Q2.1
    · rfl
    · exact absurd (hr3 ▸ (isPractitionerEntry_iff Q2.1).mp hqq) (by decide)
  have n1p : isPractitionerEntry PT.1 = false := by
    cases hqq : isPractitionerEntry PT.1
    · rfl
    · exact absurd (hp3 ▸ (isPractitionerEntry_iff PT.1).mp hqq) (by decide)
  have nAp : A.1.filter isPractitionerEntry = [] :=
    filter_eq_nil_of_kinds isPractitionerEntry "Practitioner"
      isPractitionerEntry_iff A.1
      (fun e he => by rw [(ha5 e he).2.1]; decide)
  have nLp : L2.1.filter isPractitionerEntry = [] :=
    filter_eq_nil_of_kinds isPractitionerEntry "Practitioner"
      isPractitionerEntry_iff L2.1
      (fun e he => by rw [(hl4 e he).2.1]; decide)
  have nOp : OB.1.filter isPractitionerEntry = [] :=
    filter_eq_nil_of_kinds isPractitionerEntry "Practitioner"
      isPractitionerEntry_iff OB.1
      (fun e he => by rw [(ho5 e he).2.1]; decide)
  have nE2p : isPractitionerEntry
      (setEncounterFields E.1 L2.2.1 (P.2.1 ++ D.2.1)) = false := by
    cases hqq : isPractitionerEntry
      (setEncounterFields E.1 L2.2.1 (P.2.1 ++ D.2.1))
    · rfl
    · have := (isPractitionerEntry_iff _).mp hqq
      rw [setEncounterFields_typeName, he3] at this
      exact absurd this (by decide)
  refine ⟨ew1, ew2, ?_, ?_⟩
  · rw [hbe, hPone, hDnil]
    simp [List.filter_append, List.filter_cons, n1p, nAp, nLp, ppe1, ppe2,
      pq1, pq2, nE2p, nOp]
  · intro heq
    have hid1 : ew1.Resource.resId = c.gen L2.2.2.nextID := by
      rw [hW1i, hW1ri]
    have hid2 : ew2.Resource.resId = c.gen (L2.2.2.nextID + 2) := by
      rw [hV1i, hV1ri,
        show Q1.2.2.nextID = W1.2.2.nextID + 1 from by rw [hq1], hW1n]
    have : c.gen L2.2.2.nextID = c.gen (L2.2.2.nextID + 2) := by
      rw [← hid1, ← hid2, heq]
    have := hinj this
    omega

/-- C1: in a single Generate call on a fresh Bundler, two location-history
entries with identical Location values yield exactly one Location entry
referenced by both encounter location-period entries; two procedures by
clinicians with identical Doctor values yield exactly one Practitioner
entry referenced by both Procedure entries; two procedures by clinicians
with different Doctor values yield two distinct Practitioner entries. -/
theorem C1_dedup_locations_practitioners :
    (∀ (c : BConfig) (s : BState) (person : Person) (cl st : String)
      (sh : List StatusHistory) (est eed : NullTime) (L : PatientLocation)
      (t1 t2 t3 t4 : NullTime) (as : List Allergy)
      (prs dss : List DiagnosisOrProcedure) (os : List Order) (b : Bundle)
      (s' : BState), s.locations = [] →
      Generate c s (some
        { Person := some person, Class := cl, Allergies := as
          Encounters := [{ Status := st, StatusHistory := sh, Start := est
                           End := eed
                           LocationHistory :=
                             [{ Location := some L, Start := t1, End := t2 },
                              { Location := some L, Start := t3, End := t4 }]
                           Procedures := prs, Diagnoses := dss
                           Orders := os }] }) = .ok b s' →
      ∃ le ee r, b.Entry.filter isLocationEntry = [le] ∧
        ee ∈ b.Entry ∧ isEncounterEntry ee = true ∧
        encounterLocationsOf ee =
          [encounterLocation (some r) t1 t2,
           encounterLocation (some r) t3 t4] ∧
        r.RefType = "Location" ∧ le.Resource.resId = r.RefId) ∧
    (∀ (c : BConfig) (s : BState) (person : Person) (cl st : String)
      (sh : List StatusHistory) (est eed : NullTime)
      (lhs : List LocationHistory) (d : Doctor) (dt1 dt2 : NullTime)
      (de1 de2 : Option CodedElement) (ty1 ty2 : String)
      (as : List Allergy) (os : List Order) (b : Bundle) (s' : BState),
      s.doctors = [] →
      Generate c s (some
        { Person := some person, Class := cl, Allergies := as
          Encounters := [{ Status := st, StatusHistory := sh, Start := est
                           End := eed, LocationHistory := lhs
                           Procedures :=
                             [{ Clinician := some d, DateTime := dt1
                                Description := de1, Typ := ty1 },
                              { Clinician := some d, DateTime := dt2
                                Description := de2, Typ := ty2 }]
                           Diagnoses := [], Orders := os }] }) = .ok b s' →
      ∃ pe q1e q2e r, b.Entry.filter isPractitionerEntry = [pe] ∧
        b.Entry.filter isProcedureEntry = [q1e, q2e] ∧
        performersOf q1e = [{ Actor := some r }] ∧
        performersOf q2e = [{ Actor := some r }] ∧
        r.RefType = "Practitioner" ∧ pe.Resource.resId = r.RefId) ∧
    (∀ (c : BConfig) (s : BState) (person : Person) (cl st : String)
      (sh : List StatusHistory) (est eed : NullTime)
      (lhs : List LocationHistory) (d1 d2 : Doctor) (dt1 dt2 : NullTime)
      (de1 de2 : Option CodedElement) (ty1 ty2 : String)
      (as : List Allergy) (os : List Order) (b : Bundle) (s' : BState),
      s.doctors = [] → d1 ≠ d2 → Function.Injective c.gen →
      Generate c s (some
        { Person := some person, Class := cl, Allergies := as
          Encounters := [{ Status := st, StatusHistory := sh, Start := est
                           End := eed, LocationHistory := lhs
                           Procedures :=
                             [{ Clinician := some d1, DateTime := dt1
                                Description := de1, Typ := ty1 },
                              { Clinician := some d2, DateTime := dt2
                                Description := de2, Typ := ty2 }]
                           Diagnoses := [], Orders := os }] }) = .ok b s' →
      ∃ pe1 pe2, b.Entry.filter isPractitionerEntry = [pe1, pe2] ∧
        pe1 ≠ pe2) :=
  ⟨dedupLocations_two, dedupPractitioner_same, dedupPractitioner_diff⟩

/-- Witness for C1 at the concrete dedup run (the location half). -/
theorem C1_witness :
    ∃ le ee r, wBundleC1.Entry.filter isLocationEntry = [le] ∧
      ee ∈ wBundleC1.Entry ∧ isEncounterEntry ee = true ∧
      encounterLocationsOf ee =
        [encounterLocation (some r) (wT 1) (wT 2),
         encounterLocation (some r) (wT 3) (wT 4)] ∧
      r.RefType = "Location" ∧ le.Resource.resId = r.RefId :=
  C1_dedup_locations_practitioners.1 wCfg wState wPerson "IP" "finished"
    [] (wT 10) (wT 20) wLoc (wT 1) (wT 2) (wT 3) (wT 4) [] [] [] []
    wBundleC1 wStateC1 rfl rfl

/-- C10: the dedup registries persist across Generate calls on one
Bundler.  If a first call from a fresh Bundler registered a Location value
and a Doctor value, a later call whose record contains structurally equal
values creates no new Location or Practitioner entry: the later bundle's
location-period entry and procedure performer carry the registered
references, which resolve to entries of the earlier bundle. -/
theorem C10_registry_persists : ∀ (c : BConfig) (s0 : BState)
    (p1 : PatientInfo) (b1 : Bundle) (s1 : BState) (L : PatientLocation)
    (r : Reference) (D : Doctor) (rd : Reference) (person2 : Person)
    (cl st : String) (sh : List StatusHistory)
    (est eed t1 t2 dt : NullTime) (de : Option CodedElement) (ty : String)
    (b2 : Bundle) (s2 : BState),
    s0.locations = [] → s0.doctors = [] →
    Generate c s0 (some p1) = .ok b1 s1 →
    alookup s1.locations L = some r →
    alookup s1.doctors D = some rd →
    Generate c s1 (some
      { Person := some person2, Class := cl, Allergies := []
        Encounters := [{ Status := st, StatusHistory := sh, Start := est
                         End := eed
                         LocationHistory :=
                           [{ Location := some L, Start := t1, End := t2 }]
                         Procedures :=
                           [{ Clinician := some D, DateTime := dt
                              Description := de, Typ := ty }]
                         Diagnoses := [], Orders := [] }] }) = .ok b2 s2 →
    ∃ ee qe, b2.Entry.filter isLocationEntry = [] ∧
      b2.Entry.filter isPractitionerEntry = [] ∧
      ee ∈ b2.Entry ∧ isEncounterEntry ee = true ∧
      encounterLocationsOf ee = [encounterLocation (some r) t1 t2] ∧
      b2.Entry.filter isProcedureEntry = [qe] ∧
      performersOf qe = [{ Actor := some rd }] ∧
      resolves b1.Entry r ∧ resolves b1.Entry rd := by
  intro c s0 p1 b1 s1 L r D rd person2 cl st sh est eed t1 t2 dt de ty
    b2 s2 hfl hfd hok1 hlookL hlookD hok2
  -- the registered references resolve in the first bundle
  obtain ⟨_, hm1, hm2⟩ := generate_resolve c s0 p1 b1 s1 hfl hfd hok1
  have hres1 : resolves b1.Entry r :=
    hm1 (L, r) (alookup_mem s1.locations L r hlookL)
  have hres2 : resolves b1.Entry rd :=
    hm2 (D, rd) (alookup_mem s1.doctors D rd hlookD)
  -- decompose the second run
  simp only [Generate] at hok2
  injection hok2 with h1 h2
  set PT := patient c s1 person2 with hPT
  set A := allergies c PT.2.2 PT.2.1 [] with hA
  set pr1 : DiagnosisOrProcedure :=
    { Clinician := some D, DateTime := dt, Description := de
      Typ := ty } with hpr1
  set ec : Encounter :=
    { Status := st, StatusHistory := sh, Start := est, End := eed
      LocationHistory := [{ Location := some L, Start := t1, End := t2 }]
      Procedures := [pr1], Diagnoses := [], Orders := [] } with hec
  set E := encounter c A.2 ec cl with hE
  set L2 := locLoop c E.2.2 ec.LocationHistory with hL2
  set P := procLoop c L2.2.2 PT.2.1 E.2.1 ec.Procedures with hP
  set D2 := diagLoop c P.2.2 PT.2.1 E.2.1 ec.Diagnoses with hD2
  set OB := ordersLoop c D2.2.2 E.2.1 PT.2.1 ec.Orders with hOB
  have hbe : b2.Entry = PT.1 :: (A.1 ++
      (L2.1 ++ P.1 ++ D2.1 ++
        setEncounterFields E.1 L2.2.1 (P.2.1 ++ D2.2.1) ::
          (OB.1 ++ []))) := by
    rw [← h1, hOB, hD2, hP, hL2, hE, hec, hA, hPT]
    rfl
  obtain ⟨hp1, hp2, hp3, hp4, hp5, hp6, hp7⟩ := patient_shape c s1 person2
  rw [← hPT] at hp1 hp2 hp3 hp4 hp5 hp6 hp7
  obtain ⟨he1, he2, he3, he4, he5, he6, he7⟩ := encounter_shape c A.2 ec cl
  rw [← hE] at he1 he2 he3 he4 he5 he6 he7
  have hAnil : A.1 = [] := by
    rw [hA]
    rfl
  have hA2 : A.2 = PT.2.2 := by
    rw [hA]
    rfl
  -- the location lookup hits the registered reference
  have hlocsE : E.2.2.locations = s1.locations := by
    rw [show E.2.2.locations = A.2.locations from by rw [he1], hA2,
      show PT.2.2.locations = s1.locations from by rw [hp1]]
  have hhitL : alookup E.2.2.locations L = some r := by
    rw [hlocsE]
    exact hlookL
  have hstepLoc : location c E.2.2 (some L) = (none, some r, E.2.2) := by
    rw [location, hhitL]
  have hstepL2 : L2 = ([], [encounterLocation (some r) t1 t2], E.2.2) := by
    have hraw : L2 = ((location c E.2.2 (some L)).1.toList ++ [],
        encounterLocation (location c E.2.2 (some L)).2.1 t1 t2 :: [],
        (locLoop c (location c E.2.2 (some L)).2.2 []).2.2) := by
      rw [hL2]
      rfl
    rw [hraw, hstepLoc]
    rfl
  have hL2nil : L2.1 = [] := by rw [hstepL2]
  have hL2locs : L2.2.1 = [encounterLocation (some r) t1 t2] := by
    rw [hstepL2]
  have hL2st : L2.2.2 = E.2.2 := by rw [hstepL2]
  -- the practitioner lookup hits the registered reference
  have hdocs2 : L2.2.2.doctors = s1.doctors := by
    rw [hL2st, show E.2.2.doctors = A.2.doctors from by rw [he1], hA2,
      show PT.2.2.doctors = s1.doctors from by rw [hp1]]
  have hhitD : alookup L2.2.2.doctors D = some rd := by
    rw [hdocs2]
    exact hlookD
  have hstepW : practitioner c L2.2.2 (some D) = (none, some rd, L2.2.2) := by
    rw [practitioner, hhitD]
  set Q1 := procedure c L2.2.2 pr1 PT.2.1 (some rd) E.2.1 with hQ1
  have hstepP : P = ([] ++ Q1.1 :: [],
      encounterDiagnosis Q1.2.1 :: [], Q1.2.2) := by
    have hraw : P = ((practitioner c L2.2.2 (some D)).1.toList ++
        (procedure c (practitioner c L2.2.2 (some D)).2.2 pr1 PT.2.1
          (practitioner c L2.2.2 (some D)).2.1 E.2.1).1 :: [],
        encounterDiagnosis
          (procedure c (practitioner c L2.2.2 (some D)).2.2 pr1 PT.2.1
            (practitioner c L2.2.2 (some D)).2.1 E.2.1).2.1 :: [],
        (procedure c (practitioner c L2.2.2 (some D)).2.2 pr1 PT.2.1
          (practitioner c L2.2.2 (some D)).2.1 E.2.1).2.2) := by
      rw [hP]
      rfl
    rw [hraw, hstepW]
    rfl
  have hPone : P.1 = [Q1.1] := by rw [hstepP]; rfl
  obtain ⟨hq1, hq2, hq3, hq4, hq5, hq6, hq7⟩ :=
    procedure_shape c L2.2.2 pr1 PT.2.1 (some rd) E.2.1
  rw [← hQ1] at hq1 hq2 hq3 hq4 hq5 hq6 hq7
  have hD2nil : D2.1 = [] := by
    rw [hD2]
    rfl
  have hOBnil : OB.1 = [] := by
    rw [hOB]
    rfl
  -- kind bookkeeping
  have n1l : isLocationEntry PT.1 = false := by
    cases hqq : isLocationEntry PT.1
    · rfl
    · exact absurd (hp3 ▸ (isLocationEntry_iff PT.1).mp hqq) (by decide)
  have n1p : isPractitionerEntry PT.1 = false := by
    cases hqq : isPractitionerEntry PT.1
    · rfl
    · exact absurd (hp3 ▸ (isPractitionerEntry_iff PT.1).mp hqq) (by decide)
  have n1q : isProcedureEntry PT.1 = false := by
    cases hqq : isProcedureEntry PT.1
    · rfl
    · exact absurd (hp3 ▸ (isProcedureEntry_iff PT.1).mp hqq) (by decide)
  have nq1l : isLocationEntry Q1.1 = false := by
    cases hqq : isLocationEntry Q1.1
    · rfl
    · exact absurd (hq3 ▸ (isLocationEntry_iff Q1.1).mp hqq) (by decide)
  have nq1p : isPractitionerEntry Q1.1 = false := by
    cases hqq : isPractitionerEntry Q1.1
    · rfl
    · exact absurd (hq3 ▸ (isPractitionerEntry_iff Q1.1).mp hqq) (by decide)
  have pq1 : isProcedureEntry Q1.1 = true := by
    rw [isProcedureEntry_iff, hq3]
  have nE2l : isLocationEntry
      (setEncounterFields E.1 L2.2.1 (P.2.1 ++ D2.2.1)) = false := by
    cases hqq : isLocationEntry
      (setEncounterFields E.1 L2.2.1 (P.2.1 ++ D2.2.1))
    · rfl
    · have := (isLocationEntry_iff _).mp hqq
      rw [setEncounterFields_typeName, he3] at this
      exact absurd this (by decide)
  have nE2p : isPractitionerEntry
      (setEncounterFields E.1 L2.2.1 (P.2.1 ++ D2.2.1)) = false := by
    cases hqq : isPractitionerEntry
      (setEncounterFields E.1 L2.2.1 (P.2.1 ++ D2.2.1))
    · rfl
    · have := (isPractitionerEntry_iff _).mp hqq
      rw [setEncounterFields_typeName, he3] at this
      exact absurd this (by decide)
  have nE2q : isProcedureEntry
      (setEncounterFields E.1 L2.2.1 (P.2.1 ++ D2.2.1)) = false := by
    cases hqq : isProcedureEntry
      (setEncounterFields E.1 L2.2.1 (P.2.1 ++ D2.2.1))
    · rfl
    · have := (isProcedureEntry_iff _).mp hqq
      rw [setEncounterFields_typeName, he3] at this
      exact absurd this (by decide)
  refine ⟨setEncounterFields E.1 L2.2.1 (P.2.1 ++ D2.2.1), Q1.1, ?_, ?_,
    ?_, ?_, ?_, ?_, ?_, hres1, hres2⟩
  · rw [hbe, hAnil, hL2nil, hPone, hD2nil, hOBnil]
    simp [List.filter_append, List.filter_cons, n1l, nq1l, nE2l]
  · rw [hbe, hAnil, hL2nil, hPone, hD2nil, hOBnil]
    simp [List.filter_append, List.filter_cons, n1p, nq1p, nE2p]
  · rw [hbe]
    refine List.mem_cons_of_mem _ (List.mem_append_right _ ?_)
    exact List.mem_append_right _ (List.mem_cons_self _ _)
  · rw [isEncounterEntry_iff, setEncounterFields_typeName, he3]
  · rw [show encounterLocationsOf
        (setEncounterFields E.1 L2.2.1 (P.2.1 ++ D2.2.1)) = L2.2.1 from by
      rw [hE]; rfl, hL2locs]
  · rw [hbe, hAnil, hL2nil, hPone, hD2nil, hOBnil]
    simp [List.filter_append, List.filter_cons, n1q, pq1, nE2q]
  · rw [show performersOf Q1.1 =
        [{ Actor := (some rd : Option Reference) }] from by
      rw [hQ1]; rfl]

/-- Witness for C10: the second concrete run revisits the location and the
doctor of the first run. -/
theorem C10_witness :
    ∃ ee qe, wBundleC10.Entry.filter isLocationEntry = [] ∧
      wBundleC10.Entry.filter isPractitionerEntry = [] ∧
      ee ∈ wBundleC10.Entry ∧ isEncounterEntry ee = true ∧
      encounterLocationsOf ee =
        [encounterLocation (some wRefLoc) (wT 31) (wT 32)] ∧
      wBundleC10.Entry.filter isProcedureEntry = [qe] ∧
      performersOf qe = [{ Actor := some wRefDoc }] ∧
      resolves wBundle.Entry wRefLoc ∧ resolves wBundle.Entry wRefDoc :=
  C10_registry_persists wCfg wState wInfo wBundle wStateAfter wLoc wRefLoc
    wDoc wRefDoc wPerson "IP" "finished" [] (wT 30) (wT 40) (wT 31)
    (wT 32) (wT 33) none "op" wBundleC10 wStateC10 rfl rfl rfl
    (by decide) (by decide) rfl

end SimHosp
